import Mathlib

/-!
# Decoder harness (exe_decoder/main.cpp): conversion dispatch, output writer, display callback

A shallow embedding of the parts of `exe_decoder/main.cpp` that select a pixel
conversion routine, lay out the conversion buffer, write a frame and react to
display notifications, followed by theorems about them.

Conventions.
* C `int` values are `Int`; arithmetic on them is exact as long as the C value is
  defined (signed overflow is undefined in the source language).  The operands of the
  bitwise key `GetConvFormat` are non-negative and are `Nat`, the key is kept to 32 bits.
* `unsigned int` / `uint32_t` values are `Nat` reduced modulo `2 ^ 32`.
* A failed `assert` or a thrown exception is the `none` / `Except.error` result.
* Library routines, constants and macros that are not part of the sources are
  parameters (`Externals`, `ErrorCodes`).
* Effects on collaborators that are not part of the sources (the event, the
  decoder's display pool, the files) are recorded in the state as logs.
-/

namespace VcuDecoder

/-! ## Pixel formats -/

/-- The four chroma layouts of `AL_EChromaMode`.  The enumeration is declared in a
library header; `AL_CHROMA_MONO` is its second name for `AL_CHROMA_4_0_0`. -/
inductive AL_EChromaMode where
  | AL_CHROMA_4_0_0
  | AL_CHROMA_4_2_0
  | AL_CHROMA_4_2_2
  | AL_CHROMA_4_4_4
  deriving DecidableEq, Repr

/-- Second name of the monochrome layout. -/
abbrev AL_EChromaMode.AL_CHROMA_MONO : AL_EChromaMode := AL_EChromaMode.AL_CHROMA_4_0_0

open AL_EChromaMode

/-- What the harness observes of a `TFourCC`: `AL_GetChromaMode`, `AL_GetBitDepth`
(a `uint8_t`) and `AL_IsTiled`. -/
structure TFourCC where
  eChromaMode : AL_EChromaMode
  uBitDepth : Nat
  bTiled : Bool
  deriving DecidableEq, Repr

def AL_GetChromaMode (t : TFourCC) : AL_EChromaMode := t.eChromaMode

def AL_GetBitDepth (t : TFourCC) : Nat := t.uBitDepth

def AL_IsTiled (t : TFourCC) : Bool := t.bTiled

/-- The closed set of conversion kernels named by the dispatch tables. -/
inductive AL_TO_IP where
  | CopyPixMapBuffer
  | NV12_To_I420 | NV12_To_I0AL | NV16_To_I422 | NV16_To_I2AL | I444_To_I4AL | Y800_To_Y010
  | XV15_To_I0AL | XV15_To_I420 | XV20_To_I2AL | XV20_To_I422 | I4AL_To_I444
  | XV10_To_Y010 | XV10_To_Y800
  | P012_To_I0CL | P012_To_I0AL | P012_To_I420 | P212_To_I2CL | P212_To_I2AL | P212_To_I422
  | I4CL_To_I4AL | I4CL_To_I444 | Y012_To_Y010 | Y012_To_Y800
  | T608_To_I420 | T628_To_I422 | T648_To_I444 | T608_To_I0AL | T628_To_I2AL
  | T608_To_Y800 | T608_To_Y010
  | T60A_To_I0AL | T60A_To_I420 | T62A_To_I2AL | T62A_To_I422 | T64A_To_I4AL
  | T60A_To_Y010 | T60A_To_Y800
  | T60C_To_Y012 | T60C_To_Y010 | T60C_To_Y800
  | T60C_To_I0CL | T60C_To_I0AL | T60C_To_I420
  | T62C_To_I2CL | T62C_To_I2AL | T62C_To_I422 | T64C_To_I4CL
  deriving DecidableEq, Repr

open AL_TO_IP

/-! ## Conversion dispatch -/

/-- The macro `GetConvFormat(ChromaMode, iBdIn, iBdOut)`:
`ChromaMode | (iBdIn << 8) | (iBdOut << 16)`, on non-negative operands, kept to the
32 bits of an `int`. -/
def GetConvFormat (ChromaMode iBdIn iBdOut : Nat) : Nat :=
  (ChromaMode ||| (iBdIn <<< 8) ||| (iBdOut <<< 16)) % 2 ^ 32

/-- Source function `Get8BitsConversionFunction`; `enc` gives the integer value of each
`AL_EChromaMode` enumerator, `none` is the failed `assert(0)`. -/
def Get8BitsConversionFunction (enc : AL_EChromaMode → Nat) (iPicFmt : Nat) : Option AL_TO_IP :=
  let AL_CHROMA_MONO_8bitTo8bit := GetConvFormat (enc AL_CHROMA_4_0_0) 8 8
  let AL_CHROMA_MONO_8bitTo10bit := GetConvFormat (enc AL_CHROMA_4_0_0) 8 10
  let AL_CHROMA_420_8bitTo8bit := GetConvFormat (enc AL_CHROMA_4_2_0) 8 8
  let AL_CHROMA_420_8bitTo10bit := GetConvFormat (enc AL_CHROMA_4_2_0) 8 10
  let AL_CHROMA_422_8bitTo8bit := GetConvFormat (enc AL_CHROMA_4_2_2) 8 8
  let AL_CHROMA_422_8bitTo10bit := GetConvFormat (enc AL_CHROMA_4_2_2) 8 10
  let AL_CHROMA_444_8bitTo8bit := GetConvFormat (enc AL_CHROMA_4_4_4) 8 8
  let AL_CHROMA_444_8bitTo10bit := GetConvFormat (enc AL_CHROMA_4_4_4) 8 10
  if iPicFmt = AL_CHROMA_420_8bitTo8bit then some NV12_To_I420
  else if iPicFmt = AL_CHROMA_420_8bitTo10bit then some NV12_To_I0AL
  else if iPicFmt = AL_CHROMA_422_8bitTo8bit then some NV16_To_I422
  else if iPicFmt = AL_CHROMA_422_8bitTo10bit then some NV16_To_I2AL
  else if iPicFmt = AL_CHROMA_444_8bitTo8bit then some CopyPixMapBuffer
  else if iPicFmt = AL_CHROMA_444_8bitTo10bit then some I444_To_I4AL
  else if iPicFmt = AL_CHROMA_MONO_8bitTo8bit then some CopyPixMapBuffer
  else if iPicFmt = AL_CHROMA_MONO_8bitTo10bit then some Y800_To_Y010
  else none

/-- Source function `Get10BitsConversionFunction`. -/
def Get10BitsConversionFunction (enc : AL_EChromaMode → Nat) (iPicFmt : Nat) : Option AL_TO_IP :=
  let AL_CHROMA_MONO_10bitTo10bit := GetConvFormat (enc AL_CHROMA_4_0_0) 10 10
  let AL_CHROMA_MONO_10bitTo8bit := GetConvFormat (enc AL_CHROMA_4_0_0) 10 8
  let AL_CHROMA_420_10bitTo10bit := GetConvFormat (enc AL_CHROMA_4_2_0) 10 10
  let AL_CHROMA_420_10bitTo8bit := GetConvFormat (enc AL_CHROMA_4_2_0) 10 8
  let AL_CHROMA_422_10bitTo10bit := GetConvFormat (enc AL_CHROMA_4_2_2) 10 10
  let AL_CHROMA_422_10bitTo8bit := GetConvFormat (enc AL_CHROMA_4_2_2) 10 8
  let AL_CHROMA_444_10bitTo10bit := GetConvFormat (enc AL_CHROMA_4_4_4) 10 10
  let AL_CHROMA_444_10bitTo8bit := GetConvFormat (enc AL_CHROMA_4_4_4) 10 8
  if iPicFmt = AL_CHROMA_420_10bitTo10bit then some XV15_To_I0AL
  else if iPicFmt = AL_CHROMA_420_10bitTo8bit then some XV15_To_I420
  else if iPicFmt = AL_CHROMA_422_10bitTo10bit then some XV20_To_I2AL
  else if iPicFmt = AL_CHROMA_422_10bitTo8bit then some XV20_To_I422
  else if iPicFmt = AL_CHROMA_444_10bitTo10bit then some CopyPixMapBuffer
  else if iPicFmt = AL_CHROMA_444_10bitTo8bit then some I4AL_To_I444
  else if iPicFmt = AL_CHROMA_MONO_10bitTo10bit then some XV10_To_Y010
  else if iPicFmt = AL_CHROMA_MONO_10bitTo8bit then some XV10_To_Y800
  else none

/-- Source function `Get12BitsConversionFunction`. -/
def Get12BitsConversionFunction (enc : AL_EChromaMode → Nat) (iPicFmt : Nat) : Option AL_TO_IP :=
  let AL_CHROMA_MONO_12bitTo12bit := GetConvFormat (enc AL_CHROMA_4_0_0) 12 12
  let AL_CHROMA_MONO_12bitTo10bit := GetConvFormat (enc AL_CHROMA_4_0_0) 12 10
  let AL_CHROMA_MONO_12bitTo8bit := GetConvFormat (enc AL_CHROMA_4_0_0) 12 8
  let AL_CHROMA_420_12bitTo12bit := GetConvFormat (enc AL_CHROMA_4_2_0) 12 12
  let AL_CHROMA_420_12bitTo10bit := GetConvFormat (enc AL_CHROMA_4_2_0) 12 10
  let AL_CHROMA_420_12bitTo8bit := GetConvFormat (enc AL_CHROMA_4_2_0) 12 8
  let AL_CHROMA_422_12bitTo12bit := GetConvFormat (enc AL_CHROMA_4_2_2) 12 12
  let AL_CHROMA_422_12bitTo10bit := GetConvFormat (enc AL_CHROMA_4_2_2) 12 10
  let AL_CHROMA_422_12bitTo8bit := GetConvFormat (enc AL_CHROMA_4_2_2) 12 8
  let AL_CHROMA_444_12bitTo12bit := GetConvFormat (enc AL_CHROMA_4_4_4) 12 12
  let AL_CHROMA_444_12bitTo10bit := GetConvFormat (enc AL_CHROMA_4_4_4) 12 10
  let AL_CHROMA_444_12bitTo8bit := GetConvFormat (enc AL_CHROMA_4_4_4) 12 8
  if iPicFmt = AL_CHROMA_420_12bitTo12bit then some P012_To_I0CL
  else if iPicFmt = AL_CHROMA_420_12bitTo10bit then some P012_To_I0AL
  else if iPicFmt = AL_CHROMA_420_12bitTo8bit then some P012_To_I420
  else if iPicFmt = AL_CHROMA_422_12bitTo12bit then some P212_To_I2CL
  else if iPicFmt = AL_CHROMA_422_12bitTo10bit then some P212_To_I2AL
  else if iPicFmt = AL_CHROMA_422_12bitTo8bit then some P212_To_I422
  else if iPicFmt = AL_CHROMA_444_12bitTo12bit then some CopyPixMapBuffer
  else if iPicFmt = AL_CHROMA_444_12bitTo10bit then some I4CL_To_I4AL
  else if iPicFmt = AL_CHROMA_444_12bitTo8bit then some I4CL_To_I444
  else if iPicFmt = AL_CHROMA_MONO_12bitTo12bit then some CopyPixMapBuffer
  else if iPicFmt = AL_CHROMA_MONO_12bitTo10bit then some Y012_To_Y010
  else if iPicFmt = AL_CHROMA_MONO_12bitTo8bit then some Y012_To_Y800
  else none

/-- Source function `GetTileConversionFunction`; `none` is the failed
`assert(0 && "Unknown picture format")`. -/
def GetTileConversionFunction (enc : AL_EChromaMode → Nat) (iPicFmt : Nat) : Option AL_TO_IP :=
  let AL_CHROMA_MONO_8bitTo8bit := GetConvFormat (enc AL_CHROMA_MONO) 8 8
  let AL_CHROMA_MONO_8bitTo10bit := GetConvFormat (enc AL_CHROMA_MONO) 8 10
  let AL_CHROMA_420_8bitTo8bit := GetConvFormat (enc AL_CHROMA_4_2_0) 8 8
  let AL_CHROMA_420_8bitTo10bit := GetConvFormat (enc AL_CHROMA_4_2_0) 8 10
  let AL_CHROMA_422_8bitTo8bit := GetConvFormat (enc AL_CHROMA_4_2_2) 8 8
  let AL_CHROMA_422_8bitTo10bit := GetConvFormat (enc AL_CHROMA_4_2_2) 8 10
  let AL_CHROMA_444_8bitTo8bit := GetConvFormat (enc AL_CHROMA_4_4_4) 8 8
  let AL_CHROMA_444_10bitTo10bit := GetConvFormat (enc AL_CHROMA_4_4_4) 10 10
  let AL_CHROMA_444_12bitTo12bit := GetConvFormat (enc AL_CHROMA_4_4_4) 12 12
  let AL_CHROMA_MONO_10bitTo10bit := GetConvFormat (enc AL_CHROMA_MONO) 10 10
  let AL_CHROMA_MONO_10bitTo8bit := GetConvFormat (enc AL_CHROMA_MONO) 10 8
  let AL_CHROMA_420_10bitTo10bit := GetConvFormat (enc AL_CHROMA_4_2_0) 10 10
  let AL_CHROMA_420_10bitTo8bit := GetConvFormat (enc AL_CHROMA_4_2_0) 10 8
  let AL_CHROMA_422_10bitTo10bit := GetConvFormat (enc AL_CHROMA_4_2_2) 10 10
  let AL_CHROMA_422_10bitTo8bit := GetConvFormat (enc AL_CHROMA_4_2_2) 10 8
  let AL_CHROMA_MONO_12bitTo12bit := GetConvFormat (enc AL_CHROMA_MONO) 12 12
  let AL_CHROMA_MONO_12bitTo10bit := GetConvFormat (enc AL_CHROMA_MONO) 12 10
  let AL_CHROMA_MONO_12bitTo8bit := GetConvFormat (enc AL_CHROMA_MONO) 12 8
  let AL_CHROMA_420_12bitTo12bit := GetConvFormat (enc AL_CHROMA_4_2_0) 12 12
  let AL_CHROMA_420_12bitTo10bit := GetConvFormat (enc AL_CHROMA_4_2_0) 12 10
  let AL_CHROMA_420_12bitTo8bit := GetConvFormat (enc AL_CHROMA_4_2_0) 12 8
  let AL_CHROMA_422_12bitTo12bit := GetConvFormat (enc AL_CHROMA_4_2_2) 12 12
  let AL_CHROMA_422_12bitTo10bit := GetConvFormat (enc AL_CHROMA_4_2_2) 12 10
  let AL_CHROMA_422_12bitTo8bit := GetConvFormat (enc AL_CHROMA_4_2_2) 12 8
  if iPicFmt = AL_CHROMA_420_8bitTo8bit then some T608_To_I420
  else if iPicFmt = AL_CHROMA_422_8bitTo8bit then some T628_To_I422
  else if iPicFmt = AL_CHROMA_444_8bitTo8bit then some T648_To_I444
  else if iPicFmt = AL_CHROMA_420_8bitTo10bit then some T608_To_I0AL
  else if iPicFmt = AL_CHROMA_422_8bitTo10bit then some T628_To_I2AL
  else if iPicFmt = AL_CHROMA_MONO_8bitTo8bit then some T608_To_Y800
  else if iPicFmt = AL_CHROMA_MONO_8bitTo10bit then some T608_To_Y010
  else if iPicFmt = AL_CHROMA_420_10bitTo10bit then some T60A_To_I0AL
  else if iPicFmt = AL_CHROMA_420_10bitTo8bit then some T60A_To_I420
  else if iPicFmt = AL_CHROMA_422_10bitTo10bit then some T62A_To_I2AL
  else if iPicFmt = AL_CHROMA_422_10bitTo8bit then some T62A_To_I422
  else if iPicFmt = AL_CHROMA_444_10bitTo10bit then some T64A_To_I4AL
  else if iPicFmt = AL_CHROMA_MONO_10bitTo10bit then some T60A_To_Y010
  else if iPicFmt = AL_CHROMA_MONO_10bitTo8bit then some T60A_To_Y800
  else if iPicFmt = AL_CHROMA_MONO_12bitTo12bit then some T60C_To_Y012
  else if iPicFmt = AL_CHROMA_MONO_12bitTo10bit then some T60C_To_Y010
  else if iPicFmt = AL_CHROMA_MONO_12bitTo8bit then some T60C_To_Y800
  else if iPicFmt = AL_CHROMA_420_12bitTo12bit then some T60C_To_I0CL
  else if iPicFmt = AL_CHROMA_420_12bitTo10bit then some T60C_To_I0AL
  else if iPicFmt = AL_CHROMA_420_12bitTo8bit then some T60C_To_I420
  else if iPicFmt = AL_CHROMA_422_12bitTo12bit then some T62C_To_I2CL
  else if iPicFmt = AL_CHROMA_422_12bitTo10bit then some T62C_To_I2AL
  else if iPicFmt = AL_CHROMA_422_12bitTo8bit then some T62C_To_I422
  else if iPicFmt = AL_CHROMA_444_12bitTo12bit then some T64C_To_I4CL
  else none

/-- Source function `GetConversionFunction(input, iBdOut)`. -/
def GetConversionFunction (enc : AL_EChromaMode → Nat) (input : TFourCC) (iBdOut : Nat) :
    Option AL_TO_IP :=
  let eChromaMode := AL_GetChromaMode input
  let iBdIn := AL_GetBitDepth input
  let iPicFmt := GetConvFormat (enc eChromaMode) iBdIn iBdOut
  if AL_IsTiled input then GetTileConversionFunction enc iPicFmt
  else if iBdIn = 8 then Get8BitsConversionFunction enc iPicFmt
  else if iBdIn = 10 then Get10BitsConversionFunction enc iPicFmt
  else Get12BitsConversionFunction enc iPicFmt

/-- The seven (input depth, output depth) pairs of the untiled tables. -/
def depthPairs : List (Nat × Nat) :=
  [(8, 8), (8, 10), (10, 8), (10, 10), (12, 8), (12, 10), (12, 12)]

/-- The closed set of supported combinations, as the specification lists it. -/
def supportedCombination (c : AL_EChromaMode) (iBdIn iBdOut : Nat) (tiled : Bool) : Bool :=
  if tiled && c == AL_CHROMA_4_4_4 then
    iBdIn == iBdOut && (iBdIn == 8 || iBdIn == 10 || iBdIn == 12)
  else
    depthPairs.contains (iBdIn, iBdOut)

/-- The enumerator values used to run the dispatch on concrete inputs. -/
def chromaCode : AL_EChromaMode → Nat
  | AL_CHROMA_4_0_0 => 0
  | AL_CHROMA_4_2_0 => 1
  | AL_CHROMA_4_2_2 => 2
  | AL_CHROMA_4_4_4 => 3

/-! ## Buffers and the conversion buffer -/

structure AL_TDimension where
  iWidth : Int
  iHeight : Int
  deriving DecidableEq, Repr

/-- The plane identifiers: the three the harness names, and any further enumerator of the
library's enumeration by its integer value. -/
inductive AL_EPlaneId where
  | AL_PLANE_Y
  | AL_PLANE_U
  | AL_PLANE_V
  | other (value : Nat)
  deriving DecidableEq, Repr

open AL_EPlaneId

/-- One entry `{ ePlaneId, iOffset, iPitch }` of a plane table. -/
structure AL_TPlaneDescription where
  ePlaneId : AL_EPlaneId
  iOffset : Int
  iPitch : Int
  deriving DecidableEq, Repr

/-- A pixel-map buffer as the harness observes it: its FourCC and dimension
(`AL_PixMapBuffer_GetFourCC`, `AL_PixMapBuffer_GetDimension`), the size and plane table
given to `AL_PixMapBuffer_Allocate_And_AddPlanes`, whether `AL_Buffer_GetData` is
non-null and whether HDR metadata (`AL_META_TYPE_HDR`) is attached. -/
structure AL_TBuffer where
  tFourCC : TFourCC
  tDim : AL_TDimension
  uSize : Nat
  planes : List AL_TPlaneDescription
  bData : Bool
  bHDR : Bool
  deriving DecidableEq, Repr

/-- The library routines the harness calls and whose code is not part of the sources;
each is a parameter of the model.
* `enc`: integer value of each `AL_EChromaMode` enumerator;
* `AL_GetSubsampling`: the pair `(sx, sy)` written through the two out-parameters;
* `AL_PixMapBuffer_Create`: whether the buffer object is obtained (non-null);
* `AL_PixMapBuffer_Allocate_And_AddPlanes`: whether `uSize` bytes are obtained;
* `CropFrame`: the buffer after cropping in place. -/
structure Externals where
  enc : AL_EChromaMode → Nat
  AL_GetSubsampling : TFourCC → Int × Int
  AL_PixMapBuffer_Create : AL_TDimension → TFourCC → Bool
  AL_PixMapBuffer_Allocate_And_AddPlanes : Nat → Bool
  CropFrame : AL_TBuffer → Int → Nat → Nat → Nat → Nat → AL_TBuffer

/-- The ways `ConvertFrameBuffer` does not return normally: the two `runtime_error`s of
the source, the failed assertion of the dispatch, and a shift of a negative depth. -/
inductive ConvertError where
  | couldNotAllocateYuvBuffer
  | couldNotAllocateYuvBufferPlanes
  | assertFailed
  | undefinedShift
  deriving DecidableEq, Repr

/-- Conversion of an `int` to `uint32_t`. -/
def toUInt32 (x : Int) : Nat := (x % 2 ^ 32).toNat

/-- The block `if(pOutput == NULL) { ... }` of `ConvertFrameBuffer`: creation of the
destination buffer for the source `input` at output depth `iBdOut`. -/
def ConvertFrameBuffer.allocate (X : Externals) (input : AL_TBuffer) (iBdOut : Int) :
    Except ConvertError AL_TBuffer :=
  let tRecFourCC := input.tFourCC
  let tRecDim := input.tDim
  let eChromaMode := AL_GetChromaMode tRecFourCC
  -- AL_GetFourCC(AL_TPicFormat { eChromaMode, static_cast<uint8_t>(iBdOut), AL_FB_RASTER, ... }),
  -- represented by the chroma mode, bit depth and (raster) storage it encodes
  let tConvFourCC : TFourCC := ⟨eChromaMode, (iBdOut % 256).toNat, false⟩
  if X.AL_PixMapBuffer_Create tRecDim tConvFourCC = false then
    Except.error ConvertError.couldNotAllocateYuvBuffer
  else
    let sx := (X.AL_GetSubsampling tConvFourCC).1
    let sy := (X.AL_GetSubsampling tConvFourCC).2
    let iSizePix := (iBdOut + 7) >>> (3 : Nat)
    let iPitchY := iSizePix * tRecDim.iWidth
    let iPitchC := (iPitchY + sx - 1).tdiv sx
    let iSizeY := iPitchY * tRecDim.iHeight
    let iSizeC := iPitchC * ((tRecDim.iHeight + sy - 1).tdiv sy)
    let tPlaneDesc : List AL_TPlaneDescription :=
      [⟨AL_PLANE_Y, 0, iPitchY⟩, ⟨AL_PLANE_U, iSizeY, iPitchC⟩,
       ⟨AL_PLANE_V, iSizeY + iSizeC, iPitchC⟩]
    let uSize : Nat := toUInt32 iSizeY
    let uSize : Nat :=
      if eChromaMode ≠ AL_CHROMA_MONO then (uSize + toUInt32 (2 * iSizeC)) % 2 ^ 32 else uSize
    if X.AL_PixMapBuffer_Allocate_And_AddPlanes uSize = false then
      Except.error ConvertError.couldNotAllocateYuvBufferPlanes
    else
      Except.ok
        { tFourCC := tConvFourCC
          tDim := tRecDim
          uSize := uSize
          planes := tPlaneDesc.take (if eChromaMode = AL_CHROMA_MONO then 1 else 3)
          bData := true
          bHDR := false }

/-- Source function `ConvertFrameBuffer(input, pOutput, iBdOut)`: the destination buffer
after the call and the routine that was run on it.  A negative `iBdOut` (for which the shift in
`GetConvFormat` has no defined value) and a failed assertion of the dispatch are errors. -/
def ConvertFrameBuffer (X : Externals) (input : AL_TBuffer) (pOutput : Option AL_TBuffer)
    (iBdOut : Int) : Except ConvertError (AL_TBuffer × AL_TO_IP) :=
  let tRecFourCC := input.tFourCC
  let tRecDim := input.tDim
  let pOutput : Option AL_TBuffer :=
    match pOutput with
    | some out =>
      if tRecDim.iWidth ≠ out.tDim.iWidth ∨ tRecDim.iHeight ≠ out.tDim.iHeight then none
      else some out
    | none => none
  let created : Except ConvertError AL_TBuffer :=
    match pOutput with
    | some out => Except.ok out
    | none => ConvertFrameBuffer.allocate X input iBdOut
  match created with
  | Except.error e => Except.error e
  | Except.ok out =>
    if iBdOut < 0 then Except.error ConvertError.undefinedShift
    else
      match GetConversionFunction X.enc tRecFourCC iBdOut.toNat with
      | none => Except.error ConvertError.assertFailed
      | some AllegroConvert => Except.ok (out, AllegroConvert)

/-- One call of `ConvertFrameBuffer` on the buffer library: `AL_Buffer_Destroy(buffer)` or
`AL_PixMapBuffer_Create(allocator, NULL, tDim, tFourCC)`. -/
inductive BufferCall where
  | AL_Buffer_Destroy (pBuf : AL_TBuffer)
  | AL_PixMapBuffer_Create (tDim : AL_TDimension) (tFourCC : TFourCC)
  deriving DecidableEq, Repr

/-- The calls `ConvertFrameBuffer(input, pOutput, iBdOut)` makes to `AL_Buffer_Destroy` and
`AL_PixMapBuffer_Create`, in order: the first two `if` blocks of the function. -/
def ConvertFrameBuffer.bufferCalls (input : AL_TBuffer) (pOutput : Option AL_TBuffer)
    (iBdOut : Int) : List BufferCall :=
  let tRecFourCC := input.tFourCC
  let tRecDim := input.tDim
  let destroyed : List BufferCall :=
    match pOutput with
    | some out =>
      if tRecDim.iWidth ≠ out.tDim.iWidth ∨ tRecDim.iHeight ≠ out.tDim.iHeight then
        [BufferCall.AL_Buffer_Destroy out]
      else []
    | none => []
  let pOutput : Option AL_TBuffer :=
    match pOutput with
    | some out =>
      if tRecDim.iWidth ≠ out.tDim.iWidth ∨ tRecDim.iHeight ≠ out.tDim.iHeight then none
      else some out
    | none => none
  let created : List BufferCall :=
    match pOutput with
    | some _ => []
    | none =>
      [BufferCall.AL_PixMapBuffer_Create tRecDim
        ⟨AL_GetChromaMode tRecFourCC, (iBdOut % 256).toNat, false⟩]
  destroyed ++ created

/-! ### The layout as the specification words it -/

/-- The rational ceiling `ceil(a / b)`. -/
def ceilDiv (a b : Int) : Int := ⌈(a : ℚ) / (b : ℚ)⌉

/-- Specification: `bytesPerSample = ceil(bd / 8)`. -/
def specBytesPerSample (bd : Int) : Int := ceilDiv bd 8

/-- Specification: `luma pitch = bytesPerSample * w`. -/
def specLumaPitch (bd w : Int) : Int := specBytesPerSample bd * w

/-- Specification: `chroma pitch = ceil(lumaPitch / sx)`. -/
def specChromaPitch (bd w sx : Int) : Int := ceilDiv (specLumaPitch bd w) sx

/-- Specification: `chroma plane height = ceil(h / sy)`. -/
def specChromaHeight (h sy : Int) : Int := ceilDiv h sy

/-- Specification: `lumaSize = lumaPitch * h`. -/
def specLumaSize (bd w h : Int) : Int := specLumaPitch bd w * h

/-- Specification: `chromaSize = chromaPitch * ceil(h / sy)`. -/
def specChromaSize (bd w h sx sy : Int) : Int :=
  specChromaPitch bd w sx * specChromaHeight h sy

/-! ## Output writer -/

/-- Storage modes are the integer values of the `AL_EFbStorageMode` enumerators. -/
abbrev AL_EFbStorageMode := Nat

structure AL_TCropInfo where
  bCropping : Bool
  uCropOffsetLeft : Nat
  uCropOffsetRight : Nat
  uCropOffsetTop : Nat
  uCropOffsetBottom : Nat
  deriving DecidableEq, Repr

/-- The fields of `AL_TInfoDecode` the harness reads. -/
structure AL_TInfoDecode where
  eFbStorageMode : AL_EFbStorageMode
  uBitDepthY : Nat
  uBitDepthC : Nat
  tCrop : AL_TCropInfo
  uCRC : Nat
  deriving DecidableEq, Repr

/-- One call `YuvFile.write(address of plane, iSize)`. -/
structure FileWrite where
  ePlane : AL_EPlaneId
  iSize : Int
  deriving DecidableEq, Repr

/-- One call of `Compute_CRC`; `b16` tells the `uint16_t*` overload from the
`uint8_t*` one. -/
structure CrcCall where
  uBitDepthY : Nat
  uBitDepthC : Nat
  iBdOut : Int
  iNumPix : Int
  iNumPixC : Int
  eChromaMode : AL_EChromaMode
  b16 : Bool
  deriving DecidableEq, Repr

/-- State of an `UncompressedOutputWriter`: each stream is `none` when it is not open and
otherwise holds what was sent to it so far; `YuvBuffer` is the conversion buffer. -/
structure UncompressedOutputWriter where
  YuvFile : Option (List FileWrite)
  IpCrcFile : Option (List String)
  CertCrcFile : Option (List CrcCall)
  YuvBuffer : Option AL_TBuffer
  deriving DecidableEq, Repr

/-- Source function `UncompressedOutputWriter::convertBitDepthToEven`, with the truncating `%` of C. -/
def convertBitDepthToEven (iBd : Int) : Int :=
  if iBd.tmod 2 ≠ 0 then iBd + 1 else iBd

/-- Source function `UncompressedOutputWriter::ProcessFrame`. -/
def UncompressedOutputWriter.ProcessFrame (X : Externals) (w : UncompressedOutputWriter)
    (tRecBuf : AL_TBuffer) (info : AL_TInfoDecode) (iBdOut : Int) :
    Except ConvertError UncompressedOutputWriter :=
  if (w.YuvFile.isSome || w.CertCrcFile.isSome) = false then Except.ok w
  else
    let iBdOut := convertBitDepthToEven iBdOut
    match ConvertFrameBuffer X tRecBuf w.YuvBuffer iBdOut with
    | Except.error e => Except.error e
    | Except.ok (converted, _) =>
      let iSizePix := (iBdOut + 7) >>> (3 : Nat)
      let YuvBuffer :=
        if info.tCrop.bCropping then
          X.CropFrame converted iSizePix info.tCrop.uCropOffsetLeft info.tCrop.uCropOffsetRight
            info.tCrop.uCropOffsetTop info.tCrop.uCropOffsetBottom
        else converted
      let tRecFourCC := tRecBuf.tFourCC
      let sx := (X.AL_GetSubsampling tRecFourCC).1
      let sy := (X.AL_GetSubsampling tRecFourCC).2
      let tYuvDim := YuvBuffer.tDim
      let iNumPix := tYuvDim.iHeight * tYuvDim.iWidth
      let iNumPixC :=
        if AL_GetChromaMode tRecFourCC = AL_CHROMA_MONO then 0
        else ((tYuvDim.iWidth + sx - 1).tdiv sx) * ((tYuvDim.iHeight + sy - 1).tdiv sy)
      let CertCrcFile := w.CertCrcFile.map fun crc =>
        crc ++ [{ uBitDepthY := info.uBitDepthY, uBitDepthC := info.uBitDepthC,
                  iBdOut := iBdOut, iNumPix := iNumPix, iNumPixC := iNumPixC,
                  eChromaMode := AL_GetChromaMode tRecFourCC,
                  b16 := decide (iBdOut ≠ 8) }]
      let YuvFile := w.YuvFile.map fun yuv =>
        yuv ++ [{ ePlane := AL_PLANE_Y, iSize := (iNumPix + 2 * iNumPixC) * iSizePix }]
      Except.ok
        { YuvFile := YuvFile, IpCrcFile := w.IpCrcFile, CertCrcFile := CertCrcFile,
          YuvBuffer := some YuvBuffer }

/-! ### The CRC line of `BaseOutputWriter::ProcessOutput` -/

/-- The character `num_put` writes for a hexadecimal digit below 16 on a stream with the
`uppercase` flag. -/
def hexDigitUpper (d : Nat) : Char :=
  if d < 10 then Char.ofNat (48 + d) else Char.ofNat (55 + d)

/-- The hexadecimal numeral of `v`, most significant digit first, as a stream with the
`hex` and `uppercase` flags writes an unsigned value (a single 0 for zero). -/
def hexUpper (v : Nat) : List Char :=
  if v = 0 then [hexDigitUpper 0] else (Nat.digits 16 v).reverse.map hexDigitUpper

/-- The field after `setfill(fill) << setw(w)` with the default adjustment: the fill
characters come first, a field longer than `w` is written whole. -/
def padLeft (w : Nat) (fill : Char) (field : List Char) : List Char :=
  List.replicate (w - field.length) fill ++ field

/-- The text of `IpCrcFile << std::setfill('0') << std::setw(8) << (int)info.uCRC` on the
stream the constructor set to `hex << uppercase`: in hexadecimal an `int` is written as
its 32-bit pattern. -/
def crcLine (uCRC : Nat) : String :=
  String.mk (padLeft 8 '0' (hexUpper (uCRC % 2 ^ 32)))

/-- Source function `BaseOutputWriter::ProcessOutput`.  The writer object is the record
of the derived class, whose members include the base members `YuvFile` and `IpCrcFile`;
`ProcessFrame` is the virtual member function; each line sent to `IpCrcFile` (text, then
`std::endl`) is one entry of its list. -/
def BaseOutputWriter.ProcessOutput
    (ProcessFrame : UncompressedOutputWriter → AL_TBuffer → AL_TInfoDecode → Int →
      Except ConvertError UncompressedOutputWriter)
    (w : UncompressedOutputWriter) (tRecBuf : AL_TBuffer) (info : AL_TInfoDecode)
    (iBdOut : Int) : Except ConvertError UncompressedOutputWriter :=
  let w :=
    if w.IpCrcFile.isSome then
      { w with IpCrcFile := w.IpCrcFile.map fun crc => crc ++ [crcLine info.uCRC] }
    else w
  ProcessFrame w tRecBuf info iBdOut

/-- The member `ProcessOutput` of an `UncompressedOutputWriter`: the inherited function with
the overriding `ProcessFrame`. -/
def UncompressedOutputWriter.ProcessOutput (X : Externals) (w : UncompressedOutputWriter)
    (tRecBuf : AL_TBuffer) (info : AL_TInfoDecode) (iBdOut : Int) :
    Except ConvertError UncompressedOutputWriter :=
  BaseOutputWriter.ProcessOutput (fun w2 buf i bd => w2.ProcessFrame X buf i bd)
    w tRecBuf info iBdOut

/-! ## Display callback -/

/-- The error codes and the classification `AL_IS_ERROR_CODE` come from a library header
that is not part of the sources; they are parameters of the model. -/
structure ErrorCodes where
  AL_IS_ERROR_CODE : Int → Bool
  AL_SUCCESS : Int
  AL_WARN_CONCEAL_DETECT : Int
  AL_WARN_SPS_NOT_COMPATIBLE_WITH_CHANNEL_SETTINGS : Int
  AL_WARN_SEI_OVERFLOW : Int

/-- The constructors `BaseOutputWriter::BaseOutputWriter` and
`UncompressedOutputWriter::UncompressedOutputWriter`: each of the three streams is opened
with `OpenOutput` exactly when its file name is not empty, and is empty then; there is no
conversion buffer yet.  `OpenOutput` is not part of the sources: the writer exists once
the three calls have returned, with the streams open. -/
def UncompressedOutputWriter.create (sYuvFileName sIPCrcFileName sCertCrcFileName : String) :
    UncompressedOutputWriter :=
  { YuvFile := if sYuvFileName.isEmpty then none else some []
    IpCrcFile := if sIPCrcFileName.isEmpty then none else some []
    CertCrcFile := if sCertCrcFileName.isEmpty then none else some []
    YuvBuffer := none }

/-- The decoder as the display callback uses it: the value of `AL_Decoder_GetMaxBD` and
the pictures handed back through `AL_Decoder_PutDisplayPicture`, oldest first. -/
structure AL_HDecoder where
  iMaxBD : Int
  displayPictures : List AL_TBuffer
  deriving DecidableEq, Repr

def AL_Decoder_GetMaxBD (hDec : AL_HDecoder) : Int := hDec.iMaxBD

def AL_Decoder_PutDisplayPicture (hDec : AL_HDecoder) (pFrame : AL_TBuffer) : AL_HDecoder :=
  { hDec with displayPictures := hDec.displayPictures ++ [pFrame] }

/-- The call `Rtos_SetEvent(hEvent)`, recorded on the event: an event is represented by
the number of times it has been set. -/
def Rtos_SetEvent (hEvent : Nat) : Nat := hEvent + 1

/-- Whether the event has been signalled: `Rtos_SetEvent` was called on it at least once.
Further calls leave this unchanged. -/
def eventIsSet (hEvent : Nat) : Bool := decide (0 < hEvent)

/-- The members of `struct Display`.  `hExitMain` is the completion event (the number
of `Rtos_SetEvent` calls made on it), `writers` is the map from storage mode to writer
(every writer the harness creates is an `UncompressedOutputWriter`), `pHDRWriter` is
`none` when null and otherwise lists the frames whose HDR SEIs were written. -/
structure Display where
  hDec : AL_HDecoder
  hExitMain : Nat
  writers : List (AL_EFbStorageMode × UncompressedOutputWriter)
  eMainOutputStorageMode : AL_EFbStorageMode
  iBitDepth : Int
  NumFrames : Nat
  MaxFrames : Nat
  FirstFrame : Nat
  iNumFrameConceal : Int
  pHDRWriter : Option (List AL_TBuffer)
  deriving DecidableEq, Repr

/-- Source function `Display::AddOutputWriter`:
`writers[eFbStorageMode] = new UncompressedOutputWriter(sYuvFileName, sIPCrcFileName, sCertCrcFileName)`. -/
def Display.AddOutputWriter (d : Display) (eFbStorageMode : AL_EFbStorageMode)
    (sYuvFileName sIPCrcFileName sCertCrcFileName : String) : Display :=
  { d with writers :=
      (eFbStorageMode,
          UncompressedOutputWriter.create sYuvFileName sIPCrcFileName sCertCrcFileName)
        :: d.writers.filter fun kv => kv.1 ≠ eFbStorageMode }

/-- The display as `SafeChannelMain` sets it up before the decoder runs: the members'
default initialisers, the main storage mode, one writer for it when there is an output
(`Config.bEnableYUVOutput || bCertCRC || !Config.sCrc.empty()`), created with the names
`Config.sMainOut`, `Config.sCrc` and the certification CRC file name, the configured bit
depth and `MaxFrames = Config.iMaxFrames` (an `int` stored in an `unsigned int`). -/
def SafeChannelMain.display (hDec : AL_HDecoder) (eMainOutputStorageMode : AL_EFbStorageMode)
    (bEnableYUVOutput bCertCRC : Bool) (sMainOut sCrc : String) (iBitDepth : Int)
    (iMaxFrames : Int) (bHdrFile : Bool) : Display :=
  let bHasOutput := bEnableYUVOutput || bCertCRC || !sCrc.isEmpty
  let sCertCrcFile := if bCertCRC then "crc_certif_res.hex" else ""
  let display : Display :=
    { hDec := hDec
      hExitMain := 0
      writers := []
      eMainOutputStorageMode := eMainOutputStorageMode
      iBitDepth := 8
      NumFrames := 0
      MaxFrames := 2 ^ 32 - 1
      FirstFrame := 0
      iNumFrameConceal := 0
      pHDRWriter := none }
  let display :=
    if bHasOutput then display.AddOutputWriter eMainOutputStorageMode sMainOut sCrc sCertCrcFile
    else display
  { display with
    iBitDepth := iBitDepth
    MaxFrames := toUInt32 iMaxFrames
    pHDRWriter := if bHdrFile then some [] else none }

/-- Source function `isEOS(pFrame, pInfo)`. -/
def isEOS (pFrame : Option AL_TBuffer) (pInfo : Option AL_TInfoDecode) : Bool :=
  pFrame.isNone && pInfo.isNone

/-- Source function `isReleaseFrame(pFrame, pInfo)`. -/
def isReleaseFrame (pFrame : Option AL_TBuffer) (pInfo : Option AL_TInfoDecode) : Bool :=
  pFrame.isSome && pInfo.isNone

/-- Source function `Display::ProcessFrame`: when a writer is registered for the storage
mode of the picture and `NumFrames >= FirstFrame`, the call
`writers[info.eFbStorageMode]->ProcessOutput(tRecBuf, info, iBdOut)` on that writer, whose
state after the call replaces the one in the map.  The result is an error when the writer
does not return: it throws or one of its assertions fails. -/
def Display.ProcessFrame (X : Externals) (d : Display) (tRecBuf : AL_TBuffer)
    (info : AL_TInfoDecode) (iBdOut : Int) : Except ConvertError Display :=
  match d.writers.lookup info.eFbStorageMode with
  | some writer =>
    if d.NumFrames ≥ d.FirstFrame then
      match writer.ProcessOutput X tRecBuf info iBdOut with
      | Except.error e => Except.error e
      | Except.ok written =>
        Except.ok
          { d with writers := d.writers.map fun kv =>
              if kv.1 = info.eFbStorageMode then (kv.1, written) else kv }
    else Except.ok d
  | none => Except.ok d

/-- The statement `if(err == AL_WARN_CONCEAL_DETECT) iNumFrameConceal++;` of
`Display::Process`. -/
def Display.countConceal (E : ErrorCodes) (d : Display) (err : Int) : Display :=
  if err = E.AL_WARN_CONCEAL_DETECT then { d with iNumFrameConceal := d.iNumFrameConceal + 1 }
  else d

/-- The statement `if(iBitDepth == 0) iBitDepth = max(pInfo->uBitDepthY, pInfo->uBitDepthC);
else if(iBitDepth == -1) iBitDepth = AL_Decoder_GetMaxBD(hDec);` of `Display::Process`. -/
def Display.resolveBitDepth (d : Display) (info : AL_TInfoDecode) : Display :=
  if d.iBitDepth = 0 then
    { d with iBitDepth := ((max info.uBitDepthY info.uBitDepthC : Nat) : Int) }
  else if d.iBitDepth = -1 then { d with iBitDepth := AL_Decoder_GetMaxBD d.hDec }
  else d

/-- The block `if(pInfo->eFbStorageMode == eMainOutputStorageMode) { ... }` of
`Display::Process`: HDR SEIs, return of the picture, frame counter and frame limit. -/
def Display.mainOutput (d : Display) (frame : AL_TBuffer) : Display :=
  let d :=
    if frame.bHDR then { d with pHDRWriter := d.pHDRWriter.map fun l => l ++ [frame] }
    else d
  let d := { d with hDec := AL_Decoder_PutDisplayPicture d.hDec frame }
  let d := { d with NumFrames := (d.NumFrames + 1) % 2 ^ 32 }
  if d.NumFrames > d.MaxFrames then { d with hExitMain := Rtos_SetEvent d.hExitMain }
  else d

/-- Source function `Display::Process(pFrame, pInfo)`.  `err` is the value `AL_Decoder_GetFrameError(hDec,
pFrame)` returns at this call.  The result is `none` when the callback does not return
normally: the assertion on the frame data fails, a null pointer is dereferenced, or the
output writer throws or fails an assertion.  Console logging is not part of the state. -/
def Display.Process (X : Externals) (E : ErrorCodes) (d : Display) (pFrame : Option AL_TBuffer)
    (pInfo : Option AL_TInfoDecode) (err : Int) : Option Display :=
  let bExitError := E.AL_IS_ERROR_CODE err
  if bExitError || isEOS pFrame pInfo then
    some { d with hExitMain := Rtos_SetEvent d.hExitMain }
  else
    let d := d.countConceal E err
    if isReleaseFrame pFrame pInfo then some d
    else
      match pFrame, pInfo with
      | some frame, some info =>
        let d := d.resolveBitDepth info
        if frame.bData = false then none
        else
          match d.ProcessFrame X frame info d.iBitDepth with
          | Except.error _ => none
          | Except.ok d =>
            if info.eFbStorageMode = d.eMainOutputStorageMode then some (d.mainOutput frame)
            else some d
      | _, _ => none

/-- One delivery of the display callback: the two pointers and the frame error the
decoder reports for it. -/
structure DisplayCall where
  pFrame : Option AL_TBuffer
  pInfo : Option AL_TInfoDecode
  err : Int
  deriving DecidableEq, Repr

/-- The display after a sequence of callback deliveries, in order; `none` as soon as one
of them does not return. -/
def Display.ProcessAll (X : Externals) (E : ErrorCodes) (d : Display) :
    List DisplayCall → Option Display
  | [] => some d
  | c :: cs =>
    match d.Process X E c.pFrame c.pInfo c.err with
    | none => none
    | some d2 => Display.ProcessAll X E d2 cs

/-- A delivery is a successful display notification of the main storage mode `eMain`:
picture with data, info of storage mode `eMain`, frame error not classified as an error. -/
def DisplayCall.isMainDisplay (E : ErrorCodes) (eMain : AL_EFbStorageMode) (c : DisplayCall) :
    Bool :=
  match c.pFrame, c.pInfo with
  | some frame, some info =>
    frame.bData && decide (info.eFbStorageMode = eMain) && !E.AL_IS_ERROR_CODE c.err
  | _, _ => false

/-- The picture and info of a delivery that carries both. -/
def DisplayCall.picture (c : DisplayCall) : Option (AL_TBuffer × AL_TInfoDecode) :=
  match c.pFrame, c.pInfo with
  | some frame, some info => some (frame, info)
  | _, _ => none

/-- The value of the member `iBitDepth` after the display notifications `calls`, none of
which carries an error code: the resolution statement of `Display::Process`
(`Display.resolveBitDepth`) run for the info of each in turn. -/
def Display.iBitDepthAfter (d : Display) (calls : List DisplayCall) : Int :=
  (((calls.filterMap DisplayCall.picture).map Prod.snd).foldl Display.resolveBitDepth d).iBitDepth

/-- An error table to run the callback on concrete inputs: codes from 128 on are errors,
the three warnings are 1, 3 and 4, success is 0. -/
def sampleErrorCodes : ErrorCodes :=
  { AL_IS_ERROR_CODE := fun e => decide (128 ≤ e)
    AL_SUCCESS := 0
    AL_WARN_CONCEAL_DETECT := 1
    AL_WARN_SPS_NOT_COMPATIBLE_WITH_CHANNEL_SETTINGS := 3
    AL_WARN_SEI_OVERFLOW := 4 }

/-- A 16x16 8-bit 4:2:0 raster picture with data and no HDR metadata. -/
def sampleFrame : AL_TBuffer :=
  { tFourCC := ⟨AL_CHROMA_4_2_0, 8, false⟩
    tDim := ⟨16, 16⟩
    uSize := 384
    planes := []
    bData := true
    bHDR := false }

/-- Decode info of `sampleFrame` for storage mode `eFbStorageMode`, without cropping. -/
def sampleInfo (eFbStorageMode : AL_EFbStorageMode) : AL_TInfoDecode :=
  { eFbStorageMode := eFbStorageMode
    uBitDepthY := 8
    uBitDepthC := 8
    tCrop := ⟨false, 0, 0, 0, 0⟩
    uCRC := 0 }

/-- The display of a run with an output file, main storage mode 0, `-bd 8` and
`--max-frames 2`. -/
def sampleDisplay : Display :=
  SafeChannelMain.display ⟨8, []⟩ 0 true false "dec.yuv" "" 8 2 false

/-- The display of the same run with `--max-frames -1`: the `int` -1 stored in the
`unsigned int` member is `UINT_MAX`. -/
def unlimitedDisplay : Display :=
  SafeChannelMain.display ⟨8, []⟩ 0 true false "dec.yuv" "" 8 (-1) false

/-- A successful display notification of `sampleFrame` in the main storage mode 0. -/
def sampleCall : DisplayCall :=
  { pFrame := some sampleFrame, pInfo := some (sampleInfo 0), err := 0 }

/-- An instance of the library routines to run the model on concrete inputs: enumerator
values 0 to 3, subsampling 2x2 for 4:2:0, 2x1 for 4:2:2 and 1x1 otherwise, allocations
that succeed, and a crop that removes the four borders from the dimension. -/
def sampleExternals : Externals :=
  { enc := chromaCode
    AL_GetSubsampling := fun t =>
      match t.eChromaMode with
      | AL_CHROMA_4_2_0 => (2, 2)
      | AL_CHROMA_4_2_2 => (2, 1)
      | _ => (1, 1)
    AL_PixMapBuffer_Create := fun _ _ => true
    AL_PixMapBuffer_Allocate_And_AddPlanes := fun _ => true
    CropFrame := fun buf _ l r t b =>
      { buf with tDim := ⟨buf.tDim.iWidth - (l + r), buf.tDim.iHeight - (t + b)⟩ } }

/-- A writer with the YUV file open and empty, no CRC file and no conversion buffer yet. -/
def sampleWriter : UncompressedOutputWriter :=
  { YuvFile := some [], IpCrcFile := none, CertCrcFile := none, YuvBuffer := none }

/-- A writer with no file open. -/
def closedWriter : UncompressedOutputWriter :=
  { YuvFile := none, IpCrcFile := none, CertCrcFile := none, YuvBuffer := none }

/-- The display of a run configured with `-bd 0` (bit depth taken from the stream), on a
decoder whose maximum bit depth is 12. -/
def autoDepthDisplay : Display :=
  SafeChannelMain.display ⟨12, []⟩ 0 true false "dec.yuv" "" 0 5 false

/-- The display of a run configured with `-bd 12`, on a decoder whose maximum bit depth
is 12. -/
def deepDisplay : Display :=
  SafeChannelMain.display ⟨12, []⟩ 0 true false "dec.yuv" "" 12 5 false

/-- The conversion buffer `ConvertFrameBuffer` creates for `sampleFrame` at output depth 8. -/
def sampleConverted : AL_TBuffer :=
  { sampleFrame with
    planes := [⟨AL_PLANE_Y, 0, 16⟩, ⟨AL_PLANE_U, 256, 8⟩, ⟨AL_PLANE_V, 320, 8⟩] }

/-- The conversion buffer `ConvertFrameBuffer` creates for `sampleFrame` at output depth
10: two bytes a sample. -/
def sampleConverted10 : AL_TBuffer :=
  { tFourCC := ⟨AL_CHROMA_4_2_0, 10, false⟩
    tDim := ⟨16, 16⟩
    uSize := 768
    planes := [⟨AL_PLANE_Y, 0, 32⟩, ⟨AL_PLANE_U, 512, 16⟩, ⟨AL_PLANE_V, 640, 16⟩]
    bData := true
    bHDR := false }

/-- Decode info of a picture with 10-bit luma and 8-bit chroma in the main storage mode. -/
def sampleInfo10 : AL_TInfoDecode :=
  { eFbStorageMode := 0
    uBitDepthY := 10
    uBitDepthC := 8
    tCrop := ⟨false, 0, 0, 0, 0⟩
    uCRC := 0 }

/-- The state of `sampleDisplay` after one delivery of `sampleCall`. -/
def sampleDisplayAfterOne : Display :=
  { hDec := ⟨8, [sampleFrame]⟩
    hExitMain := 0
    writers :=
      [(0, { YuvFile := some [⟨AL_PLANE_Y, 384⟩]
             IpCrcFile := none
             CertCrcFile := none
             YuvBuffer := some sampleConverted })]
    eMainOutputStorageMode := 0
    iBitDepth := 8
    NumFrames := 1
    MaxFrames := 2
    FirstFrame := 0
    iNumFrameConceal := 0
    pHDRWriter := none }

/-- The state of `sampleDisplay` after two deliveries of `sampleCall`. -/
def sampleDisplayAfterTwo : Display :=
  { hDec := ⟨8, [sampleFrame, sampleFrame]⟩
    hExitMain := 0
    writers :=
      [(0, { YuvFile := some [⟨AL_PLANE_Y, 384⟩, ⟨AL_PLANE_Y, 384⟩]
             IpCrcFile := none
             CertCrcFile := none
             YuvBuffer := some sampleConverted })]
    eMainOutputStorageMode := 0
    iBitDepth := 8
    NumFrames := 2
    MaxFrames := 2
    FirstFrame := 0
    iNumFrameConceal := 0
    pHDRWriter := none }

/-- The fields of `AL_TPicFormat`; the chroma order is the integer value of its
`AL_EChromaOrder` enumerator. -/
structure AL_TPicFormat where
  eChromaMode : AL_EChromaMode
  uBitDepth : Nat
  eStorageMode : AL_EFbStorageMode
  eChromaOrder : Nat
  bCompressed : Bool
  bMSB : Bool
  deriving DecidableEq, Repr

/-- The fields of `AL_TDecSettings` read by `getMainOutputStorageMode`. -/
structure AL_TDecSettings where
  eFBStorageMode : AL_EFbStorageMode
  bFrameBufferCompression : Bool
  deriving DecidableEq, Repr

/-- Source function `getMainOutputStorageMode`: the returned storage mode and the value
written to `bOutputCompression`. -/
def getMainOutputStorageMode (decSettings : AL_TDecSettings) : AL_EFbStorageMode × Bool :=
  (decSettings.eFBStorageMode, decSettings.bFrameBufferCompression)

/-- The sequence modes named by the harness. -/
inductive AL_ESequenceMode where
  | AL_SM_UNKNOWN
  | AL_SM_PROGRESSIVE
  | AL_SM_INTERLACED
  | AL_SM_MAX_ENUM
  deriving DecidableEq, Repr

/-- The fields of `AL_TStreamSettings`; `eChroma = none` stands for the sentinel
`AL_CHROMA_MAX_ENUM`. -/
structure AL_TStreamSettings where
  tDim : AL_TDimension
  eChroma : Option AL_EChromaMode
  iBitDepth : Int
  iLevel : Int
  iProfileIdc : Int
  eSequenceMode : AL_ESequenceMode
  deriving DecidableEq, Repr

/-- One call on the decoded-picture pool (`PixMapBufPool`, whose code is not part of the
sources): `SetFormat(tDim, tFourCC)`, `AddChunk(zSize, vPlaneDesc)`,
`Init(pAllocator, iNumBuf, name)` or `GetBuffer(AL_BUF_MODE_NONBLOCK)`. -/
inductive PoolCall where
  | SetFormat (tDim : AL_TDimension) (tFourCC : TFourCC)
  | AddChunk (zSize : Int) (vPlaneDesc : List AL_TPlaneDescription)
  | Init (iNumBuf : Int)
  | GetBuffer
  deriving DecidableEq, Repr

/-- The decoded-picture pool as the harness drives it: the calls made on it so far, oldest
first. -/
structure PixMapBufPool where
  calls : List PoolCall
  deriving DecidableEq, Repr

/-- The library routines called by the resolution callback whose code is not part of the
sources; each is a parameter of the model.  `Init` tells whether `bufPool.Init` succeeds
on a pool with the given history, `GetBuffer` is the buffer `bufPool.GetBuffer` returns
(`none` for a null pointer), `AL_HDRMetaData_Create` tells whether the metadata is
obtained (non-null), `AL_Plane_GetBufferPixelPlanes` is the filled part of `usedPlanes`. -/
structure DecExternals where
  AL_GetDecPicFormat : Option AL_EChromaMode → Int → AL_EFbStorageMode → Bool → AL_TPicFormat
  AL_GetDecFourCC : AL_TPicFormat → TFourCC
  AL_Decoder_GetMinPitch : Int → Int → AL_EFbStorageMode → Int
  AL_DecGetAllocSize_Frame :
    AL_TDimension → Int → Option AL_EChromaMode → Bool → AL_EFbStorageMode → Int
  AL_Plane_GetBufferPixelPlanes : Nat → List AL_EPlaneId
  AL_GetChromaPitch : TFourCC → Int → Int
  AL_DecGetAllocSize_Frame_PixPlane :
    AL_EFbStorageMode → AL_TDimension → Int → AL_EChromaMode → AL_EPlaneId → Int
  Init : PixMapBufPool → Int → Bool
  GetBuffer : PixMapBufPool → Option AL_TBuffer
  AL_HDRMetaData_Create : Bool

/-- The state of the `for` loop of `sConfigureDecBufPool`: the pool, `vPlaneDesc` and
`iOffset`. -/
structure ConfigureState where
  SrcBufPool : PixMapBufPool
  vPlaneDesc : List AL_TPlaneDescription
  iOffset : Int
  deriving DecidableEq, Repr

/-- One iteration of the `for` loop of `sConfigureDecBufPool`, for the plane
`usedPlanes[iPlane]`. -/
def sConfigureDecBufPool.step (X : DecExternals) (g_MultiChunk : Bool)
    (tPicFormat : AL_TPicFormat) (tDim : AL_TDimension) (iPitchY : Int) (tFourCC : TFourCC)
    (st : ConfigureState) (usedPlane : AL_EPlaneId) : ConfigureState :=
  let iPitch := if usedPlane = AL_PLANE_Y then iPitchY else X.AL_GetChromaPitch tFourCC iPitchY
  let vPlaneDesc := st.vPlaneDesc ++ [⟨usedPlane, st.iOffset, iPitch⟩]
  let iOffset := st.iOffset
    + X.AL_DecGetAllocSize_Frame_PixPlane tPicFormat.eStorageMode tDim iPitch
        tPicFormat.eChromaMode usedPlane
  if g_MultiChunk then
    { SrcBufPool := ⟨st.SrcBufPool.calls ++ [PoolCall.AddChunk iOffset vPlaneDesc]⟩
      vPlaneDesc := []
      iOffset := 0 }
  else
    { SrcBufPool := st.SrcBufPool, vPlaneDesc := vPlaneDesc, iOffset := iOffset }

/-- Source function `sConfigureDecBufPool`: the pool after the call and the returned
`iOffset`.  The global `g_MultiChunk` is a parameter. -/
def sConfigureDecBufPool (X : DecExternals) (g_MultiChunk : Bool) (SrcBufPool : PixMapBufPool)
    (tPicFormat : AL_TPicFormat) (tDim : AL_TDimension) (iPitchY : Int) :
    PixMapBufPool × Int :=
  let tFourCC := X.AL_GetDecFourCC tPicFormat
  let SrcBufPool : PixMapBufPool := ⟨SrcBufPool.calls ++ [PoolCall.SetFormat tDim tFourCC]⟩
  let usedPlanes := X.AL_Plane_GetBufferPixelPlanes tPicFormat.eChromaOrder
  let st := usedPlanes.foldl
    (sConfigureDecBufPool.step X g_MultiChunk tPicFormat tDim iPitchY tFourCC)
    { SrcBufPool := SrcBufPool, vPlaneDesc := [], iOffset := 0 }
  let SrcBufPool : PixMapBufPool :=
    if g_MultiChunk = false then
      ⟨st.SrcBufPool.calls ++ [PoolCall.AddChunk st.iOffset st.vPlaneDesc]⟩
    else st.SrcBufPool
  (SrcBufPool, st.iOffset)

/-- The members of `struct ResChgParam` the callback uses; `hDec = none` is a null
handle. -/
structure ResChgParam where
  hDec : Option AL_HDecoder
  bPoolIsInit : Bool
  bufPool : PixMapBufPool
  pDecSettings : AL_TDecSettings
  bAddHDRMetaData : Bool
  deriving DecidableEq, Repr

/-- The values of `AL_ERR` returned by `sResolutionFound`, by name. -/
inductive AL_ERR where
  | AL_ERROR
  | AL_SUCCESS
  | AL_ERR_NO_MEMORY
  deriving DecidableEq, Repr

/-- Source function `AddHDRMetaData`, on the HDR flag of the buffer. -/
def AddHDRMetaData (X : DecExternals) (pBufStream : AL_TBuffer) : AL_TBuffer :=
  if pBufStream.bHDR then pBufStream
  else if X.AL_HDRMetaData_Create then { pBufStream with bHDR := true }
  else pBufStream

/-- Conversion of a `uint32_t` to `int` (two's complement). -/
def toInt32 (u : Nat) : Int :=
  if u % 2 ^ 32 < 2 ^ 31 then ((u % 2 ^ 32 : Nat) : Int) else ((u % 2 ^ 32 : Nat) : Int) - 2 ^ 32

/-- The constant `uDefaultNumBuffersHeldByNextComponent`, a `uint32_t`. -/
def uDefaultNumBuffersHeldByNextComponent : Nat := 1

/-- The `for` loop of `sResolutionFound` with `iterations` iterations left: each takes a
buffer from the pool, attaches HDR metadata if asked to and hands the buffer to the
decoder; `none` when `assert(pDecPict)` fails. -/
def sResolutionFound.seed (X : DecExternals) (bAddHDRMetaData : Bool) :
    (iterations : Nat) → PixMapBufPool → AL_HDecoder → Option (PixMapBufPool × AL_HDecoder)
  | 0, bufPool, hDec => some (bufPool, hDec)
  | k + 1, bufPool, hDec =>
    match X.GetBuffer bufPool with
    | none => none
    | some pDecPict =>
      let bufPool : PixMapBufPool := ⟨bufPool.calls ++ [PoolCall.GetBuffer]⟩
      let pDecPict := if bAddHDRMetaData then AddHDRMetaData X pDecPict else pDecPict
      sResolutionFound.seed X bAddHDRMetaData k bufPool
        (AL_Decoder_PutDisplayPicture hDec pDecPict)

/-- Source function `sResolutionFound`: the returned code and the user parameter after
the call; `none` when an assertion fails.  Console output is not part of the state. -/
def sResolutionFound (X : DecExternals) (g_MultiChunk : Bool) (BufferNumber BufferSizeLib : Int)
    (pSettings : AL_TStreamSettings) (p : ResChgParam) : Option (AL_ERR × ResChgParam) :=
  match p.hDec with
  | none => some (AL_ERR.AL_ERROR, p)
  | some hDec =>
    let eMainOutputStorageMode := (getMainOutputStorageMode p.pDecSettings).1
    let bMainOutputCompression := (getMainOutputStorageMode p.pDecSettings).2
    let tPicFormat := X.AL_GetDecPicFormat pSettings.eChroma pSettings.iBitDepth
      eMainOutputStorageMode bMainOutputCompression
    let minPitch := X.AL_Decoder_GetMinPitch pSettings.tDim.iWidth pSettings.iBitDepth
      eMainOutputStorageMode
    let configured : PixMapBufPool × Int :=
      if p.bPoolIsInit then
        (p.bufPool, X.AL_DecGetAllocSize_Frame pSettings.tDim minPitch pSettings.eChroma
          bMainOutputCompression eMainOutputStorageMode)
      else sConfigureDecBufPool X g_MultiChunk p.bufPool tPicFormat pSettings.tDim minPitch
    let BufferSize := configured.2
    if BufferSize < BufferSizeLib then none
    else if p.bPoolIsInit then some (AL_ERR.AL_SUCCESS, { p with bufPool := configured.1 })
    else
      let iNumBuf :=
        toInt32 ((toUInt32 BufferNumber + uDefaultNumBuffersHeldByNextComponent) % 2 ^ 32)
      let bufPool : PixMapBufPool := ⟨configured.1.calls ++ [PoolCall.Init iNumBuf]⟩
      if X.Init configured.1 iNumBuf = false then
        some (AL_ERR.AL_ERR_NO_MEMORY, { p with bufPool := bufPool })
      else
        match sResolutionFound.seed X p.bAddHDRMetaData iNumBuf.toNat bufPool hDec with
        | none => none
        | some (bufPool, hDec) =>
          some (AL_ERR.AL_SUCCESS,
            { p with bPoolIsInit := true, bufPool := bufPool, hDec := some hDec })

/-! ### The planes of `sConfigureDecBufPool` as the specification words them -/

/-- The pitch of a plane: the luma pitch for Y, the chroma pitch of the format otherwise. -/
def specPlanePitch (X : DecExternals) (tFourCC : TFourCC) (iPitchY : Int)
    (plane : AL_EPlaneId) : Int :=
  if plane = AL_PLANE_Y then iPitchY else X.AL_GetChromaPitch tFourCC iPitchY

/-- The allocation size of a plane. -/
def specPlaneSize (X : DecExternals) (tPicFormat : AL_TPicFormat) (tDim : AL_TDimension)
    (iPitchY : Int) (plane : AL_EPlaneId) : Int :=
  X.AL_DecGetAllocSize_Frame_PixPlane tPicFormat.eStorageMode tDim
    (specPlanePitch X (X.AL_GetDecFourCC tPicFormat) iPitchY plane) tPicFormat.eChromaMode plane

/-- Packed layout: each plane at the running sum of the sizes of the planes before it,
starting from `offset`. -/
def specPackedPlanes (X : DecExternals) (tPicFormat : AL_TPicFormat) (tDim : AL_TDimension)
    (iPitchY : Int) : List AL_EPlaneId → Int → List AL_TPlaneDescription
  | [], _ => []
  | plane :: rest, offset =>
    ⟨plane, offset, specPlanePitch X (X.AL_GetDecFourCC tPicFormat) iPitchY plane⟩
      :: specPackedPlanes X tPicFormat tDim iPitchY rest
          (offset + specPlaneSize X tPicFormat tDim iPitchY plane)

/-- Multi-chunk layout: one chunk per plane, of the size of the plane, the plane at
offset 0. -/
def specPlaneChunks (X : DecExternals) (tPicFormat : AL_TPicFormat) (tDim : AL_TDimension)
    (iPitchY : Int) (planes : List AL_EPlaneId) : List PoolCall :=
  planes.map fun plane =>
    PoolCall.AddChunk (specPlaneSize X tPicFormat tDim iPitchY plane)
      [⟨plane, 0, specPlanePitch X (X.AL_GetDecFourCC tPicFormat) iPitchY plane⟩]

/-- The size of an `AddChunk` call, 0 for the other calls. -/
def PoolCall.chunkSize : PoolCall → Int
  | PoolCall.AddChunk zSize _ => zSize
  | _ => 0

/-- The plane descriptions of an `AddChunk` call, none for the other calls. -/
def PoolCall.chunkPlanes : PoolCall → List AL_TPlaneDescription
  | PoolCall.AddChunk _ vPlaneDesc => vPlaneDesc
  | _ => []

/-! ### Named parts and sample objects of the resolution callback -/

/-- The call of `sConfigureDecBufPool` that `sResolutionFound` makes on a pool that is not
initialised yet: the pool after the call and the returned size. -/
def sResolutionFound.configured (X : DecExternals) (g_MultiChunk : Bool)
    (pSettings : AL_TStreamSettings) (p : ResChgParam) : PixMapBufPool × Int :=
  sConfigureDecBufPool X g_MultiChunk p.bufPool
    (X.AL_GetDecPicFormat pSettings.eChroma pSettings.iBitDepth
      (getMainOutputStorageMode p.pDecSettings).1 (getMainOutputStorageMode p.pDecSettings).2)
    pSettings.tDim
    (X.AL_Decoder_GetMinPitch pSettings.tDim.iWidth pSettings.iBitDepth
      (getMainOutputStorageMode p.pDecSettings).1)

/-- The size `sResolutionFound` computes for a pool that is initialised already. -/
def sResolutionFound.frameSize (X : DecExternals) (pSettings : AL_TStreamSettings)
    (p : ResChgParam) : Int :=
  X.AL_DecGetAllocSize_Frame pSettings.tDim
    (X.AL_Decoder_GetMinPitch pSettings.tDim.iWidth pSettings.iBitDepth
      (getMainOutputStorageMode p.pDecSettings).1)
    pSettings.eChroma (getMainOutputStorageMode p.pDecSettings).2
    (getMainOutputStorageMode p.pDecSettings).1

/-- The value of `iNumBuf` in `sResolutionFound`. -/
def sResolutionFound.iNumBuf (BufferNumber : Int) : Int :=
  toInt32 ((toUInt32 BufferNumber + uDefaultNumBuffersHeldByNextComponent) % 2 ^ 32)

/-- The buffer handed to the decoder for the pool buffer `pDecPict`. -/
def sResolutionFound.handed (X : DecExternals) (bAddHDRMetaData : Bool)
    (pDecPict : AL_TBuffer) : AL_TBuffer :=
  if bAddHDRMetaData then AddHDRMetaData X pDecPict else pDecPict

/-- Sample library: semi-planar 4:2:0 with the width as pitch; the pool can be initialised
with at most 16 buffers and always has a buffer to give. -/
def sampleDecExternals : DecExternals :=
  { AL_GetDecPicFormat := fun eChroma iBitDepth eStorageMode bCompressed =>
      ⟨eChroma.getD AL_CHROMA_4_2_0, iBitDepth.toNat, eStorageMode, 1, bCompressed, false⟩
    AL_GetDecFourCC := fun tPicFormat => ⟨tPicFormat.eChromaMode, tPicFormat.uBitDepth, false⟩
    AL_Decoder_GetMinPitch := fun iWidth _ _ => iWidth
    AL_DecGetAllocSize_Frame := fun tDim iPitch _ _ _ => iPitch * tDim.iHeight * 3 / 2
    AL_Plane_GetBufferPixelPlanes := fun _ => [AL_PLANE_Y, AL_EPlaneId.other 3]
    AL_GetChromaPitch := fun _ iPitchY => iPitchY
    AL_DecGetAllocSize_Frame_PixPlane := fun _ tDim iPitch _ plane =>
      if plane = AL_PLANE_Y then iPitch * tDim.iHeight else iPitch * tDim.iHeight / 2
    Init := fun _ iNumBuf => decide (iNumBuf ≤ 16)
    GetBuffer := fun _ => some sampleFrame
    AL_HDRMetaData_Create := true }

/-- Sample stream settings: 64x64, 4:2:0, 8 bits. -/
def sampleStreamSettings : AL_TStreamSettings :=
  { tDim := ⟨64, 64⟩
    eChroma := some AL_CHROMA_4_2_0
    iBitDepth := 8
    iLevel := 40
    iProfileIdc := 1
    eSequenceMode := AL_ESequenceMode.AL_SM_PROGRESSIVE }

/-- Sample user parameter of the callback with a live decoder handle and a pool that is
initialised or not. -/
def sampleResChgParam (bPoolIsInit : Bool) : ResChgParam :=
  { hDec := some ⟨8, []⟩
    bPoolIsInit := bPoolIsInit
    bufPool := ⟨[]⟩
    pDecSettings := ⟨0, false⟩
    bAddHDRMetaData := true }

/-- Sample user parameter of the callback with a null decoder handle. -/
def nullResChgParam : ResChgParam :=
  { hDec := none
    bPoolIsInit := false
    bufPool := ⟨[]⟩
    pDecSettings := ⟨0, false⟩
    bAddHDRMetaData := true }

/-! ## Pre-allocation arguments -/

/-- Source function `RoundUp`, with the truncating division of C. -/
def RoundUp (iVal iRnd : Int) : Int :=
  Int.tdiv (iVal + iRnd - 1) iRnd * iRnd

/-- The state of a `std::stringstream` that is only read with `>>`: the characters not
read yet and the state flags `failbit` and `eofbit`. -/
structure stringstream where
  buf : List Char
  failbit : Bool
  eofbit : Bool
  deriving DecidableEq, Repr

/-- The whitespace of the classic locale: space and the characters 9 to 13. -/
def isspace (c : Char) : Bool :=
  c.toNat == 32 || (decide (9 ≤ c.toNat) && decide (c.toNat ≤ 13))

/-- The sentry of a formatted input operation with `skipws` set: on a stream that is not
good it sets `failbit`; otherwise it discards the leading whitespace and, when nothing
is left, sets `failbit` and `eofbit`.  The flag tells whether the operation may read. -/
def stringstream.sentry (ss : stringstream) : stringstream × Bool :=
  if ss.failbit || ss.eofbit then ({ ss with failbit := true }, false)
  else
    match ss.buf.dropWhile isspace with
    | [] => (⟨[], true, true⟩, false)
    | c :: rest => (⟨c :: rest, false, false⟩, true)

/-- The operation `ss >> c` for a `char` whose value before the operation is `c`: the
stream after it and the value of the `char`, which is kept when nothing is read. -/
def stringstream.extractChar (ss : stringstream) (c : Char) : stringstream × Char :=
  match ss.sentry with
  | (ss, false) => (ss, c)
  | (ss, true) =>
    match ss.buf with
    | [] => ({ ss with failbit := true, eofbit := true }, c)
    | x :: rest => ({ ss with buf := rest }, x)

/-- The value of a character as a digit: `0`-`9`, `a`-`f`, `A`-`F`. -/
def digitValue (c : Char) : Option Nat :=
  if 48 ≤ c.toNat ∧ c.toNat ≤ 57 then some (c.toNat - 48)
  else if 97 ≤ c.toNat ∧ c.toNat ≤ 102 then some (c.toNat - 87)
  else if 65 ≤ c.toNat ∧ c.toNat ≤ 70 then some (c.toNat - 55)
  else none

/-- The digits of an integer field in base `base`: the value accumulated so far, the
number of digits read and the characters left, the first of which is not a digit of the
base. -/
def stringstream.digits (base : Nat) : List Char → Nat → Nat → Nat × Nat × List Char
  | [], value, count => (value, count, [])
  | c :: rest, value, count =>
    match digitValue c with
    | none => (value, count, c :: rest)
    | some d =>
      if d < base then stringstream.digits base rest (value * base + d) (count + 1)
      else (value, count, c :: rest)

/-- The sign of an integer field: whether it is negative, and the characters after it. -/
def stringstream.sign : List Char → Bool × List Char
  | [] => (false, [])
  | c :: rest =>
    if c = '-' then (true, rest)
    else if c = '+' then (false, rest)
    else (false, c :: rest)

/-- The base of an integer field read with no `basefield` flag set: `0x` or `0X`
announces base 16, another leading `0` base 8 and counts as a digit read, anything else
is base 10.  The result is the base, whether a leading zero was read, and the characters
after what was read. -/
def stringstream.base : List Char → Nat × Bool × List Char
  | [] => (10, false, [])
  | [c] => if c = '0' then (8, true, []) else (10, false, [c])
  | c :: x :: rest =>
    if c = '0' then
      if x = 'x' ∨ x = 'X' then (16, false, rest) else (8, true, x :: rest)
    else (10, false, c :: x :: rest)

/-- The operation `ss >> n` for an `int` whose value before the operation is `n`, on a
stream with no `basefield` flag set (`ss.unsetf(ios::dec)`): the stream after it and the
value of the `int`.  When the sentry refuses, the value is kept.  A field without a
digit stores 0 and sets `failbit`; a value out of the range of `int` stores the nearest
bound and sets `failbit`; reading up to the end of the string sets `eofbit`. -/
def stringstream.extractInt (ss : stringstream) (n : Int) : stringstream × Int :=
  match ss.sentry with
  | (ss, false) => (ss, n)
  | (ss, true) =>
    let negative := (stringstream.sign ss.buf).1
    let based := stringstream.base (stringstream.sign ss.buf).2
    let field := stringstream.digits based.1 based.2.2 0 0
    let eof := field.2.2.isEmpty
    let limit : Nat := if negative then 2 ^ 31 else 2 ^ 31 - 1
    if field.2.1 = 0 ∧ based.2.1 = false then (⟨field.2.2, true, eof⟩, 0)
    else if limit < field.1 then
      (⟨field.2.2, true, eof⟩, if negative then -2 ^ 31 else 2 ^ 31 - 1)
    else (⟨field.2.2, false, eof⟩, if negative then -(field.1 : Int) else (field.1 : Int))

/-- The messages of the exceptions `parsePreAllocArgs` throws, by name. -/
inductive PreallocError where
  | wrongSeparator
  | wrongChromaFormat
  | wrongVideoFormat
  | wrongArgumentsFormat
  | wrongArguments
  deriving DecidableEq, Repr

/-- Source function `getExpectedSeparator`; `garbage` is the value the uninitialised
`sep` holds before the read. -/
def getExpectedSeparator (garbage : Char) (ss : stringstream) (expectedSep : Char) :
    Except PreallocError stringstream :=
  let read := ss.extractChar garbage
  if read.2 ≠ expectedSep then Except.error PreallocError.wrongSeparator
  else Except.ok read.1

/-- Source function `invalidPreallocSettings`. -/
def invalidPreallocSettings (settings : AL_TStreamSettings) : Bool :=
  decide (settings.iProfileIdc ≤ 0) || decide (settings.iLevel ≤ 0)
    || decide (settings.tDim.iWidth ≤ 0) || decide (settings.tDim.iHeight ≤ 0)
    || settings.eChroma == none
    || settings.eSequenceMode == AL_ESequenceMode.AL_SM_MAX_ENUM

/-- The `std::string` built from a character array: the characters before the first
null character. -/
def cstring (chars : List Char) : List Char :=
  chars.takeWhile fun c => c != Char.ofNat 0

/-- The chroma mode `parsePreAllocArgs` assigns for the text of `chroma`, if any. -/
def parsePreAllocArgs.chroma (chroma : List Char) : Option AL_EChromaMode :=
  if chroma = "400".toList then some AL_CHROMA_4_0_0
  else if chroma = "420".toList then some AL_CHROMA_4_2_0
  else if chroma = "422".toList then some AL_CHROMA_4_2_2
  else if chroma = "444".toList then some AL_CHROMA_4_4_4
  else none

/-- The sequence mode `parsePreAllocArgs` assigns for the text of `vm`, if any. -/
def parsePreAllocArgs.mode (vm : List Char) : Option AL_ESequenceMode :=
  if vm = "unkwn".toList then some AL_ESequenceMode.AL_SM_UNKNOWN
  else if vm = "progr".toList then some AL_ESequenceMode.AL_SM_PROGRESSIVE
  else if vm = "inter".toList then some AL_ESequenceMode.AL_SM_INTERLACED
  else none

/-- Source function `parsePreAllocArgs` on the characters of `toParse`: the settings
after the call, or the exception thrown.  `garbage k` is the value the uninitialised
`sep` holds in the call number `k` of `getExpectedSeparator`.  The final test
`ss.fail() || ss.tellg() != streampos(-1)` passes exactly when `failbit` is clear and
`eofbit` is set, `tellg` answering -1 only on a stream that is not good. -/
def parsePreAllocArgs (garbage : Nat → Char) (settings : AL_TStreamSettings)
    (toParse : List Char) : Except PreallocError AL_TStreamSettings := do
  let ss : stringstream := ⟨toParse, false, false⟩
  let iWidth := ss.extractInt settings.tDim.iWidth
  let ss ← getExpectedSeparator (garbage 0) iWidth.1 'x'
  let iHeight := ss.extractInt settings.tDim.iHeight
  let ss ← getExpectedSeparator (garbage 1) iHeight.1 ':'
  let vm0 := ss.extractChar (Char.ofNat 0)
  let vm1 := vm0.1.extractChar (Char.ofNat 0)
  let vm2 := vm1.1.extractChar (Char.ofNat 0)
  let vm3 := vm2.1.extractChar (Char.ofNat 0)
  let vm4 := vm3.1.extractChar (Char.ofNat 0)
  let ss ← getExpectedSeparator (garbage 2) vm4.1 ':'
  let chroma0 := ss.extractChar (Char.ofNat 0)
  let chroma1 := chroma0.1.extractChar (Char.ofNat 0)
  let chroma2 := chroma1.1.extractChar (Char.ofNat 0)
  let ss ← getExpectedSeparator (garbage 3) chroma2.1 ':'
  let iBitDepth := ss.extractInt settings.iBitDepth
  let ss ← getExpectedSeparator (garbage 4) iBitDepth.1 ':'
  let iProfileIdc := ss.extractInt settings.iProfileIdc
  let ss ← getExpectedSeparator (garbage 5) iProfileIdc.1 ':'
  let iLevel := ss.extractInt settings.iLevel
  let ss := iLevel.1
  let tDim : AL_TDimension := ⟨RoundUp iWidth.2 64, RoundUp iHeight.2 64⟩
  match parsePreAllocArgs.chroma (cstring [chroma0.2, chroma1.2, chroma2.2]) with
  | none => Except.error PreallocError.wrongChromaFormat
  | some eChroma =>
    match parsePreAllocArgs.mode (cstring [vm0.2, vm1.2, vm2.2, vm3.2, vm4.2]) with
    | none => Except.error PreallocError.wrongVideoFormat
    | some eSequenceMode =>
      if ss.failbit || !ss.eofbit then Except.error PreallocError.wrongArgumentsFormat
      else
        let settings : AL_TStreamSettings :=
          { tDim := tDim
            eChroma := some eChroma
            iBitDepth := iBitDepth.2
            iLevel := iLevel.2
            iProfileIdc := iProfileIdc.2
            eSequenceMode := eSequenceMode }
        if invalidPreallocSettings settings then Except.error PreallocError.wrongArguments
        else Except.ok settings

/-! ### The prealloc string as the specification words it -/

/-- The character of a decimal digit. -/
def decimalDigit (d : Nat) : Char := Char.ofNat (d + 48)

/-- The decimal numeral of a natural number, without leading zeros. -/
def decimal (n : Nat) : List Char :=
  if n = 0 then ['0'] else (Nat.digits 10 n).reverse.map decimalDigit

/-- The decimal numeral of an integer, with a minus sign when it is negative. -/
def decimalInt (v : Int) : List Char :=
  if v < 0 then '-' :: decimal (-v).toNat else decimal v.toNat

/-- The token of a sequence mode in the prealloc string. -/
def modeToken : AL_ESequenceMode → List Char
  | AL_ESequenceMode.AL_SM_UNKNOWN => "unkwn".toList
  | AL_ESequenceMode.AL_SM_PROGRESSIVE => "progr".toList
  | AL_ESequenceMode.AL_SM_INTERLACED => "inter".toList
  | AL_ESequenceMode.AL_SM_MAX_ENUM => []

/-- The token of a chroma mode in the prealloc string. -/
def chromaToken : AL_EChromaMode → List Char
  | AL_CHROMA_4_0_0 => "400".toList
  | AL_CHROMA_4_2_0 => "420".toList
  | AL_CHROMA_4_2_2 => "422".toList
  | AL_CHROMA_4_4_4 => "444".toList

/-- The prealloc string `WxH:mode:chroma:B:P:L`, nothing after `L`. -/
def preallocString (W H : Nat) (mode : AL_ESequenceMode) (chroma : AL_EChromaMode)
    (B : Int) (P L : Nat) : List Char :=
  decimal W ++ 'x' :: (decimal H ++ ':' :: (modeToken mode ++ ':' :: (chromaToken chroma
    ++ ':' :: (decimalInt B ++ ':' :: (decimal P ++ ':' :: decimal L)))))

/-- The values the reads of `parsePreAllocArgs` give, taken in the order of the source,
when no call of `getExpectedSeparator` throws: the three characters of `chroma`, the
five of `vm`, the numbers, the value of `sep` after each of the six separator reads and
the stream after the last read. -/
structure parsePreAllocArgs.Locals where
  iWidth : Int
  sepWidth : Char
  iHeight : Int
  sepHeight : Char
  vm : List Char
  sepMode : Char
  chroma : List Char
  sepChroma : Char
  iBitDepth : Int
  sepBitDepth : Char
  iProfileIdc : Int
  sepProfile : Char
  iLevel : Int
  ss : stringstream
  deriving DecidableEq, Repr

/-- The reads of `parsePreAllocArgs` in the order of the source, without the checks. -/
def parsePreAllocArgs.reads (garbage : Nat → Char) (settings : AL_TStreamSettings)
    (toParse : List Char) : parsePreAllocArgs.Locals :=
  let ss : stringstream := ⟨toParse, false, false⟩
  let iWidth := ss.extractInt settings.tDim.iWidth
  let sepWidth := iWidth.1.extractChar (garbage 0)
  let iHeight := sepWidth.1.extractInt settings.tDim.iHeight
  let sepHeight := iHeight.1.extractChar (garbage 1)
  let vm0 := sepHeight.1.extractChar (Char.ofNat 0)
  let vm1 := vm0.1.extractChar (Char.ofNat 0)
  let vm2 := vm1.1.extractChar (Char.ofNat 0)
  let vm3 := vm2.1.extractChar (Char.ofNat 0)
  let vm4 := vm3.1.extractChar (Char.ofNat 0)
  let sepMode := vm4.1.extractChar (garbage 2)
  let chroma0 := sepMode.1.extractChar (Char.ofNat 0)
  let chroma1 := chroma0.1.extractChar (Char.ofNat 0)
  let chroma2 := chroma1.1.extractChar (Char.ofNat 0)
  let sepChroma := chroma2.1.extractChar (garbage 3)
  let iBitDepth := sepChroma.1.extractInt settings.iBitDepth
  let sepBitDepth := iBitDepth.1.extractChar (garbage 4)
  let iProfileIdc := sepBitDepth.1.extractInt settings.iProfileIdc
  let sepProfile := iProfileIdc.1.extractChar (garbage 5)
  let iLevel := sepProfile.1.extractInt settings.iLevel
  { iWidth := iWidth.2
    sepWidth := sepWidth.2
    iHeight := iHeight.2
    sepHeight := sepHeight.2
    vm := [vm0.2, vm1.2, vm2.2, vm3.2, vm4.2]
    sepMode := sepMode.2
    chroma := [chroma0.2, chroma1.2, chroma2.2]
    sepChroma := sepChroma.2
    iBitDepth := iBitDepth.2
    sepBitDepth := sepBitDepth.2
    iProfileIdc := iProfileIdc.2
    sepProfile := sepProfile.2
    iLevel := iLevel.2
    ss := iLevel.1 }

/-- The settings `parsePreAllocArgs` has stored when it reaches its last check. -/
def parsePreAllocArgs.stored (r : parsePreAllocArgs.Locals) (eChroma : AL_EChromaMode)
    (eSequenceMode : AL_ESequenceMode) : AL_TStreamSettings :=
  { tDim := ⟨RoundUp r.iWidth 64, RoundUp r.iHeight 64⟩
    eChroma := some eChroma
    iBitDepth := r.iBitDepth
    iLevel := r.iLevel
    iProfileIdc := r.iProfileIdc
    eSequenceMode := eSequenceMode }

/-- The checks of `parsePreAllocArgs` on the values read, in the order in which they
throw: the six separators, the chroma token, the mode token, the state of the stream
and the settings. -/
def parsePreAllocArgs.checks (r : parsePreAllocArgs.Locals) :
    Except PreallocError AL_TStreamSettings :=
  if r.sepWidth = 'x' ∧ r.sepHeight = ':' ∧ r.sepMode = ':' ∧ r.sepChroma = ':'
      ∧ r.sepBitDepth = ':' ∧ r.sepProfile = ':' then
    match parsePreAllocArgs.chroma (cstring r.chroma) with
    | none => Except.error PreallocError.wrongChromaFormat
    | some eChroma =>
      match parsePreAllocArgs.mode (cstring r.vm) with
      | none => Except.error PreallocError.wrongVideoFormat
      | some eSequenceMode =>
        if r.ss.failbit || !r.ss.eofbit then Except.error PreallocError.wrongArgumentsFormat
        else if invalidPreallocSettings (parsePreAllocArgs.stored r eChroma eSequenceMode) then
          Except.error PreallocError.wrongArguments
        else Except.ok (parsePreAllocArgs.stored r eChroma eSequenceMode)
  else Except.error PreallocError.wrongSeparator

/-- Sample settings before parsing: every field at its invalid value. -/
def samplePreallocSettings : AL_TStreamSettings :=
  { tDim := ⟨0, 0⟩
    eChroma := none
    iBitDepth := 0
    iLevel := 0
    iProfileIdc := 0
    eSequenceMode := AL_ESequenceMode.AL_SM_MAX_ENUM }

/-! ## HDR SEIs (lib_common/HDR.c) -/

/-- The fields of `AL_THDRSEIs`.  The types of the five payloads are declared in a header
that is not part of the sources; they are parameters. -/
structure AL_THDRSEIs (MDCV CLL ATC ST2094_10 ST2094_40 : Type) where
  bHasMDCV : Bool
  tMDCV : MDCV
  bHasCLL : Bool
  tCLL : CLL
  bHasATC : Bool
  tATC : ATC
  bHasST2094_10 : Bool
  tST2094_10 : ST2094_10
  bHasST2094_40 : Bool
  tST2094_40 : ST2094_40

/-- The objects of type `AL_THDRSEIs` in memory, by address.  Two pointers either name
the same object or two objects that do not overlap. -/
abbrev HDRMemory (MDCV CLL ATC ST2094_10 ST2094_40 : Type) :=
  Nat → AL_THDRSEIs MDCV CLL ATC ST2094_10 ST2094_40

/-- Assignment through a pointer: the object at `p` becomes `v`. -/
def HDRMemory.store {MDCV CLL ATC ST2094_10 ST2094_40 : Type}
    (mem : HDRMemory MDCV CLL ATC ST2094_10 ST2094_40) (p : Nat)
    (v : AL_THDRSEIs MDCV CLL ATC ST2094_10 ST2094_40) :
    HDRMemory MDCV CLL ATC ST2094_10 ST2094_40 :=
  fun q => if q = p then v else mem q

/-- Source function `AL_HDRSEIs_Reset`; `none` is the null pointer. -/
def AL_HDRSEIs_Reset {MDCV CLL ATC ST2094_10 ST2094_40 : Type}
    (mem : HDRMemory MDCV CLL ATC ST2094_10 ST2094_40) (pHDRSEIs : Option Nat) :
    HDRMemory MDCV CLL ATC ST2094_10 ST2094_40 :=
  match pHDRSEIs with
  | none => mem
  | some p =>
    let mem := mem.store p { mem p with bHasMDCV := false }
    let mem := mem.store p { mem p with bHasCLL := false }
    let mem := mem.store p { mem p with bHasATC := false }
    let mem := mem.store p { mem p with bHasST2094_10 := false }
    mem.store p { mem p with bHasST2094_40 := false }

/-- The statements of `AL_HDRSEIs_Copy` on the MDCV flag and payload. -/
def AL_HDRSEIs_Copy.MDCV {MDCV CLL ATC ST2094_10 ST2094_40 : Type}
    (mem : HDRMemory MDCV CLL ATC ST2094_10 ST2094_40) (pHDRSEIsSrc pHDRSEIsDst : Nat) :
    HDRMemory MDCV CLL ATC ST2094_10 ST2094_40 :=
  let mem := mem.store pHDRSEIsDst
    { mem pHDRSEIsDst with bHasMDCV := (mem pHDRSEIsSrc).bHasMDCV }
  if (mem pHDRSEIsDst).bHasMDCV then
    mem.store pHDRSEIsDst { mem pHDRSEIsDst with tMDCV := (mem pHDRSEIsSrc).tMDCV }
  else mem

/-- The statements of `AL_HDRSEIs_Copy` on the CLL flag and payload. -/
def AL_HDRSEIs_Copy.CLL {MDCV CLL ATC ST2094_10 ST2094_40 : Type}
    (mem : HDRMemory MDCV CLL ATC ST2094_10 ST2094_40) (pHDRSEIsSrc pHDRSEIsDst : Nat) :
    HDRMemory MDCV CLL ATC ST2094_10 ST2094_40 :=
  let mem := mem.store pHDRSEIsDst
    { mem pHDRSEIsDst with bHasCLL := (mem pHDRSEIsSrc).bHasCLL }
  if (mem pHDRSEIsDst).bHasCLL then
    mem.store pHDRSEIsDst { mem pHDRSEIsDst with tCLL := (mem pHDRSEIsSrc).tCLL }
  else mem

/-- The statements of `AL_HDRSEIs_Copy` on the ATC flag and payload. -/
def AL_HDRSEIs_Copy.ATC {MDCV CLL ATC ST2094_10 ST2094_40 : Type}
    (mem : HDRMemory MDCV CLL ATC ST2094_10 ST2094_40) (pHDRSEIsSrc pHDRSEIsDst : Nat) :
    HDRMemory MDCV CLL ATC ST2094_10 ST2094_40 :=
  let mem := mem.store pHDRSEIsDst
    { mem pHDRSEIsDst with bHasATC := (mem pHDRSEIsSrc).bHasATC }
  if (mem pHDRSEIsDst).bHasATC then
    mem.store pHDRSEIsDst { mem pHDRSEIsDst with tATC := (mem pHDRSEIsSrc).tATC }
  else mem

/-- The statements of `AL_HDRSEIs_Copy` on the ST2094_10 flag and payload. -/
def AL_HDRSEIs_Copy.ST2094_10 {MDCV CLL ATC ST2094_10 ST2094_40 : Type}
    (mem : HDRMemory MDCV CLL ATC ST2094_10 ST2094_40) (pHDRSEIsSrc pHDRSEIsDst : Nat) :
    HDRMemory MDCV CLL ATC ST2094_10 ST2094_40 :=
  let mem := mem.store pHDRSEIsDst
    { mem pHDRSEIsDst with bHasST2094_10 := (mem pHDRSEIsSrc).bHasST2094_10 }
  if (mem pHDRSEIsDst).bHasST2094_10 then
    mem.store pHDRSEIsDst { mem pHDRSEIsDst with tST2094_10 := (mem pHDRSEIsSrc).tST2094_10 }
  else mem

/-- The statements of `AL_HDRSEIs_Copy` on the ST2094_40 flag and payload. -/
def AL_HDRSEIs_Copy.ST2094_40 {MDCV CLL ATC ST2094_10 ST2094_40 : Type}
    (mem : HDRMemory MDCV CLL ATC ST2094_10 ST2094_40) (pHDRSEIsSrc pHDRSEIsDst : Nat) :
    HDRMemory MDCV CLL ATC ST2094_10 ST2094_40 :=
  let mem := mem.store pHDRSEIsDst
    { mem pHDRSEIsDst with bHasST2094_40 := (mem pHDRSEIsSrc).bHasST2094_40 }
  if (mem pHDRSEIsDst).bHasST2094_40 then
    mem.store pHDRSEIsDst { mem pHDRSEIsDst with tST2094_40 := (mem pHDRSEIsSrc).tST2094_40 }
  else mem

/-- Source function `AL_HDRSEIs_Copy` for two pointers that are not null: its five
groups of statements in the order of the source, each reading the memory the one before
it left. -/
def AL_HDRSEIs_Copy {MDCV CLL ATC ST2094_10 ST2094_40 : Type}
    (mem : HDRMemory MDCV CLL ATC ST2094_10 ST2094_40) (pHDRSEIsSrc pHDRSEIsDst : Nat) :
    HDRMemory MDCV CLL ATC ST2094_10 ST2094_40 :=
  let mem := AL_HDRSEIs_Copy.MDCV mem pHDRSEIsSrc pHDRSEIsDst
  let mem := AL_HDRSEIs_Copy.CLL mem pHDRSEIsSrc pHDRSEIsDst
  let mem := AL_HDRSEIs_Copy.ATC mem pHDRSEIsSrc pHDRSEIsDst
  let mem := AL_HDRSEIs_Copy.ST2094_10 mem pHDRSEIsSrc pHDRSEIsDst
  AL_HDRSEIs_Copy.ST2094_40 mem pHDRSEIsSrc pHDRSEIsDst

/-- The object `pHDRSEIsDst` points to after `AL_HDRSEIs_Copy`, from the two objects
before the call. -/
def specHDRSEIsCopy {MDCV CLL ATC ST2094_10 ST2094_40 : Type}
    (src dst : AL_THDRSEIs MDCV CLL ATC ST2094_10 ST2094_40) :
    AL_THDRSEIs MDCV CLL ATC ST2094_10 ST2094_40 :=
  { bHasMDCV := src.bHasMDCV
    tMDCV := if src.bHasMDCV then src.tMDCV else dst.tMDCV
    bHasCLL := src.bHasCLL
    tCLL := if src.bHasCLL then src.tCLL else dst.tCLL
    bHasATC := src.bHasATC
    tATC := if src.bHasATC then src.tATC else dst.tATC
    bHasST2094_10 := src.bHasST2094_10
    tST2094_10 := if src.bHasST2094_10 then src.tST2094_10 else dst.tST2094_10
    bHasST2094_40 := src.bHasST2094_40
    tST2094_40 := if src.bHasST2094_40 then src.tST2094_40 else dst.tST2094_40 }

/-- Sample memory with payloads that are numbers: the object at address 0 has the MDCV and
ATC payloads present, every other object has the five flags set and payloads 7. -/
def sampleHDRMemory : HDRMemory Nat Nat Nat Nat Nat :=
  fun p =>
    if p = 0 then
      { bHasMDCV := true, tMDCV := 1, bHasCLL := false, tCLL := 2, bHasATC := true, tATC := 3,
        bHasST2094_10 := false, tST2094_10 := 4, bHasST2094_40 := false, tST2094_40 := 5 }
    else
      { bHasMDCV := true, tMDCV := 7, bHasCLL := true, tCLL := 7, bHasATC := true, tATC := 7,
        bHasST2094_10 := true, tST2094_10 := 7, bHasST2094_40 := true, tST2094_40 := 7 }

/-! ### The write size and the allocated size as the specification words them -/

/-- Specification: the bytes written from the Y plane address,
`(w * h + 2 * ceil(w / sx) * ceil(h / sy)) * bytesPerSample`. -/
def specWriteSize (bd w h sx sy : Int) : Int :=
  (w * h + 2 * (ceilDiv w sx * ceilDiv h sy)) * specBytesPerSample bd

/-- Specification: the size allocated for the destination buffer,
`w * h * bytesPerSample + 2 * ceil(bytesPerSample * w / sx) * ceil(h / sy)`. -/
def specAllocatedSize (bd w h sx sy : Int) : Int :=
  specLumaSize bd w h + 2 * specChromaSize bd w h sx sy

/-- A 3x2 picture in 8-bit semi-planar 4:2:0. -/
def oddFrame : AL_TBuffer :=
  { tFourCC := ⟨AL_CHROMA_4_2_0, 8, false⟩
    tDim := ⟨3, 2⟩
    uSize := 9
    planes := []
    bData := true
    bHDR := false }

/-- The destination buffer `ConvertFrameBuffer` creates for `oddFrame` at 10 bits: 18
bytes. -/
def oddConverted : AL_TBuffer :=
  { tFourCC := ⟨AL_CHROMA_4_2_0, 10, false⟩
    tDim := ⟨3, 2⟩
    uSize := 18
    planes := [⟨AL_PLANE_Y, 0, 6⟩, ⟨AL_PLANE_U, 12, 3⟩, ⟨AL_PLANE_V, 15, 3⟩]
    bData := true
    bHDR := false }

/-! ## Exceptions, the input feeder, the channels and `main` -/

/-- The exceptions the harness throws and catches: `codec_error`, a `runtime_error` that
also carries `Code`, and any other `runtime_error`; `what` is the message. -/
inductive Exception where
  | codec_error (what : String) (Code : Int)
  | runtime_error (what : String)
  deriving DecidableEq, Repr

/-- The values of the `AL_ERR` enumerators `ToString` names; they are declared in a
library header that is not part of the sources and are parameters. -/
structure ToStringCodes where
  AL_ERR_CHAN_CREATION_NO_CHANNEL_AVAILABLE : Int
  AL_ERR_CHAN_CREATION_RESOURCE_UNAVAILABLE : Int
  AL_ERR_CHAN_CREATION_NOT_ENOUGH_CORES : Int
  AL_ERR_REQUEST_MALFORMED : Int
  AL_ERR_NO_MEMORY : Int
  AL_SUCCESS : Int

/-- Source function `ToString(AL_ERR)`: the `switch` over the named codes, in the order of
its labels. -/
def ToString (C : ToStringCodes) (eErrCode : Int) : String :=
  if eErrCode = C.AL_ERR_CHAN_CREATION_NO_CHANNEL_AVAILABLE then
    "Channel not created, no channel available"
  else if eErrCode = C.AL_ERR_CHAN_CREATION_RESOURCE_UNAVAILABLE then
    "Channel not created, processing power of the available cores insufficient"
  else if eErrCode = C.AL_ERR_CHAN_CREATION_NOT_ENOUGH_CORES then
    "Channel not created, couldn't spread the load on enough cores"
  else if eErrCode = C.AL_ERR_REQUEST_MALFORMED then
    "Channel not created: request was malformed"
  else if eErrCode = C.AL_ERR_NO_MEMORY then
    "Memory shortage detected (dma, embedded memory or virtual memory shortage)"
  else if eErrCode = C.AL_SUCCESS then "Success"
  else "Unknown error"

/-- The constructor `codec_error(eErrCode)`: `runtime_error(ToString(eErrCode))` and
`Code(eErrCode)`. -/
def codec_error (C : ToStringCodes) (eErrCode : Int) : Exception :=
  Exception.codec_error (ToString C eErrCode) eErrCode

/-- The member `Code` of a caught `codec_error`. -/
def Exception.Code : Exception → Option Int
  | Exception.codec_error _ Code => some Code
  | Exception.runtime_error _ => none

/-- The member function `what()`. -/
def Exception.what : Exception → String
  | Exception.codec_error what _ => what
  | Exception.runtime_error what => what

/-- One call the input feeder makes on the decoder: `AL_Decoder_PushBuffer(hDec, pBuf,
uSize)` or `AL_Decoder_Flush(hDec)`.  A stream buffer is named by a number. -/
inductive DecoderCall where
  | AL_Decoder_PushBuffer (pBuf : Nat) (uSize : Nat)
  | AL_Decoder_Flush
  deriving DecidableEq, Repr

/-- What the surroundings answer in one pass of the loop of `AsyncFileInput::run`: the
value of the `exit` flag at the loop test, the buffer `bufPool.GetBuffer()` returns
(`none` when it throws `bufpool_decommited_error`), the size `ReadStream` returns and the
value `AL_Decoder_PushBuffer` returns.  An answer is not used when the pass does not
reach the call. -/
structure FeederPass where
  exit : Bool
  pBufStream : Option Nat
  uAvailSize : Nat
  bRet : Bool
  deriving DecidableEq, Repr

/-- Source function `AsyncFileInput::run` against the answers of the successive passes
of its loop, after the decoder calls `calls`: the decoder calls made, and how the
function ended: `some (Except.ok ())` is a return, `some (Except.error e)` a throw, and
`none` says that the loop is still running when the answers are used up. -/
def AsyncFileInput.run : List FeederPass → List DecoderCall →
    Option (Except Exception Unit) × List DecoderCall
  | [], calls => (none, calls)
  | pass :: rest, calls =>
    if pass.exit then (some (Except.ok ()), calls)
    else
      match pass.pBufStream with
      | none => AsyncFileInput.run rest calls
      | some pBufStream =>
        if pass.uAvailSize = 0 then
          (some (Except.ok ()), calls ++ [DecoderCall.AL_Decoder_Flush])
        else
          let calls := calls ++ [DecoderCall.AL_Decoder_PushBuffer pBufStream pass.uAvailSize]
          if pass.bRet = false then
            (some (Except.error (Exception.runtime_error "Failed to push buffer")), calls)
          else AsyncFileInput.run rest calls

/-- The pass of the feeder loop in which the buffer `read.1` is obtained, `read.2` bytes are
read and the push is accepted, the exit flag being clear. -/
def FeederPass.accepted (read : Nat × Nat) : FeederPass :=
  { exit := false, pBufStream := some read.1, uAvailSize := read.2, bRet := true }

/-- The push of a read: buffer `read.1`, size `read.2`. -/
def DecoderCall.push (read : Nat × Nat) : DecoderCall :=
  DecoderCall.AL_Decoder_PushBuffer read.1 read.2

/-- The constant `MAX_CHANNELS`. -/
def MAX_CHANNELS : Int := 1

/-- The statement `argvChannels[curChan].push_back(arg)`; `none` when `curChan` is not
an index of the array. -/
def GetChannelsArgv.push_back (argvChannels : List (List String)) (curChan : Int)
    (arg : String) : Option (List (List String)) :=
  if 0 ≤ curChan ∧ curChan.toNat < argvChannels.length then
    some (argvChannels.modify (fun channel => channel ++ [arg]) curChan.toNat)
  else none

/-- The `for` loop of `GetChannelsArgv` over the arguments still to be read; `argv0` is
`argv[0]`.  The result is `none` when the array is written outside its bounds. -/
def GetChannelsArgv.loop (argv0 : String) :
    List String → Int → List (List String) →
    Option (Except Exception (Int × List (List String)))
  | [], curChan, argvChannels => some (Except.ok (curChan, argvChannels))
  | arg :: rest, curChan, argvChannels =>
    if arg = "--next-chan" then
      let curChan := curChan + 1
      if curChan ≥ MAX_CHANNELS then
        some (Except.error (Exception.runtime_error "Too many channels"))
      else
        match GetChannelsArgv.push_back argvChannels curChan argv0 with
        | none => none
        | some argvChannels => GetChannelsArgv.loop argv0 rest curChan argvChannels
    else
      match GetChannelsArgv.push_back argvChannels curChan arg with
      | none => none
      | some argvChannels => GetChannelsArgv.loop argv0 rest curChan argvChannels

/-- Source function `GetChannelsArgv(argvChannels, argc, argv)` with `argc` the length of
`argv`: the returned `curChan` and the array after the call. -/
def GetChannelsArgv (argvChannels : List (List String)) (argv : List String) :
    Option (Except Exception (Int × List (List String))) :=
  GetChannelsArgv.loop (argv.headD "") argv 0 argvChannels

/-- The branch `SafeMain` takes after it created the device. -/
inductive SafeMainBranch where
  | notReached
  | monoChannel
  | multiChannel
  deriving DecidableEq, Repr

/-- What `SafeMain` gets from the functions it calls: whether `ParseCommandLine` throws
on the arguments of a channel and otherwise the `help` flag of the configuration,
whether `CreateIpDevice` gives a device, and the exception `ChannelMain` stores, if
any. -/
structure SafeMainCalls where
  ParseCommandLine : List String → Except Exception Bool
  CreateIpDevice : Bool
  ChannelMain : Option Exception

/-- Source function `SafeMain(argc, argv)`: how it ends and which branch it took; `none`
when `GetChannelsArgv` writes outside the array.  The array `argvChannels` has
`MAX_CHANNELS` empty elements. -/
def SafeMain (X : SafeMainCalls) (argv : List String) :
    Option (Except Exception Unit × SafeMainBranch) :=
  match GetChannelsArgv (List.replicate MAX_CHANNELS.toNat []) argv with
  | none => none
  | some (Except.error e) => some (Except.error e, SafeMainBranch.notReached)
  | some (Except.ok (maxChan, argvChannels)) =>
    -- for(int chan = 0; chan <= maxChan; ++chan) cfgChannels[chan] = ParseCommandLine(...)
    let parsed : Except Exception Unit :=
      (argvChannels.take (maxChan + 1).toNat).foldl
        (fun done channel =>
          match done with
          | Except.error e => Except.error e
          | Except.ok _ => (X.ParseCommandLine channel).map fun _ => ())
        (Except.ok ())
    match parsed with
    | Except.error e => some (Except.error e, SafeMainBranch.notReached)
    | Except.ok _ =>
      match X.ParseCommandLine (argvChannels.headD []) with
      | Except.error e => some (Except.error e, SafeMainBranch.notReached)
      | Except.ok help =>
        if help then some (Except.ok (), SafeMainBranch.notReached)
        else if X.CreateIpDevice = false then
          some (Except.error (Exception.runtime_error "Can't create IpDevice"),
            SafeMainBranch.notReached)
        else if maxChan = 0 then
          match X.ChannelMain with
          | some e => some (Except.error e, SafeMainBranch.monoChannel)
          | none => some (Except.ok (), SafeMainBranch.monoChannel)
        else
          some (Except.error (Exception.runtime_error
            "Local multichannel isn't supported in this configuration"),
            SafeMainBranch.multiChannel)

/-- The `try` block of `main` around the call of `SafeMain` that ended as `outcome`: the
value returned and the lines sent to `cerr`. -/
def main.handlers (outcome : Except Exception Unit) : Int × List String :=
  match outcome with
  | Except.ok _ => (0, [])
  | Except.error (Exception.codec_error what Code) => (Code, ["", "Codec error: " ++ what])
  | Except.error (Exception.runtime_error what) => (1, ["", "Exception caught: " ++ what])

/-- Source function `main(argc, argv)`: the value it returns. -/
def main (X : SafeMainCalls) (argv : List String) : Option Int :=
  (SafeMain X argv).map fun r => (main.handlers r.1).1

/-! ## The end of a channel run -/

/-- The call `LogInfo(msg, durationInSeconds, decodedFrameNumber / durationInSeconds,
iNumFrameConceal)` of `ShowStatistics`.  The duration is kept as the number of
milliseconds it is computed from, `durationInSeconds` being that number divided by
`1000.0`; the floating-point quotients are not computed. -/
structure LogInfoCall where
  msg : String
  durationMs : Int
  decodedFrameNumber : Int
  iNumFrameConceal : Int
  deriving DecidableEq, Repr

/-- Source function `ShowStatistics`. -/
def ShowStatistics (durationMs : Int) (iNumFrameConceal decodedFrameNumber : Int)
    (timeoutOccured : Bool) : LogInfoCall :=
  let guard := "Decoded time = "
  let guard := if timeoutOccured then "TIMEOUT = " else guard
  let msg := guard ++ "%.4f s;  Decoding FrameRate ~ %.4f Fps; Frame(s) conceal = %d\n"
  { msg := msg
    durationMs := durationMs
    decodedFrameNumber := decodedFrameNumber
    iNumFrameConceal := iNumFrameConceal }

/-- What the surroundings answer during one call of `SafeChannelMain`: the results of
`bufPool.Init` and `AL_Decoder_Create` (the error code, and whether the handle is not
null), the stream settings of the configuration, the result of
`AL_Decoder_PreallocateBuffers` and the last error read after it, `Config.iLoop` and
`Config.iTimeoutInSeconds`, the result of `Rtos_WaitEvent` in each pass of the loop for
the timeout it is given (`none` for `AL_WAIT_FOREVER`), and what is read after the loop:
the last error of the decoder, the number of decoded frames, the number of concealed
frames and the two readings of `GetPerfTime`.  Calls into code that is not part of the
sources and is not listed here are taken to return. -/
structure ChannelRun where
  bufPoolInit : Bool
  AL_Decoder_Create : Int
  hDec : Bool
  tStream : AL_TStreamSettings
  AL_Decoder_PreallocateBuffers : Bool
  lastErrorAfterPreallocate : Int
  iLoop : Int
  iTimeoutInSeconds : Int
  Rtos_WaitEvent : Nat → Option Int → Bool
  AL_Decoder_GetLastError : Int
  decodedFrames : Int
  iNumFrameConceal : Int
  uBegin : Int
  uEnd : Int

/-- The value of `timeout` in the loop of `SafeChannelMain`; `none` is
`AL_WAIT_FOREVER`. -/
def SafeChannelMain.timeout (R : ChannelRun) : Option Int :=
  let maxWait := R.iTimeoutInSeconds * 1000
  if maxWait ≥ 0 then some maxWait else none

/-- The `for` loop of `SafeChannelMain` over `iLoop`: the value of `timeoutOccured` after
it. -/
def SafeChannelMain.waitLoop (R : ChannelRun) : Bool :=
  (List.range R.iLoop.toNat).foldl
    (fun timeoutOccured iLoop =>
      if R.Rtos_WaitEvent iLoop (SafeChannelMain.timeout R) = false then true
      else timeoutOccured)
    false

/-- Source function `SafeChannelMain`, its throw sites and its final call of
`ShowStatistics`: the statistics call when it returns, the exception when it throws,
`none` when `assert(hDec)` fails. -/
def SafeChannelMain (E : ErrorCodes) (C : ToStringCodes) (R : ChannelRun) :
    Option (Except Exception LogInfoCall) :=
  if R.bufPoolInit = false then
    some (Except.error (Exception.runtime_error "Can't create BufPool"))
  else if E.AL_IS_ERROR_CODE R.AL_Decoder_Create then
    some (Except.error (codec_error C R.AL_Decoder_Create))
  else if R.hDec = false then none
  else if invalidPreallocSettings R.tStream = false
      ∧ R.AL_Decoder_PreallocateBuffers = false ∧ R.lastErrorAfterPreallocate ≠ 0 then
    some (Except.error (codec_error C R.lastErrorAfterPreallocate))
  else
    let timeoutOccured := SafeChannelMain.waitLoop R
    let eErr := R.AL_Decoder_GetLastError
    if E.AL_IS_ERROR_CODE eErr then some (Except.error (codec_error C eErr))
    else if R.decodedFrames = 0 then
      some (Except.error (Exception.runtime_error "No frame decoded"))
    else
      some (Except.ok
        (ShowStatistics (R.uEnd - R.uBegin) R.iNumFrameConceal R.decodedFrames timeoutOccured))

/-- Sample values of the codes `ToString` names. -/
def sampleToStringCodes : ToStringCodes :=
  { AL_ERR_CHAN_CREATION_NO_CHANNEL_AVAILABLE := 141
    AL_ERR_CHAN_CREATION_RESOURCE_UNAVAILABLE := 142
    AL_ERR_CHAN_CREATION_NOT_ENOUGH_CORES := 143
    AL_ERR_REQUEST_MALFORMED := 144
    AL_ERR_NO_MEMORY := 135
    AL_SUCCESS := 0 }

/-- Sample run of a channel: one pass of the loop whose wait times out after 5 seconds,
no engine error, `decodedFrames` frames decoded in 5000 ms. -/
def sampleTimeoutRun (decodedFrames : Int) : ChannelRun :=
  { bufPoolInit := true
    AL_Decoder_Create := 0
    hDec := true
    tStream := samplePreallocSettings
    AL_Decoder_PreallocateBuffers := true
    lastErrorAfterPreallocate := 0
    iLoop := 1
    iTimeoutInSeconds := 5
    Rtos_WaitEvent := fun _ _ => false
    AL_Decoder_GetLastError := 0
    decodedFrames := decodedFrames
    iNumFrameConceal := 0
    uBegin := 1000
    uEnd := 6000 }

/-- Sample calls of `SafeMain`: the command line parses without `help`, the device is
created and the channel ends with the exception `ChannelMain`. -/
def sampleSafeMainCalls (ChannelMain : Option Exception) : SafeMainCalls :=
  { ParseCommandLine := fun _ => Except.ok false
    CreateIpDevice := true
    ChannelMain := ChannelMain }

/-! ## The hexadecimal dump of an SEI payload -/

/-- The character `num_put` writes for a hexadecimal digit below 16 on a stream without
the `uppercase` flag. -/
def hexDigitLower (d : Nat) : Char :=
  if d < 10 then Char.ofNat (48 + d) else Char.ofNat (87 + d)

/-- The hexadecimal numeral of `v`, most significant digit first, as a stream with the
`hex` flag and without `uppercase` and `showbase` writes it (a single 0 for zero). -/
def hexLower (v : Nat) : List Char :=
  if v = 0 then [hexDigitLower 0] else (Nat.digits 16 v).reverse.map hexDigitLower

/-- The text of `*logger << setfill('0') << setw(2) << (int)byte` on a stream set to
`std::hex`. -/
def hexByte (byte : Nat) : List Char :=
  padLeft 2 '0' (hexLower byte)

/-- The `while` loop of `printHexdump` with `toPrint` bytes left to print, after the text
`out`; `column` counts the bytes printed.  The result is `none` when `data` is read
outside its bounds. -/
def printHexdump.loop (data : List Nat) (size : Int) :
    (toPrint : Nat) → (column : Nat) → (out : List Char) → Option (List Char)
  | 0, _, out => some out
  | toPrint + 1, column, out =>
    match data[(size - ((toPrint + 1 : Nat) : Int)).toNat]? with
    | none => none
    | some byte =>
      let out := out ++ hexByte byte
      let column := column + 1
      if toPrint > 0 then
        if column % 8 = 0 then printHexdump.loop data size toPrint column (out ++ [Char.ofNat 10])
        else printHexdump.loop data size toPrint column (out ++ [' '])
      else printHexdump.loop data size toPrint column out

/-- Source function `printHexdump(logger, data, size)`: the text sent to the stream; the
bytes of `data` are numbers below 256. -/
def printHexdump (data : List Nat) (size : Int) : Option (List Char) :=
  printHexdump.loop data size size.toNat 0 []

/-! ### The dump as the specification words it -/

/-- The rows of the dump: `ceil(n / 8)` rows, row `j` holding the bytes from `8 * j` up to
`8 * j + 8`, as far as there are bytes. -/
def specHexdumpRows (data : List Nat) : List (List Nat) :=
  (List.range ((data.length + 7) / 8)).map fun j => (data.drop (8 * j)).take 8

/-- The text of the dump: the two digits of each byte, one space between the bytes of a
row, one line break between rows, nothing after the last byte. -/
def specHexdump (data : List Nat) : List Char :=
  [Char.ofNat 10].intercalate
    ((specHexdumpRows data).map fun row => [' '].intercalate (row.map hexByte))

/-- The bytes of a sequence of hexadecimal digits taken two at a time, the first of each
pair being the high digit. -/
def readHexdump.pairs : List Nat → List Nat
  | high :: low :: rest => (16 * high + low) :: readHexdump.pairs rest
  | _ => []

/-- Reading a dump back: the hexadecimal digits of the text, in order, two to a byte. -/
def readHexdump (text : List Char) : List Nat :=
  readHexdump.pairs (text.filterMap digitValue)
/-- The text the loop of `printHexdump` sends for the bytes still to print, `column` bytes
having been printed: after each byte but the last a line break when the count of bytes
printed is a multiple of 8, a space otherwise. -/
def specHexdumpFrom : List Nat → Nat → List Char
  | [], _ => []
  | [byte], _ => hexByte byte
  | byte :: next :: rest, column =>
    hexByte byte ++ (if (column + 1) % 8 = 0 then [Char.ofNat 10] else [' '])
      ++ specHexdumpFrom (next :: rest) (column + 1)

/-! ## Theorems: conversion dispatch -/

/-- Within a byte for the chroma code and the input depth and 16 bits for the output
depth, the packed key is the plain positional sum of its three fields. -/
theorem GetConvFormat_eq_sum (a i o : Nat) (ha : a < 256) (hi : i < 256) (ho : o < 65536) :
    GetConvFormat a i o = a + 256 * i + 65536 * o := by
  have h1 : a ||| (i <<< 8) = 256 * i + a := by
    have h := Nat.mul_add_lt_is_or (show a < 2 ^ 8 by omega) i
    rw [Nat.shiftLeft_eq, Nat.lor_comm, Nat.mul_comm i (2 ^ 8)]
    rw [← h]
  have h2 : (256 * i + a) ||| (o <<< 16) = 65536 * o + (256 * i + a) := by
    have h := Nat.mul_add_lt_is_or (show 256 * i + a < 2 ^ 16 by omega) o
    rw [Nat.shiftLeft_eq, Nat.lor_comm, Nat.mul_comm o (2 ^ 16)]
    rw [← h]
  unfold GetConvFormat
  rw [h1, h2]
  omega

/-- Two in-range keys are equal exactly when their three fields are. -/
theorem GetConvFormat_eq_iff (enc : AL_EChromaMode → Nat) (hinj : Function.Injective enc)
    (hlt : ∀ c, enc c < 256) (c c2 : AL_EChromaMode) (i o i2 o2 : Nat)
    (hi : i < 256) (ho : o < 65536) (hi2 : i2 < 256) (ho2 : o2 < 65536) :
    GetConvFormat (enc c) i o = GetConvFormat (enc c2) i2 o2 ↔ c = c2 ∧ i = i2 ∧ o = o2 := by
  rw [GetConvFormat_eq_sum _ _ _ (hlt c) hi ho, GetConvFormat_eq_sum _ _ _ (hlt c2) hi2 ho2]
  have hc := hlt c
  have hc2 := hlt c2
  constructor
  · intro h
    have he : enc c = enc c2 := by omega
    exact ⟨hinj he, by omega, by omega⟩
  · rintro ⟨rfl, rfl, rfl⟩
    rfl

/-- Claim C1: `GetConversionFunction` returns a routine, rather than failing its
assertion, exactly on the closed set of (chroma, input depth, output depth, tiled)
combinations listed by `supportedCombination`; the outcome is a function of these four
values only.  Stated for the input depths a `uint8_t` can hold and the output depths for
which the packed `int` key does not overflow, and for any injective byte-sized numbering
`enc` of the four chroma enumerators. -/
theorem GetConversionFunction_isSome_iff (enc : AL_EChromaMode → Nat)
    (hinj : Function.Injective enc) (hlt : ∀ c, enc c < 256)
    (c : AL_EChromaMode) (iBdIn iBdOut : Nat) (tiled : Bool)
    (hIn : iBdIn < 256) (hOut : iBdOut < 65536) :
    (GetConversionFunction enc ⟨c, iBdIn, tiled⟩ iBdOut).isSome
      = supportedCombination c iBdIn iBdOut tiled := by
  have key : ∀ (c2 : AL_EChromaMode) (i2 o2 : Nat), i2 ≤ 12 → o2 ≤ 12 →
      (GetConvFormat (enc c) iBdIn iBdOut = GetConvFormat (enc c2) i2 o2
        ↔ c = c2 ∧ iBdIn = i2 ∧ iBdOut = o2) := fun c2 i2 o2 h1 h2 =>
    GetConvFormat_eq_iff enc hinj hlt c c2 iBdIn iBdOut i2 o2 hIn hOut (by omega) (by omega)
  have k88 := fun c2 => key c2 8 8 (by omega) (by omega)
  have k8a := fun c2 => key c2 8 10 (by omega) (by omega)
  have ka8 := fun c2 => key c2 10 8 (by omega) (by omega)
  have kaa := fun c2 => key c2 10 10 (by omega) (by omega)
  have kc8 := fun c2 => key c2 12 8 (by omega) (by omega)
  have kca := fun c2 => key c2 12 10 (by omega) (by omega)
  have kcc := fun c2 => key c2 12 12 (by omega) (by omega)
  have hi : iBdIn = 8 ∨ iBdIn = 10 ∨ iBdIn = 12 ∨ (iBdIn ≠ 8 ∧ iBdIn ≠ 10 ∧ iBdIn ≠ 12) := by
    omega
  have ho : iBdOut = 8 ∨ iBdOut = 10 ∨ iBdOut = 12
      ∨ (iBdOut ≠ 8 ∧ iBdOut ≠ 10 ∧ iBdOut ≠ 12) := by
    omega
  simp only [GetConversionFunction, Get8BitsConversionFunction, Get10BitsConversionFunction,
    Get12BitsConversionFunction, GetTileConversionFunction, AL_GetChromaMode, AL_GetBitDepth,
    AL_IsTiled, k88, k8a, ka8, kaa, kc8, kca, kcc]
  rcases hi with rfl | rfl | rfl | ⟨h1, h2, h3⟩ <;>
    rcases ho with rfl | rfl | rfl | ⟨g1, g2, g3⟩ <;>
    cases c <;> cases tiled <;>
    simp [supportedCombination, depthPairs, *] <;> omega

/-- Witness for C1 with the numbering 0, 1, 2, 3: an 8-bit untiled 4:2:0 source converted
to 8 bits is in the set and gets a routine. -/
theorem GetConversionFunction_isSome_iff_witness :
    (GetConversionFunction chromaCode ⟨AL_CHROMA_4_2_0, 8, false⟩ 8).isSome
      = supportedCombination AL_CHROMA_4_2_0 8 8 false :=
  GetConversionFunction_isSome_iff chromaCode
    (by intro a b h; cases a <;> cases b <;> simp_all [chromaCode])
    (by intro c; cases c <;> simp [chromaCode])
    AL_CHROMA_4_2_0 8 8 false (by decide) (by decide)

/-- Counterexample to claim C2 as stated: for an untiled 8-bit 4:2:0 source kept at 8 bits
the dispatch does not return the raw copy (it returns `NV12_To_I420`). -/
theorem GetConversionFunction_same_format_420_not_copy :
    GetConversionFunction chromaCode ⟨AL_CHROMA_4_2_0, 8, false⟩ 8
      ≠ some CopyPixMapBuffer := by
  decide

/-- Claim C2, amended: for an untiled source of depth 8, 10 or 12 kept at its depth the
dispatch always returns a routine, and that routine is the raw copy `CopyPixMapBuffer`
exactly when the chroma layout is 4:4:4, or mono at depth 8 or 12; for 4:2:0, 4:2:2 and
10-bit mono it is a dedicated same-depth routine. -/
theorem GetConversionFunction_same_format_copy_iff (enc : AL_EChromaMode → Nat)
    (hinj : Function.Injective enc) (hlt : ∀ c, enc c < 256)
    (c : AL_EChromaMode) (b : Nat) (hb : b = 8 ∨ b = 10 ∨ b = 12) :
    (GetConversionFunction enc ⟨c, b, false⟩ b).isSome = true
      ∧ (GetConversionFunction enc ⟨c, b, false⟩ b = some CopyPixMapBuffer
          ↔ (c = AL_CHROMA_4_4_4 ∨ (c = AL_CHROMA_MONO ∧ b ≠ 10))) := by
  have key : ∀ (c2 : AL_EChromaMode) (i2 o2 : Nat), i2 ≤ 12 → o2 ≤ 12 →
      (GetConvFormat (enc c) b b = GetConvFormat (enc c2) i2 o2
        ↔ c = c2 ∧ b = i2 ∧ b = o2) := fun c2 i2 o2 h1 h2 =>
    GetConvFormat_eq_iff enc hinj hlt c c2 b b i2 o2 (by omega) (by omega) (by omega) (by omega)
  have k88 := fun c2 => key c2 8 8 (by omega) (by omega)
  have k8a := fun c2 => key c2 8 10 (by omega) (by omega)
  have ka8 := fun c2 => key c2 10 8 (by omega) (by omega)
  have kaa := fun c2 => key c2 10 10 (by omega) (by omega)
  have kc8 := fun c2 => key c2 12 8 (by omega) (by omega)
  have kca := fun c2 => key c2 12 10 (by omega) (by omega)
  have kcc := fun c2 => key c2 12 12 (by omega) (by omega)
  simp only [GetConversionFunction, Get8BitsConversionFunction, Get10BitsConversionFunction,
    Get12BitsConversionFunction, AL_GetChromaMode, AL_GetBitDepth,
    AL_IsTiled, k88, k8a, ka8, kaa, kc8, kca, kcc]
  rcases hb with rfl | rfl | rfl <;> cases c <;> simp

/-- Witness for the amended C2: 4:4:4 at 10 bits is a raw copy. -/
theorem GetConversionFunction_same_format_copy_iff_witness :
    (GetConversionFunction chromaCode ⟨AL_CHROMA_4_4_4, 10, false⟩ 10).isSome = true
      ∧ (GetConversionFunction chromaCode ⟨AL_CHROMA_4_4_4, 10, false⟩ 10
            = some CopyPixMapBuffer
          ↔ (AL_CHROMA_4_4_4 = AL_CHROMA_4_4_4
              ∨ (AL_CHROMA_4_4_4 = AL_CHROMA_MONO ∧ 10 ≠ 10))) :=
  GetConversionFunction_same_format_copy_iff chromaCode
    (by intro a b h; cases a <;> cases b <;> simp_all [chromaCode])
    (by intro c; cases c <;> simp [chromaCode])
    AL_CHROMA_4_4_4 10 (by decide)

/-! ## Theorems: conversion buffer -/

/-- For a positive divisor the rational ceiling is the rounded-up integer quotient. -/
theorem ceilDiv_eq_ediv (a b : Int) (hb : 0 < b) : ceilDiv a b = (a + b - 1) / b := by
  unfold ceilDiv
  rw [Int.ceil_eq_iff]
  have hbq : (0 : ℚ) < (b : ℚ) := by exact_mod_cast hb
  have h1 : (a + b - 1) / b * b ≤ a + b - 1 := Int.ediv_mul_le _ (ne_of_gt hb)
  have h2 : a + b - 1 < ((a + b - 1) / b + 1) * b := Int.lt_ediv_add_one_mul_self _ hb
  constructor
  · rw [lt_div_iff₀ hbq]
    have : ((a + b - 1) / b - 1) * b < a := by nlinarith
    exact_mod_cast this
  · rw [div_le_iff₀ hbq]
    have : a ≤ (a + b - 1) / b * b := by nlinarith
    exact_mod_cast this

/-- The sample size `(iBdOut + 7) >> 3` is `ceil(iBdOut / 8)`. -/
theorem shiftRight_three_eq_ceilDiv (bd : Int) : (bd + 7) >>> (3 : Nat) = ceilDiv bd 8 := by
  rw [ceilDiv_eq_ediv bd 8 (by norm_num), Int.shiftRight_eq_div_pow]
  have h : bd + 8 - 1 = bd + 7 := by ring
  rw [h]
  norm_num

/-- The truncating quotient `(a + b - 1) / b` of C is `ceil(a / b)` for `a ≥ 0`, `b > 0`. -/
theorem tdiv_eq_ceilDiv (a b : Int) (ha : 0 ≤ a) (hb : 0 < b) :
    (a + b - 1).tdiv b = ceilDiv a b := by
  rw [ceilDiv_eq_ediv a b hb, Int.tdiv_eq_ediv (by omega) (by omega)]

theorem ceilDiv_nonneg (a b : Int) (ha : 0 ≤ a) (hb : 0 < b) : 0 ≤ ceilDiv a b := by
  rw [ceilDiv_eq_ediv a b hb]
  exact Int.ediv_nonneg (by omega) (by omega)

theorem toUInt32_of_lt (x : Int) (h0 : 0 ≤ x) (h1 : x < 2 ^ 32) : (toUInt32 x : Int) = x := by
  unfold toUInt32
  rw [Int.emod_eq_of_lt h0 h1]
  exact Int.toNat_of_nonneg h0

/-- Claim C3: when `ConvertFrameBuffer` has to allocate the destination of a `w x h`
picture (no destination yet, or one of other dimensions) at output depth `bd` with
subsampling `(sx, sy)`, the call returns a buffer of the source's dimensions whose plane
table is Y at offset 0 with pitch `ceil(bd/8) * w`, then, unless the picture is mono, U at
offset `lumaSize` and V at offset `lumaSize + chromaSize`, both with pitch
`ceil(lumaPitch / sx)`, `chromaSize` being that pitch times `ceil(h / sy)`; plane sizes are
non-negative, so the planes follow one another without overlap; the allocated size is
`lumaSize + 2 * chromaSize`, and `lumaSize` alone (a single Y plane) for mono.  Stated for
non-negative dimensions and depth, positive subsampling factors, sizes that fit an `int`,
a successful allocator and a supported conversion. -/
theorem ConvertFrameBuffer_allocates_layout (X : Externals) (input : AL_TBuffer)
    (pOutput : Option AL_TBuffer) (iBdOut sx sy : Int) (r : AL_TO_IP)
    (hnew : ∀ out, pOutput = some out →
      input.tDim.iWidth ≠ out.tDim.iWidth ∨ input.tDim.iHeight ≠ out.tDim.iHeight)
    (hsub : X.AL_GetSubsampling ⟨input.tFourCC.eChromaMode, (iBdOut % 256).toNat, false⟩
      = (sx, sy))
    (hcreate : X.AL_PixMapBuffer_Create input.tDim
      ⟨input.tFourCC.eChromaMode, (iBdOut % 256).toNat, false⟩ = true)
    (halloc : ∀ n, X.AL_PixMapBuffer_Allocate_And_AddPlanes n = true)
    (hconv : GetConversionFunction X.enc input.tFourCC iBdOut.toNat = some r)
    (hbd : 0 ≤ iBdOut) (hw : 0 ≤ input.tDim.iWidth) (hh : 0 ≤ input.tDim.iHeight)
    (hsx : 0 < sx) (hsy : 0 < sy)
    (hfit : specLumaSize iBdOut input.tDim.iWidth input.tDim.iHeight
      + 2 * specChromaSize iBdOut input.tDim.iWidth input.tDim.iHeight sx sy < 2 ^ 31) :
    ∃ out, ConvertFrameBuffer X input pOutput iBdOut = Except.ok (out, r)
      ∧ out.tDim = input.tDim
      ∧ out.planes
        = (if input.tFourCC.eChromaMode = AL_CHROMA_MONO then
            [⟨AL_PLANE_Y, 0, specLumaPitch iBdOut input.tDim.iWidth⟩]
          else
            [⟨AL_PLANE_Y, 0, specLumaPitch iBdOut input.tDim.iWidth⟩,
             ⟨AL_PLANE_U, specLumaSize iBdOut input.tDim.iWidth input.tDim.iHeight,
               specChromaPitch iBdOut input.tDim.iWidth sx⟩,
             ⟨AL_PLANE_V, specLumaSize iBdOut input.tDim.iWidth input.tDim.iHeight
                 + specChromaSize iBdOut input.tDim.iWidth input.tDim.iHeight sx sy,
               specChromaPitch iBdOut input.tDim.iWidth sx⟩])
      ∧ (out.uSize : Int)
        = (if input.tFourCC.eChromaMode = AL_CHROMA_MONO then
            specLumaSize iBdOut input.tDim.iWidth input.tDim.iHeight
          else
            specLumaSize iBdOut input.tDim.iWidth input.tDim.iHeight
              + 2 * specChromaSize iBdOut input.tDim.iWidth input.tDim.iHeight sx sy)
      ∧ 0 ≤ specLumaSize iBdOut input.tDim.iWidth input.tDim.iHeight
      ∧ 0 ≤ specChromaSize iBdOut input.tDim.iWidth input.tDim.iHeight sx sy := by
  -- the quantities of the code in the words of the specification
  have hpix : (iBdOut + 7) >>> (3 : Nat) = specBytesPerSample iBdOut :=
    shiftRight_three_eq_ceilDiv iBdOut
  have hpix0 : 0 ≤ specBytesPerSample iBdOut := ceilDiv_nonneg _ _ hbd (by norm_num)
  have hpy0 : 0 ≤ specLumaPitch iBdOut input.tDim.iWidth := Int.mul_nonneg hpix0 hw
  have hpc : (specLumaPitch iBdOut input.tDim.iWidth + sx - 1).tdiv sx
      = specChromaPitch iBdOut input.tDim.iWidth sx := tdiv_eq_ceilDiv _ _ hpy0 hsx
  have hhc : (input.tDim.iHeight + sy - 1).tdiv sy = specChromaHeight input.tDim.iHeight sy :=
    tdiv_eq_ceilDiv _ _ hh hsy
  have hpc0 : 0 ≤ specChromaPitch iBdOut input.tDim.iWidth sx := ceilDiv_nonneg _ _ hpy0 hsx
  have hhc0 : 0 ≤ specChromaHeight input.tDim.iHeight sy := ceilDiv_nonneg _ _ hh hsy
  have hsy0 : 0 ≤ specLumaSize iBdOut input.tDim.iWidth input.tDim.iHeight :=
    Int.mul_nonneg hpy0 hh
  have hsc0 : 0 ≤ specChromaSize iBdOut input.tDim.iWidth input.tDim.iHeight sx sy :=
    Int.mul_nonneg hpc0 hhc0
  have huY : (toUInt32 (specLumaSize iBdOut input.tDim.iWidth input.tDim.iHeight) : Int)
      = specLumaSize iBdOut input.tDim.iWidth input.tDim.iHeight :=
    toUInt32_of_lt _ hsy0 (by omega)
  have huC : (toUInt32 (2 * specChromaSize iBdOut input.tDim.iWidth input.tDim.iHeight sx sy)
      : Int) = 2 * specChromaSize iBdOut input.tDim.iWidth input.tDim.iHeight sx sy :=
    toUInt32_of_lt _ (by omega) (by omega)
  -- the destination is (re)created
  have hnone : (match pOutput with
      | some out =>
        if input.tDim.iWidth ≠ out.tDim.iWidth ∨ input.tDim.iHeight ≠ out.tDim.iHeight then none
        else some out
      | none => none) = none := by
    cases hp : pOutput with
    | none => rfl
    | some out => simp only [if_pos (hnew out hp)]
  have hneg : ¬ iBdOut < 0 := by omega
  have eP : specBytesPerSample iBdOut * input.tDim.iWidth
      = specLumaPitch iBdOut input.tDim.iWidth := rfl
  have eY : specLumaPitch iBdOut input.tDim.iWidth * input.tDim.iHeight
      = specLumaSize iBdOut input.tDim.iWidth input.tDim.iHeight := rfl
  have eC : specChromaPitch iBdOut input.tDim.iWidth sx * specChromaHeight input.tDim.iHeight sy
      = specChromaSize iBdOut input.tDim.iWidth input.tDim.iHeight sx sy := rfl
  have hlt : toUInt32 (specLumaSize iBdOut input.tDim.iWidth input.tDim.iHeight)
      + toUInt32 (2 * specChromaSize iBdOut input.tDim.iWidth input.tDim.iHeight sx sy)
      < 2 ^ 32 := by
    have : ((toUInt32 (specLumaSize iBdOut input.tDim.iWidth input.tDim.iHeight)
      + toUInt32 (2 * specChromaSize iBdOut input.tDim.iWidth input.tDim.iHeight sx sy)
      : Nat) : Int) < 2 ^ 32 := by
      push_cast
      rw [huY, huC]
      omega
    exact_mod_cast this
  unfold ConvertFrameBuffer
  simp only [hnone, ConvertFrameBuffer.allocate, AL_GetChromaMode, hcreate, halloc, hsub, hpix,
    hconv, hneg, Bool.true_eq_false, if_false, eP, hpc, hhc, eY, eC, Nat.mod_eq_of_lt hlt]
  refine ⟨_, rfl, rfl, ?_, ?_, hsy0, hsc0⟩
  · by_cases hmono : input.tFourCC.eChromaMode = AL_CHROMA_MONO
    · simp only [hmono, if_true]
      rfl
    · simp only [hmono, if_false]
      rfl
  · by_cases hmono : input.tFourCC.eChromaMode = AL_CHROMA_MONO
    · simp only [hmono, ne_eq, not_true_eq_false, if_false, if_true]
      exact huY
    · simp only [hmono, ne_eq, not_false_eq_true, if_true, if_false]
      push_cast
      rw [huY, huC]

/-- Witness for C3: a 16x16 4:2:0 picture converted to 8 bits (subsampling 2x2). -/
theorem ConvertFrameBuffer_allocates_layout_witness :
    ∃ out, ConvertFrameBuffer sampleExternals sampleFrame none 8
        = Except.ok (out, NV12_To_I420)
      ∧ out.tDim = sampleFrame.tDim
      ∧ out.planes
        = (if sampleFrame.tFourCC.eChromaMode = AL_CHROMA_MONO then
            [⟨AL_PLANE_Y, 0, specLumaPitch 8 sampleFrame.tDim.iWidth⟩]
          else
            [⟨AL_PLANE_Y, 0, specLumaPitch 8 sampleFrame.tDim.iWidth⟩,
             ⟨AL_PLANE_U, specLumaSize 8 sampleFrame.tDim.iWidth sampleFrame.tDim.iHeight,
               specChromaPitch 8 sampleFrame.tDim.iWidth 2⟩,
             ⟨AL_PLANE_V, specLumaSize 8 sampleFrame.tDim.iWidth sampleFrame.tDim.iHeight
                 + specChromaSize 8 sampleFrame.tDim.iWidth sampleFrame.tDim.iHeight 2 2,
               specChromaPitch 8 sampleFrame.tDim.iWidth 2⟩])
      ∧ (out.uSize : Int)
        = (if sampleFrame.tFourCC.eChromaMode = AL_CHROMA_MONO then
            specLumaSize 8 sampleFrame.tDim.iWidth sampleFrame.tDim.iHeight
          else
            specLumaSize 8 sampleFrame.tDim.iWidth sampleFrame.tDim.iHeight
              + 2 * specChromaSize 8 sampleFrame.tDim.iWidth sampleFrame.tDim.iHeight 2 2)
      ∧ 0 ≤ specLumaSize 8 sampleFrame.tDim.iWidth sampleFrame.tDim.iHeight
      ∧ 0 ≤ specChromaSize 8 sampleFrame.tDim.iWidth sampleFrame.tDim.iHeight 2 2 :=
  ConvertFrameBuffer_allocates_layout sampleExternals sampleFrame none 8 2 2 NV12_To_I420
    (by intro out h; cases h) rfl rfl (fun _ => rfl) (by decide) (by decide) (by decide)
    (by decide) (by decide) (by decide)
    (by
      simp only [specLumaSize, specChromaSize, specLumaPitch, specChromaPitch,
        specChromaHeight, specBytesPerSample, sampleFrame]
      rw [ceilDiv_eq_ediv 8 8 (by decide), ceilDiv_eq_ediv _ 2 (by decide),
        ceilDiv_eq_ediv _ 2 (by decide)]
      decide)

/-! ## Theorems: output writer -/

/-- Claim C4: with the YUV file open, `ProcessFrame` on a picture whose conversion succeeds
returns having appended exactly one write to the YUV file, starting at the Y plane and of
`(width * height + 2 * chromaSamples) * bytesPerSample` bytes, where width and height are
those of the converted and, if cropping is on, cropped buffer kept in `YuvBuffer`,
`chromaSamples` is `ceil(width / sx) * ceil(height / sy)` and 0 for mono, and
`bytesPerSample` is `ceil(bd / 8)` for the output depth `bd` after even coercion.  A writer
with neither the YUV file nor the reference-CRC file open returns unchanged: no
conversion, no write. -/
theorem UncompressedOutputWriter_ProcessFrame_write (X : Externals)
    (w w0 : UncompressedOutputWriter) (tRecBuf : AL_TBuffer) (info : AL_TInfoDecode)
    (iBdOut sx sy : Int) (yuv : List FileWrite) (converted final : AL_TBuffer) (r : AL_TO_IP)
    (hyuv : w.YuvFile = some yuv)
    (hconv : ConvertFrameBuffer X tRecBuf w.YuvBuffer (convertBitDepthToEven iBdOut)
      = Except.ok (converted, r))
    (hfinal : final
      = if info.tCrop.bCropping then
          X.CropFrame converted ((convertBitDepthToEven iBdOut + 7) >>> (3 : Nat))
            info.tCrop.uCropOffsetLeft info.tCrop.uCropOffsetRight
            info.tCrop.uCropOffsetTop info.tCrop.uCropOffsetBottom
        else converted)
    (hsub : X.AL_GetSubsampling tRecBuf.tFourCC = (sx, sy))
    (hsx : 0 < sx) (hsy : 0 < sy)
    (hW : 0 ≤ final.tDim.iWidth) (hH : 0 ≤ final.tDim.iHeight)
    (h0yuv : w0.YuvFile = none) (h0crc : w0.CertCrcFile = none) :
    (∃ w2, w.ProcessFrame X tRecBuf info iBdOut = Except.ok w2
        ∧ w2.YuvBuffer = some final
        ∧ w2.YuvFile = some (yuv ++
            [⟨AL_PLANE_Y,
              (final.tDim.iWidth * final.tDim.iHeight
                + 2 * (if tRecBuf.tFourCC.eChromaMode = AL_CHROMA_MONO then 0
                       else ceilDiv final.tDim.iWidth sx * ceilDiv final.tDim.iHeight sy))
              * specBytesPerSample (convertBitDepthToEven iBdOut)⟩]))
      ∧ w0.ProcessFrame X tRecBuf info iBdOut = Except.ok w0 := by
  constructor
  · have hopen : (w.YuvFile.isSome || w.CertCrcFile.isSome) = true := by simp [hyuv]
    have hcw : (final.tDim.iWidth + sx - 1).tdiv sx = ceilDiv final.tDim.iWidth sx :=
      tdiv_eq_ceilDiv _ _ hW hsx
    have hch : (final.tDim.iHeight + sy - 1).tdiv sy = ceilDiv final.tDim.iHeight sy :=
      tdiv_eq_ceilDiv _ _ hH hsy
    unfold UncompressedOutputWriter.ProcessFrame
    simp only [hopen, Bool.true_eq_false, if_false, hconv, ← hfinal]
    simp only [hsub, hyuv, Option.map_some', AL_GetChromaMode, hcw, hch,
      shiftRight_three_eq_ceilDiv]
    refine ⟨_, rfl, rfl, ?_⟩
    simp only [specBytesPerSample, Int.mul_comm final.tDim.iHeight final.tDim.iWidth]
  · simp [UncompressedOutputWriter.ProcessFrame, h0yuv, h0crc]

/-- Witness for C4: the 16x16 8-bit 4:2:0 picture written by a writer whose YUV file is
open, and the same picture given to a writer with no file open. -/
theorem UncompressedOutputWriter_ProcessFrame_write_witness :
    (∃ w2, sampleWriter.ProcessFrame sampleExternals sampleFrame (sampleInfo 0) 8
          = Except.ok w2
        ∧ w2.YuvBuffer = some { sampleFrame with
            planes := [⟨AL_PLANE_Y, 0, 16⟩, ⟨AL_PLANE_U, 256, 8⟩, ⟨AL_PLANE_V, 320, 8⟩] }
        ∧ w2.YuvFile = some ([] ++
            [⟨AL_PLANE_Y,
              ((16 : Int) * 16
                + 2 * (if sampleFrame.tFourCC.eChromaMode = AL_CHROMA_MONO then 0
                       else ceilDiv 16 2 * ceilDiv 16 2))
              * specBytesPerSample (convertBitDepthToEven 8)⟩]))
      ∧ closedWriter.ProcessFrame sampleExternals sampleFrame (sampleInfo 0) 8
          = Except.ok closedWriter :=
  UncompressedOutputWriter_ProcessFrame_write sampleExternals sampleWriter closedWriter
    sampleFrame (sampleInfo 0) 8 2 2 []
    { sampleFrame with
      planes := [⟨AL_PLANE_Y, 0, 16⟩, ⟨AL_PLANE_U, 256, 8⟩, ⟨AL_PLANE_V, 320, 8⟩] }
    { sampleFrame with
      planes := [⟨AL_PLANE_Y, 0, 16⟩, ⟨AL_PLANE_U, 256, 8⟩, ⟨AL_PLANE_V, 320, 8⟩] }
    NV12_To_I420 rfl rfl (by decide) rfl (by decide) (by decide) (by decide)
    (by decide) rfl rfl

/-! ## Theorems: display callback -/

/-- A frame error classified as an error: the callback sets the event and returns. -/
theorem Display.Process_of_error (X : Externals) (E : ErrorCodes) (d : Display)
    (pFrame : Option AL_TBuffer) (pInfo : Option AL_TInfoDecode) (err : Int)
    (herr : E.AL_IS_ERROR_CODE err = true) :
    d.Process X E pFrame pInfo err = some { d with hExitMain := d.hExitMain + 1 } := by
  simp [Display.Process, herr, Rtos_SetEvent]

/-- End of stream: the callback sets the event and returns. -/
theorem Display.Process_of_eos (X : Externals) (E : ErrorCodes) (d : Display) (err : Int) :
    d.Process X E none none err = some { d with hExitMain := d.hExitMain + 1 } := by
  simp [Display.Process, isEOS, Rtos_SetEvent]

/-- Release-only notification whose frame error is not classified as an error: only the
conceal counter may move. -/
theorem Display.Process_of_release (X : Externals) (E : ErrorCodes) (d : Display)
    (frame : AL_TBuffer) (err : Int) (herr : E.AL_IS_ERROR_CODE err = false) :
    d.Process X E (some frame) none err = some (d.countConceal E err) := by
  simp [Display.Process, herr, isEOS, isReleaseFrame]

/-- When `ProcessFrame` returns, only the writers may have changed. -/
theorem Display.ProcessFrame_ok (X : Externals) (d d1 : Display) (tRecBuf : AL_TBuffer)
    (info : AL_TInfoDecode) (iBdOut : Int)
    (h : d.ProcessFrame X tRecBuf info iBdOut = Except.ok d1) :
    d1 = { d with writers := d1.writers } := by
  unfold Display.ProcessFrame at h
  cases hl : d.writers.lookup info.eFbStorageMode with
  | none =>
    rw [hl] at h
    cases h
    rfl
  | some w =>
    rw [hl] at h
    simp only [] at h
    by_cases hn : d.NumFrames ≥ d.FirstFrame
    · rw [if_pos hn] at h
      cases ho : w.ProcessOutput X tRecBuf info iBdOut with
      | error e =>
        rw [ho] at h
        cases h
      | ok w2 =>
        rw [ho] at h
        cases h
        rfl
    · rw [if_neg hn] at h
      cases h
      rfl

/-- Without a writer registered for the storage mode of the picture, `ProcessFrame` does
nothing. -/
theorem Display.ProcessFrame_of_lookup_none (X : Externals) (d : Display) (tRecBuf : AL_TBuffer)
    (info : AL_TInfoDecode) (iBdOut : Int)
    (h : d.writers.lookup info.eFbStorageMode = none) :
    d.ProcessFrame X tRecBuf info iBdOut = Except.ok d := by
  simp [Display.ProcessFrame, h]

/-- Before the first frame to write, `ProcessFrame` does nothing. -/
theorem Display.ProcessFrame_of_lt (X : Externals) (d : Display) (tRecBuf : AL_TBuffer)
    (info : AL_TInfoDecode) (iBdOut : Int) (h : d.NumFrames < d.FirstFrame) :
    d.ProcessFrame X tRecBuf info iBdOut = Except.ok d := by
  unfold Display.ProcessFrame
  cases d.writers.lookup info.eFbStorageMode with
  | none => rfl
  | some w =>
    simp only []
    rw [if_neg (by omega)]

/-- With a writer registered for the storage mode of the picture and the first frame
reached, `ProcessFrame` is the call of `ProcessOutput` on that writer: its error, or the
display with the state of the writer after the call. -/
theorem Display.ProcessFrame_of_writer (X : Externals) (d : Display) (tRecBuf : AL_TBuffer)
    (info : AL_TInfoDecode) (iBdOut : Int) (w : UncompressedOutputWriter)
    (hw : d.writers.lookup info.eFbStorageMode = some w) (hn : d.FirstFrame ≤ d.NumFrames) :
    d.ProcessFrame X tRecBuf info iBdOut
      = match w.ProcessOutput X tRecBuf info iBdOut with
        | Except.error e => Except.error e
        | Except.ok w2 =>
          Except.ok { d with writers := d.writers.map fun kv =>
            if kv.1 = info.eFbStorageMode then (kv.1, w2) else kv } := by
  unfold Display.ProcessFrame
  rw [hw]
  simp only []
  rw [if_pos hn]

/-- A lookup misses in a map all of whose keys differ from the key looked up. -/
theorem lookup_eq_none_of_keys {β : Type} (k k0 : AL_EFbStorageMode) (hk : k ≠ k0)
    (l : List (AL_EFbStorageMode × β)) (h : ∀ kv ∈ l, kv.1 = k0) : l.lookup k = none := by
  induction l with
  | nil => rfl
  | cons kv l ih =>
    obtain ⟨k1, v⟩ := kv
    have hk1 : k1 = k0 := h (k1, v) (List.mem_cons_self _ _)
    have hne : (k == k1) = false := by
      rw [hk1]; simpa using hk
    rw [List.lookup_cons, hne]
    exact ih fun kv2 hkv2 => h kv2 (List.mem_cons_of_mem _ hkv2)

/-- After the writer registered for a key has been replaced, the lookup of the key finds
the new writer. -/
theorem lookup_map_replace {β : Type} (k : AL_EFbStorageMode) (v2 : β) :
    ∀ (l : List (AL_EFbStorageMode × β)) (v : β), l.lookup k = some v →
      (l.map fun kv => if kv.1 = k then (kv.1, v2) else kv).lookup k = some v2 := by
  intro l
  induction l with
  | nil =>
    intro v h
    simp at h
  | cons kv l ih =>
    intro v h
    obtain ⟨k1, v1⟩ := kv
    by_cases hk : k1 = k
    · subst hk
      simp [List.lookup_cons]
    · have hne : (k == k1) = false := by simpa using fun h2 : k = k1 => hk h2.symm
      rw [List.lookup_cons, hne] at h
      rw [List.map_cons, if_neg hk, List.lookup_cons, hne]
      exact ih v h

/-! ### Which members each step of the callback leaves alone -/

@[simp]
theorem Display.countConceal_hDec (E : ErrorCodes) (d : Display) (err : Int) :
    (d.countConceal E err).hDec = d.hDec := by
  unfold Display.countConceal
  split_ifs <;> rfl

@[simp]
theorem Display.countConceal_hExitMain (E : ErrorCodes) (d : Display) (err : Int) :
    (d.countConceal E err).hExitMain = d.hExitMain := by
  unfold Display.countConceal
  split_ifs <;> rfl

@[simp]
theorem Display.countConceal_writers (E : ErrorCodes) (d : Display) (err : Int) :
    (d.countConceal E err).writers = d.writers := by
  unfold Display.countConceal
  split_ifs <;> rfl

@[simp]
theorem Display.countConceal_eMainOutputStorageMode (E : ErrorCodes) (d : Display) (err : Int) :
    (d.countConceal E err).eMainOutputStorageMode = d.eMainOutputStorageMode := by
  unfold Display.countConceal
  split_ifs <;> rfl

@[simp]
theorem Display.countConceal_iBitDepth (E : ErrorCodes) (d : Display) (err : Int) :
    (d.countConceal E err).iBitDepth = d.iBitDepth := by
  unfold Display.countConceal
  split_ifs <;> rfl

@[simp]
theorem Display.countConceal_NumFrames (E : ErrorCodes) (d : Display) (err : Int) :
    (d.countConceal E err).NumFrames = d.NumFrames := by
  unfold Display.countConceal
  split_ifs <;> rfl

@[simp]
theorem Display.countConceal_MaxFrames (E : ErrorCodes) (d : Display) (err : Int) :
    (d.countConceal E err).MaxFrames = d.MaxFrames := by
  unfold Display.countConceal
  split_ifs <;> rfl

@[simp]
theorem Display.countConceal_FirstFrame (E : ErrorCodes) (d : Display) (err : Int) :
    (d.countConceal E err).FirstFrame = d.FirstFrame := by
  unfold Display.countConceal
  split_ifs <;> rfl

@[simp]
theorem Display.countConceal_pHDRWriter (E : ErrorCodes) (d : Display) (err : Int) :
    (d.countConceal E err).pHDRWriter = d.pHDRWriter := by
  unfold Display.countConceal
  split_ifs <;> rfl

@[simp]
theorem Display.resolveBitDepth_hDec (d : Display) (info : AL_TInfoDecode) :
    (d.resolveBitDepth info).hDec = d.hDec := by
  unfold Display.resolveBitDepth
  split_ifs <;> rfl

@[simp]
theorem Display.resolveBitDepth_hExitMain (d : Display) (info : AL_TInfoDecode) :
    (d.resolveBitDepth info).hExitMain = d.hExitMain := by
  unfold Display.resolveBitDepth
  split_ifs <;> rfl

@[simp]
theorem Display.resolveBitDepth_writers (d : Display) (info : AL_TInfoDecode) :
    (d.resolveBitDepth info).writers = d.writers := by
  unfold Display.resolveBitDepth
  split_ifs <;> rfl

@[simp]
theorem Display.resolveBitDepth_eMainOutputStorageMode (d : Display) (info : AL_TInfoDecode) :
    (d.resolveBitDepth info).eMainOutputStorageMode = d.eMainOutputStorageMode := by
  unfold Display.resolveBitDepth
  split_ifs <;> rfl

@[simp]
theorem Display.resolveBitDepth_NumFrames (d : Display) (info : AL_TInfoDecode) :
    (d.resolveBitDepth info).NumFrames = d.NumFrames := by
  unfold Display.resolveBitDepth
  split_ifs <;> rfl

@[simp]
theorem Display.resolveBitDepth_MaxFrames (d : Display) (info : AL_TInfoDecode) :
    (d.resolveBitDepth info).MaxFrames = d.MaxFrames := by
  unfold Display.resolveBitDepth
  split_ifs <;> rfl

@[simp]
theorem Display.resolveBitDepth_FirstFrame (d : Display) (info : AL_TInfoDecode) :
    (d.resolveBitDepth info).FirstFrame = d.FirstFrame := by
  unfold Display.resolveBitDepth
  split_ifs <;> rfl

@[simp]
theorem Display.resolveBitDepth_iNumFrameConceal (d : Display) (info : AL_TInfoDecode) :
    (d.resolveBitDepth info).iNumFrameConceal = d.iNumFrameConceal := by
  unfold Display.resolveBitDepth
  split_ifs <;> rfl

@[simp]
theorem Display.resolveBitDepth_pHDRWriter (d : Display) (info : AL_TInfoDecode) :
    (d.resolveBitDepth info).pHDRWriter = d.pHDRWriter := by
  unfold Display.resolveBitDepth
  split_ifs <;> rfl

@[simp]
theorem Display.mainOutput_writers (d : Display) (frame : AL_TBuffer) :
    (d.mainOutput frame).writers = d.writers := by
  simp only [Display.mainOutput]
  split_ifs <;> rfl

@[simp]
theorem Display.mainOutput_eMainOutputStorageMode (d : Display) (frame : AL_TBuffer) :
    (d.mainOutput frame).eMainOutputStorageMode = d.eMainOutputStorageMode := by
  simp only [Display.mainOutput]
  split_ifs <;> rfl

@[simp]
theorem Display.mainOutput_iBitDepth (d : Display) (frame : AL_TBuffer) :
    (d.mainOutput frame).iBitDepth = d.iBitDepth := by
  simp only [Display.mainOutput]
  split_ifs <;> rfl

@[simp]
theorem Display.mainOutput_MaxFrames (d : Display) (frame : AL_TBuffer) :
    (d.mainOutput frame).MaxFrames = d.MaxFrames := by
  simp only [Display.mainOutput]
  split_ifs <;> rfl

@[simp]
theorem Display.mainOutput_FirstFrame (d : Display) (frame : AL_TBuffer) :
    (d.mainOutput frame).FirstFrame = d.FirstFrame := by
  simp only [Display.mainOutput]
  split_ifs <;> rfl

@[simp]
theorem Display.mainOutput_iNumFrameConceal (d : Display) (frame : AL_TBuffer) :
    (d.mainOutput frame).iNumFrameConceal = d.iNumFrameConceal := by
  simp only [Display.mainOutput]
  split_ifs <;> rfl

@[simp]
theorem Display.mainOutput_NumFrames (d : Display) (frame : AL_TBuffer) :
    (d.mainOutput frame).NumFrames = (d.NumFrames + 1) % 2 ^ 32 := by
  simp only [Display.mainOutput]
  split_ifs <;> rfl

@[simp]
theorem Display.mainOutput_displayPictures (d : Display) (frame : AL_TBuffer) :
    (d.mainOutput frame).hDec.displayPictures = d.hDec.displayPictures ++ [frame] := by
  simp only [Display.mainOutput]
  split_ifs <;> rfl

@[simp]
theorem Display.mainOutput_iMaxBD (d : Display) (frame : AL_TBuffer) :
    (d.mainOutput frame).hDec.iMaxBD = d.hDec.iMaxBD := by
  simp only [Display.mainOutput]
  split_ifs <;> rfl

theorem Display.mainOutput_hExitMain (d : Display) (frame : AL_TBuffer) :
    (d.mainOutput frame).hExitMain
      = if (d.NumFrames + 1) % 2 ^ 32 > d.MaxFrames then d.hExitMain + 1 else d.hExitMain := by
  simp only [Display.mainOutput, Rtos_SetEvent]
  split_ifs <;> rfl

/-- The bit depth after the resolution statement. -/
theorem Display.resolveBitDepth_iBitDepth (d : Display) (info : AL_TInfoDecode) :
    (d.resolveBitDepth info).iBitDepth
      = (if d.iBitDepth = 0 then ((max info.uBitDepthY info.uBitDepthC : Nat) : Int)
         else if d.iBitDepth = -1 then d.hDec.iMaxBD else d.iBitDepth) := by
  unfold Display.resolveBitDepth
  split_ifs <;> rfl

/-- The resolved bit depth does not depend on the conceal count. -/
theorem Display.resolveBitDepth_countConceal (E : ErrorCodes) (d : Display)
    (info : AL_TInfoDecode) (err : Int) :
    ((d.countConceal E err).resolveBitDepth info).iBitDepth
      = (d.resolveBitDepth info).iBitDepth := by
  rw [Display.resolveBitDepth_iBitDepth, Display.resolveBitDepth_iBitDepth]
  simp

/-! ### The three outcomes of a display notification -/

/-- Display notification (picture with data, info, frame error not classified as an
error) for which `ProcessFrame` returns: the main output block follows for the main
storage mode. -/
theorem Display.Process_of_display (X : Externals) (E : ErrorCodes) (d d1 : Display)
    (frame : AL_TBuffer) (info : AL_TInfoDecode) (err : Int)
    (herr : E.AL_IS_ERROR_CODE err = false) (hdata : frame.bData = true)
    (hpf : ((d.countConceal E err).resolveBitDepth info).ProcessFrame X frame info
      (d.resolveBitDepth info).iBitDepth = Except.ok d1) :
    d.Process X E (some frame) (some info) err
      = some (if info.eFbStorageMode = d.eMainOutputStorageMode then d1.mainOutput frame
              else d1) := by
  have hmode : d1.eMainOutputStorageMode = d.eMainOutputStorageMode := by
    rw [Display.ProcessFrame_ok X _ d1 frame info _ hpf]
    simp
  rw [← Display.resolveBitDepth_countConceal E d info err] at hpf
  simp only [Display.Process, herr, isEOS, isReleaseFrame, hdata, Option.isNone_some,
    Option.isSome_some, Bool.and_false, Bool.or_false, Bool.false_eq_true, if_false,
    Bool.true_eq_false, hpf, hmode]
  split_ifs <;> rfl

/-- Display notification for which `ProcessFrame` does not return: neither does the
callback. -/
theorem Display.Process_of_display_error (X : Externals) (E : ErrorCodes) (d : Display)
    (frame : AL_TBuffer) (info : AL_TInfoDecode) (err : Int) (e : ConvertError)
    (herr : E.AL_IS_ERROR_CODE err = false) (hdata : frame.bData = true)
    (hpf : ((d.countConceal E err).resolveBitDepth info).ProcessFrame X frame info
      (d.resolveBitDepth info).iBitDepth = Except.error e) :
    d.Process X E (some frame) (some info) err = none := by
  rw [← Display.resolveBitDepth_countConceal E d info err] at hpf
  simp only [Display.Process, herr, isEOS, isReleaseFrame, hdata, Option.isNone_some,
    Option.isSome_some, Bool.and_false, Bool.or_false, Bool.false_eq_true, if_false,
    Bool.true_eq_false, hpf]

/-- Display notification handed to a writer that returns: the state of the writer after
`ProcessOutput` at the resolved bit depth is stored, then the main output block follows
for the main storage mode. -/
theorem Display.Process_of_writer_ok (X : Externals) (E : ErrorCodes) (d : Display)
    (frame : AL_TBuffer) (info : AL_TInfoDecode) (err : Int) (w w2 : UncompressedOutputWriter)
    (herr : E.AL_IS_ERROR_CODE err = false) (hdata : frame.bData = true)
    (hw : d.writers.lookup info.eFbStorageMode = some w) (hn : d.FirstFrame ≤ d.NumFrames)
    (hout : w.ProcessOutput X frame info (d.resolveBitDepth info).iBitDepth = Except.ok w2) :
    d.Process X E (some frame) (some info) err
      = some (if info.eFbStorageMode = d.eMainOutputStorageMode then
          Display.mainOutput { (d.countConceal E err).resolveBitDepth info with
            writers := d.writers.map fun kv =>
              if kv.1 = info.eFbStorageMode then (kv.1, w2) else kv } frame
        else
          { (d.countConceal E err).resolveBitDepth info with
            writers := d.writers.map fun kv =>
              if kv.1 = info.eFbStorageMode then (kv.1, w2) else kv }) := by
  apply Display.Process_of_display X E d _ frame info err herr hdata
  rw [Display.ProcessFrame_of_writer X _ frame info _ w (by simpa using hw) (by simpa using hn),
    hout]
  simp

/-- Display notification handed to a writer that throws or fails an assertion: the
callback does not return. -/
theorem Display.Process_of_writer_error (X : Externals) (E : ErrorCodes) (d : Display)
    (frame : AL_TBuffer) (info : AL_TInfoDecode) (err : Int) (w : UncompressedOutputWriter)
    (e : ConvertError)
    (herr : E.AL_IS_ERROR_CODE err = false) (hdata : frame.bData = true)
    (hw : d.writers.lookup info.eFbStorageMode = some w) (hn : d.FirstFrame ≤ d.NumFrames)
    (hout : w.ProcessOutput X frame info (d.resolveBitDepth info).iBitDepth
      = Except.error e) :
    d.Process X E (some frame) (some info) err = none := by
  apply Display.Process_of_display_error X E d frame info err e herr hdata
  rw [Display.ProcessFrame_of_writer X _ frame info _ w (by simpa using hw) (by simpa using hn),
    hout]

/-- Display notification that reaches no writer (none registered for the storage mode of
the picture, or the first frame to write not reached). -/
theorem Display.Process_of_no_writer (X : Externals) (E : ErrorCodes) (d : Display)
    (frame : AL_TBuffer) (info : AL_TInfoDecode) (err : Int)
    (herr : E.AL_IS_ERROR_CODE err = false) (hdata : frame.bData = true)
    (hw : d.writers.lookup info.eFbStorageMode = none ∨ d.NumFrames < d.FirstFrame) :
    d.Process X E (some frame) (some info) err
      = some (if info.eFbStorageMode = d.eMainOutputStorageMode then
          ((d.countConceal E err).resolveBitDepth info).mainOutput frame
        else (d.countConceal E err).resolveBitDepth info) := by
  apply Display.Process_of_display X E d _ frame info err herr hdata
  rcases hw with hw | hw
  · exact Display.ProcessFrame_of_lookup_none X _ frame info _ (by simpa using hw)
  · exact Display.ProcessFrame_of_lt X _ frame info _ (by simpa using hw)

/-- Claim C5: a display notification (picture with data, info) whose storage mode is not
the main output storage mode, received while the writers map holds no entry but the one
of the main storage mode, returns with the writers untouched (no `ProcessOutput` call, so
nothing reaches the YUV or CRC file), no picture handed back to the decoder and
`NumFrames` unchanged; this for every frame error code. -/
theorem Display_Process_non_main_storage (X : Externals) (E : ErrorCodes) (d : Display)
    (frame : AL_TBuffer) (info : AL_TInfoDecode) (err : Int)
    (hdata : frame.bData = true)
    (hmode : info.eFbStorageMode ≠ d.eMainOutputStorageMode)
    (hwriters : ∀ kv ∈ d.writers, kv.1 = d.eMainOutputStorageMode) :
    ∃ d2, d.Process X E (some frame) (some info) err = some d2
      ∧ d2.writers = d.writers
      ∧ d2.hDec.displayPictures = d.hDec.displayPictures
      ∧ d2.NumFrames = d.NumFrames := by
  have hlook := lookup_eq_none_of_keys _ _ hmode d.writers hwriters
  by_cases herr : E.AL_IS_ERROR_CODE err = true
  · exact ⟨_, Display.Process_of_error X E d _ _ err herr, rfl, rfl, rfl⟩
  · simp only [Bool.not_eq_true] at herr
    refine ⟨_, Display.Process_of_no_writer X E d frame info err herr hdata (Or.inl hlook), ?_⟩
    rw [if_neg hmode]
    simp

/-- Witness for C5: main storage mode 0, one writer for it, a picture in storage mode 1. -/
theorem Display_Process_non_main_storage_witness :
    ∃ d2, (SafeChannelMain.display ⟨8, []⟩ 0 true false "dec.yuv" "" 8 10 false).Process
        sampleExternals sampleErrorCodes
        (some ⟨⟨AL_CHROMA_4_2_0, 8, false⟩, ⟨16, 16⟩, 384, [], true, false⟩)
        (some ⟨1, 8, 8, ⟨false, 0, 0, 0, 0⟩, 0⟩) 0 = some d2
      ∧ d2.writers
          = (SafeChannelMain.display ⟨8, []⟩ 0 true false "dec.yuv" "" 8 10 false).writers
      ∧ d2.hDec.displayPictures
          = (SafeChannelMain.display ⟨8, []⟩ 0 true false "dec.yuv" "" 8 10
              false).hDec.displayPictures
      ∧ d2.NumFrames
          = (SafeChannelMain.display ⟨8, []⟩ 0 true false "dec.yuv" "" 8 10 false).NumFrames :=
  Display_Process_non_main_storage sampleExternals sampleErrorCodes _ _ _ 0 (by decide)
    (by decide) (by decide)

/-- Claim C6: for every display state and every frame error code, a release-only
notification (picture, null info) returns and leaves `NumFrames` unchanged. -/
theorem Display_Process_release_NumFrames (X : Externals) (E : ErrorCodes) (d : Display)
    (frame : AL_TBuffer) (err : Int) :
    ∃ d2, d.Process X E (some frame) none err = some d2 ∧ d2.NumFrames = d.NumFrames := by
  by_cases herr : E.AL_IS_ERROR_CODE err = true
  · exact ⟨_, Display.Process_of_error X E d _ _ err herr, rfl⟩
  · simp only [Bool.not_eq_true] at herr
    exact ⟨_, Display.Process_of_release X E d frame err herr, by simp⟩

/-- Counterexample to claim C7 as stated: a release-only notification whose frame error
is the conceal warning moves the conceal-frame counter (from 0 to 1). -/
theorem Display_Process_release_conceal_not_noop :
    (sampleDisplay.Process sampleExternals sampleErrorCodes (some sampleFrame) none
        sampleErrorCodes.AL_WARN_CONCEAL_DETECT).map (fun d => d.iNumFrameConceal)
      ≠ some sampleDisplay.iNumFrameConceal := by
  decide

/-- Claim C7, amended: a release-only notification never changes `NumFrames`, the output
bit depth, the writers (no output) or the decoder (no picture returned).  It signals
completion exactly when its frame error is classified as an error; otherwise it adds one
to the conceal-frame counter exactly when the frame error is the conceal warning, and is
a no-op for every other code. -/
theorem Display_Process_release_eq (X : Externals) (E : ErrorCodes) (d : Display)
    (frame : AL_TBuffer) (err : Int) :
    d.Process X E (some frame) none err
      = some (if E.AL_IS_ERROR_CODE err = true then { d with hExitMain := d.hExitMain + 1 }
              else if err = E.AL_WARN_CONCEAL_DETECT then
                { d with iNumFrameConceal := d.iNumFrameConceal + 1 }
              else d) := by
  by_cases herr : E.AL_IS_ERROR_CODE err = true
  · rw [if_pos herr]
    exact Display.Process_of_error X E d _ _ err herr
  · rw [if_neg herr]
    simp only [Bool.not_eq_true] at herr
    exact Display.Process_of_release X E d frame err herr

/-- Claim C8: an EOS notification (null picture, null info) returns with the completion
event set and every other member of the display unchanged (frame counter, conceal
counter, bit depth, writers, decoder, HDR writer), whatever the frame error; delivered
after a notification that already set the event through the error path, it leaves the
event set and the other members as they were before both. -/
theorem Display_Process_eos (X : Externals) (E : ErrorCodes) (d : Display) (err : Int)
    (pFrame : Option AL_TBuffer) (pInfo : Option AL_TInfoDecode) (errFirst : Int)
    (hfirst : E.AL_IS_ERROR_CODE errFirst = true) :
    (∃ d2, d.Process X E none none err = some d2
        ∧ eventIsSet d2.hExitMain = true
        ∧ { d2 with hExitMain := d.hExitMain } = d)
      ∧ (∃ d1 d2, d.Process X E pFrame pInfo errFirst = some d1
        ∧ eventIsSet d1.hExitMain = true
        ∧ d1.Process X E none none err = some d2
        ∧ eventIsSet d2.hExitMain = true
        ∧ { d2 with hExitMain := d.hExitMain } = d) := by
  refine ⟨⟨_, Display.Process_of_eos X E d err, ?_, rfl⟩,
    ⟨_, _, Display.Process_of_error X E d pFrame pInfo errFirst hfirst, ?_,
      Display.Process_of_eos X E _ err, ?_, rfl⟩⟩ <;>
    simp [eventIsSet]

/-- Witness for C8: an error notification (code 128) followed by EOS. -/
theorem Display_Process_eos_witness :
    (∃ d2, sampleDisplay.Process sampleExternals sampleErrorCodes none none 0 = some d2
        ∧ eventIsSet d2.hExitMain = true
        ∧ { d2 with hExitMain := sampleDisplay.hExitMain } = sampleDisplay)
      ∧ (∃ d1 d2, sampleDisplay.Process sampleExternals sampleErrorCodes (some sampleFrame)
            (some (sampleInfo 0)) 128 = some d1
        ∧ eventIsSet d1.hExitMain = true
        ∧ d1.Process sampleExternals sampleErrorCodes none none 0 = some d2
        ∧ eventIsSet d2.hExitMain = true
        ∧ { d2 with hExitMain := sampleDisplay.hExitMain } = sampleDisplay) :=
  Display_Process_eos sampleExternals sampleErrorCodes sampleDisplay 0 (some sampleFrame)
    (some (sampleInfo 0)) 128 (by decide)

/-- A frame error other than the conceal warning leaves the conceal counter alone. -/
theorem Display.countConceal_of_ne (E : ErrorCodes) (d : Display) (err : Int)
    (h : err ≠ E.AL_WARN_CONCEAL_DETECT) : d.countConceal E err = d := by
  simp [Display.countConceal, h]

/-- A display notification whose frame error is neither an error code nor the conceal
warning is processed as one carrying any other such code. -/
theorem Display.Process_advisory (X : Externals) (E : ErrorCodes) (d : Display)
    (frame : AL_TBuffer) (info : AL_TInfoDecode) (err err2 : Int)
    (herr : E.AL_IS_ERROR_CODE err = false) (herr2 : E.AL_IS_ERROR_CODE err2 = false)
    (hc : err ≠ E.AL_WARN_CONCEAL_DETECT) (hc2 : err2 ≠ E.AL_WARN_CONCEAL_DETECT) :
    d.Process X E (some frame) (some info) err = d.Process X E (some frame) (some info) err2 := by
  simp only [Display.Process, herr, herr2, Display.countConceal_of_ne E d _ hc,
    Display.countConceal_of_ne E d _ hc2]

/-- A picture whose conversion succeeds whatever the conversion buffer is: `ProcessFrame`
of the writer returns, with one more write in the YUV file and one more call of
`Compute_CRC` for the certification CRC file, as far as they are open. -/
theorem UncompressedOutputWriter.ProcessFrame_returns (X : Externals) (w : UncompressedOutputWriter)
    (tRecBuf : AL_TBuffer) (info : AL_TInfoDecode) (iBdOut : Int)
    (hconv : ∀ pOutput, ∃ r, ConvertFrameBuffer X tRecBuf pOutput
      (convertBitDepthToEven iBdOut) = Except.ok r) :
    ∃ w2, w.ProcessFrame X tRecBuf info iBdOut = Except.ok w2
      ∧ w2.YuvFile.map List.length = w.YuvFile.map (fun l => l.length + 1)
      ∧ w2.IpCrcFile = w.IpCrcFile
      ∧ w2.CertCrcFile.map List.length = w.CertCrcFile.map (fun l => l.length + 1) := by
  obtain ⟨⟨converted, r⟩, hr⟩ := hconv w.YuvBuffer
  unfold UncompressedOutputWriter.ProcessFrame
  by_cases hopen : (w.YuvFile.isSome || w.CertCrcFile.isSome) = false
  · rw [if_pos hopen]
    have hy : w.YuvFile = none := by
      cases h : w.YuvFile with
      | none => rfl
      | some l => simp [h] at hopen
    have hc : w.CertCrcFile = none := by
      cases h : w.CertCrcFile with
      | none => rfl
      | some l => simp [h] at hopen
    exact ⟨w, rfl, by simp [hy], rfl, by simp [hc]⟩
  · rw [if_neg hopen]
    simp only [hr]
    refine ⟨_, rfl, ?_, rfl, ?_⟩
    · cases w.YuvFile <;> simp
    · cases w.CertCrcFile <;> simp

/-- A picture whose conversion succeeds whatever the conversion buffer is: `ProcessOutput`
of the writer returns, with one more line in the CRC file, one more write in the YUV file
and one more call of `Compute_CRC`, as far as the files are open. -/
theorem UncompressedOutputWriter.ProcessOutput_returns (X : Externals)
    (w : UncompressedOutputWriter) (tRecBuf : AL_TBuffer) (info : AL_TInfoDecode) (iBdOut : Int)
    (hconv : ∀ pOutput, ∃ r, ConvertFrameBuffer X tRecBuf pOutput
      (convertBitDepthToEven iBdOut) = Except.ok r) :
    ∃ w2, w.ProcessOutput X tRecBuf info iBdOut = Except.ok w2
      ∧ w2.YuvFile.map List.length = w.YuvFile.map (fun l => l.length + 1)
      ∧ w2.IpCrcFile = w.IpCrcFile.map (fun l => l ++ [crcLine info.uCRC])
      ∧ w2.CertCrcFile.map List.length = w.CertCrcFile.map (fun l => l.length + 1) := by
  unfold UncompressedOutputWriter.ProcessOutput BaseOutputWriter.ProcessOutput
  by_cases hcrc : w.IpCrcFile.isSome = true
  · simp only [hcrc, if_true]
    obtain ⟨w2, h, hy, hi, hc⟩ := UncompressedOutputWriter.ProcessFrame_returns X
      { w with IpCrcFile := w.IpCrcFile.map fun crc => crc ++ [crcLine info.uCRC] }
      tRecBuf info iBdOut hconv
    exact ⟨w2, h, hy, hi, hc⟩
  · simp only [hcrc, Bool.false_eq_true, if_false]
    obtain ⟨w2, h, hy, hi, hc⟩ := UncompressedOutputWriter.ProcessFrame_returns X w tRecBuf info
      iBdOut hconv
    refine ⟨w2, h, hy, ?_, hc⟩
    rw [hi]
    cases h : w.IpCrcFile with
    | none => rfl
    | some l => simp [h] at hcrc

/-- Claim C9: with the two advisory codes (and success) not classified as errors by
`AL_IS_ERROR_CODE` and distinct from the conceal warning, a display notification carrying
an advisory code is processed exactly as one carrying success, whatever the writer does.
For a picture of the main storage mode that processing is: the frame is dispatched to the
writer registered for its storage mode, at the resolved bit depth; when the writer
returns, its new state is stored, the picture is handed back to the decoder, `NumFrames`
is incremented and the event is set only through the frame-limit test; when the writer
throws or fails an assertion the callback does not return; when no writer is reached the
rest is done all the same.  A writer returns whenever the conversion of the picture
succeeds.  A notification whose frame error is classified as an error sets the event and
returns with every other member unchanged: no output, no picture returned, `NumFrames`
as before. -/
theorem Display_Process_advisory_and_error (X : Externals) (E : ErrorCodes) (d : Display)
    (frame : AL_TBuffer) (info : AL_TInfoDecode) (pFrame : Option AL_TBuffer)
    (pInfo : Option AL_TInfoDecode) (err : Int)
    (hSps : E.AL_IS_ERROR_CODE E.AL_WARN_SPS_NOT_COMPATIBLE_WITH_CHANNEL_SETTINGS = false)
    (hSei : E.AL_IS_ERROR_CODE E.AL_WARN_SEI_OVERFLOW = false)
    (hOk : E.AL_IS_ERROR_CODE E.AL_SUCCESS = false)
    (hSpsC : E.AL_WARN_SPS_NOT_COMPATIBLE_WITH_CHANNEL_SETTINGS ≠ E.AL_WARN_CONCEAL_DETECT)
    (hSeiC : E.AL_WARN_SEI_OVERFLOW ≠ E.AL_WARN_CONCEAL_DETECT)
    (hOkC : E.AL_SUCCESS ≠ E.AL_WARN_CONCEAL_DETECT)
    (hdata : frame.bData = true)
    (hmain : info.eFbStorageMode = d.eMainOutputStorageMode)
    (herr : E.AL_IS_ERROR_CODE err = true) :
    d.Process X E (some frame) (some info) E.AL_WARN_SPS_NOT_COMPATIBLE_WITH_CHANNEL_SETTINGS
        = d.Process X E (some frame) (some info) E.AL_SUCCESS
      ∧ d.Process X E (some frame) (some info) E.AL_WARN_SEI_OVERFLOW
        = d.Process X E (some frame) (some info) E.AL_SUCCESS
      ∧ (∀ w w2 : UncompressedOutputWriter,
          d.writers.lookup info.eFbStorageMode = some w → d.FirstFrame ≤ d.NumFrames →
          w.ProcessOutput X frame info (d.resolveBitDepth info).iBitDepth = Except.ok w2 →
          ∃ d2, d.Process X E (some frame) (some info) E.AL_SUCCESS = some d2
            ∧ d2.writers
                = d.writers.map (fun kv =>
                    if kv.1 = info.eFbStorageMode then (kv.1, w2) else kv)
            ∧ d2.writers.lookup info.eFbStorageMode = some w2
            ∧ d2.hDec.displayPictures = d.hDec.displayPictures ++ [frame]
            ∧ d2.NumFrames = (d.NumFrames + 1) % 2 ^ 32
            ∧ d2.hExitMain
                = (if (d.NumFrames + 1) % 2 ^ 32 > d.MaxFrames then d.hExitMain + 1
                   else d.hExitMain)
            ∧ d2.iNumFrameConceal = d.iNumFrameConceal)
      ∧ (∀ (w : UncompressedOutputWriter) (e : ConvertError),
          d.writers.lookup info.eFbStorageMode = some w → d.FirstFrame ≤ d.NumFrames →
          w.ProcessOutput X frame info (d.resolveBitDepth info).iBitDepth = Except.error e →
          d.Process X E (some frame) (some info) E.AL_SUCCESS = none)
      ∧ (d.writers.lookup info.eFbStorageMode = none ∨ d.NumFrames < d.FirstFrame →
          ∃ d2, d.Process X E (some frame) (some info) E.AL_SUCCESS = some d2
            ∧ d2.writers = d.writers
            ∧ d2.hDec.displayPictures = d.hDec.displayPictures ++ [frame]
            ∧ d2.NumFrames = (d.NumFrames + 1) % 2 ^ 32
            ∧ d2.hExitMain
                = (if (d.NumFrames + 1) % 2 ^ 32 > d.MaxFrames then d.hExitMain + 1
                   else d.hExitMain)
            ∧ d2.iNumFrameConceal = d.iNumFrameConceal)
      ∧ (∀ w : UncompressedOutputWriter,
          (∀ pOutput, ∃ r, ConvertFrameBuffer X frame pOutput
            (convertBitDepthToEven (d.resolveBitDepth info).iBitDepth) = Except.ok r) →
          ∃ w2, w.ProcessOutput X frame info (d.resolveBitDepth info).iBitDepth
            = Except.ok w2)
      ∧ d.Process X E pFrame pInfo err = some { d with hExitMain := d.hExitMain + 1 } := by
  refine ⟨Display.Process_advisory X E d frame info _ _ hSps hOk hSpsC hOkC,
    Display.Process_advisory X E d frame info _ _ hSei hOk hSeiC hOkC, ?_, ?_, ?_, ?_,
    Display.Process_of_error X E d pFrame pInfo err herr⟩
  · intro w w2 hw hn hout
    refine ⟨_, Display.Process_of_writer_ok X E d frame info _ w w2 hOk hdata hw hn hout, ?_⟩
    rw [if_pos hmain, Display.countConceal_of_ne E d _ hOkC]
    refine ⟨by simp, ?_, by simp, by simp, ?_, by simp⟩
    · simp only [Display.mainOutput_writers]
      exact lookup_map_replace _ w2 d.writers w hw
    · rw [Display.mainOutput_hExitMain]
      simp
  · intro w e hw hn hout
    exact Display.Process_of_writer_error X E d frame info _ w e hOk hdata hw hn hout
  · intro hw
    refine ⟨_, Display.Process_of_no_writer X E d frame info _ hOk hdata hw, ?_⟩
    rw [if_pos hmain, Display.countConceal_of_ne E d _ hOkC]
    refine ⟨by simp, by simp, by simp, ?_, by simp⟩
    rw [Display.mainOutput_hExitMain]
    simp
  · intro w hconv
    obtain ⟨w2, h, -⟩ := UncompressedOutputWriter.ProcessOutput_returns X w frame info _ hconv
    exact ⟨w2, h⟩

/-- Witness for C9 on the sample error table: a main-mode picture with the warnings 3 and
4 and with success 0 is written (one write of 384 bytes from the conversion buffer),
handed back and counted; on a display asked for 12 bits, where the 8-bit picture has no
conversion, the three notifications alike do not return; error code 128 sets the event
only. -/
theorem Display_Process_advisory_and_error_witness :
    sampleDisplay.Process sampleExternals sampleErrorCodes (some sampleFrame)
        (some (sampleInfo 0)) 3 = some sampleDisplayAfterOne
      ∧ sampleDisplay.Process sampleExternals sampleErrorCodes (some sampleFrame)
        (some (sampleInfo 0)) 4 = some sampleDisplayAfterOne
      ∧ sampleDisplay.Process sampleExternals sampleErrorCodes (some sampleFrame)
        (some (sampleInfo 0)) 0 = some sampleDisplayAfterOne
      ∧ deepDisplay.Process sampleExternals sampleErrorCodes (some sampleFrame)
        (some (sampleInfo 0)) 3 = none
      ∧ deepDisplay.Process sampleExternals sampleErrorCodes (some sampleFrame)
        (some (sampleInfo 0)) 0 = none
      ∧ sampleDisplay.Process sampleExternals sampleErrorCodes none (some (sampleInfo 0)) 128
        = some { sampleDisplay with hExitMain := sampleDisplay.hExitMain + 1 } := by
  have h := Display_Process_advisory_and_error sampleExternals sampleErrorCodes sampleDisplay
    sampleFrame (sampleInfo 0) none (some (sampleInfo 0)) 128 (by decide) (by decide)
    (by decide) (by decide) (by decide) (by decide) (by decide) (by decide) (by decide)
  have h12 := Display_Process_advisory_and_error sampleExternals sampleErrorCodes deepDisplay
    sampleFrame (sampleInfo 0) none (some (sampleInfo 0)) 128 (by decide) (by decide)
    (by decide) (by decide) (by decide) (by decide) (by decide) (by decide) (by decide)
  have h0 : sampleDisplay.Process sampleExternals sampleErrorCodes (some sampleFrame)
      (some (sampleInfo 0)) 0 = some sampleDisplayAfterOne := rfl
  have h120 : deepDisplay.Process sampleExternals sampleErrorCodes (some sampleFrame)
      (some (sampleInfo 0)) 0 = none :=
    h12.2.2.2.1 sampleWriter ConvertError.assertFailed rfl (by decide) rfl
  exact ⟨h.1.trans h0, h.2.1.trans h0, h0, h12.1.trans h120, h120, h.2.2.2.2.2.2⟩

/-! ### Runs of display notifications of the main storage mode -/

/-- The resolved bit depth of a run depends on the display only through its bit depth and
the maximum bit depth of its decoder. -/
theorem Display.foldl_resolveBitDepth_congr (infos : List AL_TInfoDecode) :
    ∀ d1 d2 : Display, d1.iBitDepth = d2.iBitDepth → d1.hDec.iMaxBD = d2.hDec.iMaxBD →
      (infos.foldl Display.resolveBitDepth d1).iBitDepth
        = (infos.foldl Display.resolveBitDepth d2).iBitDepth := by
  induction infos with
  | nil =>
    intro d1 d2 hb _
    exact hb
  | cons info infos ih =>
    intro d1 d2 hb hm
    rw [List.foldl_cons, List.foldl_cons]
    apply ih
    · rw [Display.resolveBitDepth_iBitDepth, Display.resolveBitDepth_iBitDepth, hb, hm]
    · simp [hm]

/-- A bit depth other than 0 and -1 is left as it is by the resolution statement. -/
theorem Display.resolveBitDepth_of_resolved (d : Display) (info : AL_TInfoDecode)
    (h0 : d.iBitDepth ≠ 0) (h1 : d.iBitDepth ≠ -1) : d.resolveBitDepth info = d := by
  simp [Display.resolveBitDepth, h0, h1]

/-- A bit depth other than 0 and -1 is the bit depth after any run. -/
theorem Display.iBitDepthAfter_of_resolved (d : Display) (calls : List DisplayCall)
    (h0 : d.iBitDepth ≠ 0) (h1 : d.iBitDepth ≠ -1) : d.iBitDepthAfter calls = d.iBitDepth := by
  unfold Display.iBitDepthAfter
  generalize ((calls.filterMap DisplayCall.picture).map Prod.snd) = infos
  induction infos with
  | nil => rfl
  | cons info infos ih =>
    rw [List.foldl_cons, Display.resolveBitDepth_of_resolved d info h0 h1]
    exact ih

/-- One successful main-mode display notification that returns, on a display whose only
writer is the one of the main storage mode and whose `FirstFrame` is 0: the writer
returned from `ProcessOutput` for the picture at the resolved bit depth and its new state
is stored, the picture went back to the decoder, the counter advanced modulo `2 ^ 32`
and the event is set exactly when the new counter exceeds `MaxFrames`. -/
theorem Display.Process_main_display_some (X : Externals) (E : ErrorCodes) (d d2 : Display)
    (c : DisplayCall) (w : UncompressedOutputWriter)
    (hc : c.isMainDisplay E d.eMainOutputStorageMode = true)
    (hw : d.writers = [(d.eMainOutputStorageMode, w)]) (hfirst : d.FirstFrame = 0)
    (h : d.Process X E c.pFrame c.pInfo c.err = some d2) :
    ∃ frame info w2, c.picture = some (frame, info)
      ∧ w.ProcessOutput X frame info (d.resolveBitDepth info).iBitDepth = Except.ok w2
      ∧ d2.writers = [(d.eMainOutputStorageMode, w2)]
      ∧ d2.eMainOutputStorageMode = d.eMainOutputStorageMode
      ∧ d2.FirstFrame = 0
      ∧ d2.MaxFrames = d.MaxFrames
      ∧ d2.NumFrames = (d.NumFrames + 1) % 2 ^ 32
      ∧ d2.hExitMain
          = (if (d.NumFrames + 1) % 2 ^ 32 > d.MaxFrames then d.hExitMain + 1
             else d.hExitMain)
      ∧ d2.hDec.displayPictures = d.hDec.displayPictures ++ [frame]
      ∧ d2.iBitDepth = (d.resolveBitDepth info).iBitDepth
      ∧ d2.hDec.iMaxBD = d.hDec.iMaxBD := by
  obtain ⟨pFrame, pInfo, err⟩ := c
  cases pFrame with
  | none => simp [DisplayCall.isMainDisplay] at hc
  | some frame =>
    cases pInfo with
    | none => simp [DisplayCall.isMainDisplay] at hc
    | some info =>
      simp only [DisplayCall.isMainDisplay, Bool.and_eq_true, decide_eq_true_eq,
        Bool.not_eq_true'] at hc
      obtain ⟨⟨hdata, hmode⟩, herr⟩ := hc
      have hlook : d.writers.lookup info.eFbStorageMode = some w := by
        rw [hw, hmode]
        simp [List.lookup]
      have hn : d.FirstFrame ≤ d.NumFrames := by
        rw [hfirst]
        exact Nat.zero_le _
      simp only [] at h
      cases ho : w.ProcessOutput X frame info (d.resolveBitDepth info).iBitDepth with
      | error e =>
        rw [Display.Process_of_writer_error X E d frame info err w e herr hdata hlook hn ho] at h
        cases h
      | ok w2 =>
        rw [Display.Process_of_writer_ok X E d frame info err w w2 herr hdata hlook hn ho,
          if_pos hmode] at h
        cases h
        refine ⟨frame, info, w2, rfl, ho, ?_, by simp, by simp [hfirst], by simp, by simp, ?_,
          by simp, ?_, by simp⟩
        · simp [hw, hmode]
        · rw [Display.mainOutput_hExitMain]
          simp
        · simp only [Display.mainOutput_iBitDepth]
          exact Display.resolveBitDepth_countConceal E d info err

/-- One successful main-mode display notification of a picture whose conversion succeeds
returns. -/
theorem Display.Process_main_display (X : Externals) (E : ErrorCodes) (d : Display)
    (c : DisplayCall) (w : UncompressedOutputWriter)
    (hc : c.isMainDisplay E d.eMainOutputStorageMode = true)
    (hw : d.writers = [(d.eMainOutputStorageMode, w)]) (hfirst : d.FirstFrame = 0)
    (hconv : ∀ frame info, c.picture = some (frame, info) → ∀ pOutput, ∃ r,
      ConvertFrameBuffer X frame pOutput
        (convertBitDepthToEven (d.resolveBitDepth info).iBitDepth) = Except.ok r) :
    ∃ d2, d.Process X E c.pFrame c.pInfo c.err = some d2 := by
  obtain ⟨pFrame, pInfo, err⟩ := c
  cases pFrame with
  | none => simp [DisplayCall.isMainDisplay] at hc
  | some frame =>
    cases pInfo with
    | none => simp [DisplayCall.isMainDisplay] at hc
    | some info =>
      simp only [DisplayCall.isMainDisplay, Bool.and_eq_true, decide_eq_true_eq,
        Bool.not_eq_true'] at hc
      obtain ⟨⟨hdata, hmode⟩, herr⟩ := hc
      have hlook : d.writers.lookup info.eFbStorageMode = some w := by
        rw [hw, hmode]
        simp [List.lookup]
      have hn : d.FirstFrame ≤ d.NumFrames := by
        rw [hfirst]
        exact Nat.zero_le _
      obtain ⟨w2, ho, -⟩ := UncompressedOutputWriter.ProcessOutput_returns X w frame info _
        (hconv frame info rfl)
      exact ⟨_, Display.Process_of_writer_ok X E d frame info err w w2 herr hdata hlook hn ho⟩

/-- A run of successful main-mode display notifications of pictures whose conversion
succeeds returns; the counter has advanced by their number modulo `2 ^ 32`, each picture
went to the writer (one CRC line, one write, one certification CRC each, as far as the
files are open) and back to the decoder in order. -/
theorem Display.ProcessAll_main_display (X : Externals) (E : ErrorCodes)
    (calls : List DisplayCall) :
    ∀ (d : Display) (w : UncompressedOutputWriter),
      (∀ c ∈ calls, c.isMainDisplay E d.eMainOutputStorageMode = true) →
      d.writers = [(d.eMainOutputStorageMode, w)] → d.FirstFrame = 0 →
      d.NumFrames < 2 ^ 32 →
      (∀ pre c post, calls = pre ++ c :: post → ∀ frame info, c.picture = some (frame, info) →
        ∀ pOutput, ∃ r, ConvertFrameBuffer X frame pOutput
          (convertBitDepthToEven (d.iBitDepthAfter (pre ++ [c]))) = Except.ok r) →
      ∃ d2 w2, d.ProcessAll X E calls = some d2
        ∧ d2.writers = [(d.eMainOutputStorageMode, w2)]
        ∧ w2.YuvFile.map List.length = w.YuvFile.map (fun l => l.length + calls.length)
        ∧ w2.IpCrcFile
            = w.IpCrcFile.map (fun l =>
                l ++ (calls.filterMap DisplayCall.picture).map fun p => crcLine p.2.uCRC)
        ∧ w2.CertCrcFile.map List.length
            = w.CertCrcFile.map (fun l => l.length + calls.length)
        ∧ d2.MaxFrames = d.MaxFrames
        ∧ d2.NumFrames = (d.NumFrames + calls.length) % 2 ^ 32
        ∧ d2.hDec.displayPictures
            = d.hDec.displayPictures ++ (calls.filterMap DisplayCall.picture).map Prod.fst := by
  induction calls with
  | nil =>
    intro d w _ hw _ hn _
    refine ⟨d, w, rfl, hw, ?_, ?_, ?_, rfl, ?_, by simp⟩
    · cases w.YuvFile <;> simp
    · cases w.IpCrcFile <;> simp
    · cases w.CertCrcFile <;> simp
    · simp only [List.length_nil]
      omega
  | cons c cs ih =>
    intro d w hcalls hw hfirst _ hconv
    have hc := hcalls c (List.mem_cons_self _ _)
    obtain ⟨d1, hproc⟩ := Display.Process_main_display X E d c w hc hw hfirst (by
      intro frame info hpic pOutput
      have h := hconv [] c cs rfl frame info hpic pOutput
      simpa [Display.iBitDepthAfter, List.filterMap_cons, hpic] using h)
    obtain ⟨frame, info, w1, hpic, ho, hw1, hmain1, hfirst1, hmax1, hnum1, -, hpics1, hbd1,
      hmaxbd1⟩ := Display.Process_main_display_some X E d d1 c w hc hw hfirst hproc
    obtain ⟨w1b, ho1, hy1, hi1, hc1⟩ := UncompressedOutputWriter.ProcessOutput_returns X w frame info _ (by
      intro pOutput
      have h := hconv [] c cs rfl frame info hpic pOutput
      simpa [Display.iBitDepthAfter, List.filterMap_cons, hpic] using h)
    have hw1b : w1b = w1 := by
      have := ho1.symm.trans ho
      cases this
      rfl
    subst hw1b
    obtain ⟨d2, w2, hall, hw2, hy2, hi2, hc2, hmax2, hnum2, hpics2⟩ :=
      ih d1 w1b
        (fun c2 hc2 => hmain1 ▸ hcalls c2 (List.mem_cons_of_mem _ hc2))
        (hmain1 ▸ hw1) hfirst1 (hnum1 ▸ Nat.mod_lt _ (by norm_num)) (by
          intro pre c2 post hcs frame2 info2 hpic2 pOutput
          have h := hconv (c :: pre) c2 post (by rw [hcs]; rfl) frame2 info2 hpic2 pOutput
          have hdepth : d.iBitDepthAfter (c :: pre ++ [c2]) = d1.iBitDepthAfter (pre ++ [c2]) := by
            simp only [Display.iBitDepthAfter, List.cons_append, List.filterMap_cons, hpic,
              List.map_cons, List.foldl_cons]
            exact Display.foldl_resolveBitDepth_congr _ _ _ hbd1.symm (by simp [hmaxbd1])
          rw [hdepth] at h
          exact h)
    refine ⟨d2, w2, ?_, hmain1 ▸ hw2, ?_, ?_, ?_, hmax2.trans hmax1, ?_, ?_⟩
    · simp only [Display.ProcessAll, hproc, hall]
    · rw [hy2]
      cases hyw : w.YuvFile with
      | none =>
        rw [hyw] at hy1
        cases hyw1 : w1b.YuvFile with
        | none => rfl
        | some l => simp [hyw1] at hy1
      | some l =>
        rw [hyw] at hy1
        cases hyw1 : w1b.YuvFile with
        | none => simp [hyw1] at hy1
        | some l1 =>
          simp only [hyw1, Option.map_some', Option.some.injEq] at hy1 ⊢
          simp only [List.length_cons]
          omega
    · rw [hi2, hi1]
      cases w.IpCrcFile <;> simp [List.filterMap_cons, hpic]
    · rw [hc2]
      cases hyw : w.CertCrcFile with
      | none =>
        rw [hyw] at hc1
        cases hyw1 : w1b.CertCrcFile with
        | none => rfl
        | some l => simp [hyw1] at hc1
      | some l =>
        rw [hyw] at hc1
        cases hyw1 : w1b.CertCrcFile with
        | none => simp [hyw1] at hc1
        | some l1 =>
          simp only [hyw1, Option.map_some', Option.some.injEq] at hc1 ⊢
          simp only [List.length_cons]
          omega
    · rw [hnum2, hnum1, List.length_cons]
      omega
    · rw [hpics2, hpics1]
      simp [List.filterMap_cons, hpic]

/-- Along a run of successful main-mode display notifications under a frame limit below
`UINT_MAX`, started with the counter at `n`, the event is set once more than `MaxFrames`
pictures have been counted. -/
theorem Display.ProcessAll_main_display_event (X : Externals) (E : ErrorCodes)
    (calls : List DisplayCall) :
    ∀ (d : Display) (w : UncompressedOutputWriter) (n : Nat),
      (∀ c ∈ calls, c.isMainDisplay E d.eMainOutputStorageMode = true) →
      d.writers = [(d.eMainOutputStorageMode, w)] → d.FirstFrame = 0 →
      d.MaxFrames < 2 ^ 32 - 1 → d.NumFrames = n % 2 ^ 32 →
      eventIsSet d.hExitMain = decide (d.MaxFrames < n) →
      ∀ d2, d.ProcessAll X E calls = some d2 →
        eventIsSet d2.hExitMain = decide (d.MaxFrames < n + calls.length) := by
  induction calls with
  | nil =>
    intro d w n _ _ _ _ _ hev d2 h2
    simp only [Display.ProcessAll, Option.some.injEq] at h2
    subst h2
    simpa using hev
  | cons c cs ih =>
    intro d w n hcalls hw hfirst hmax hnum hev d2 h2
    simp only [Display.ProcessAll] at h2
    cases hproc : d.Process X E c.pFrame c.pInfo c.err with
    | none => simp [hproc] at h2
    | some d1 =>
      simp only [hproc] at h2
      obtain ⟨frame, info, w1, -, -, hw1, hmain1, hfirst1, hmax1, hnum1, hexit1, -⟩ :=
        Display.Process_main_display_some X E d d1 c w (hcalls c (List.mem_cons_self _ _)) hw
          hfirst hproc
      have hev1 : eventIsSet d1.hExitMain = decide (d1.MaxFrames < n + 1) := by
        rw [hexit1, hmax1]
        simp only [eventIsSet] at hev ⊢
        have hev2 : 0 < d.hExitMain ↔ d.MaxFrames < n := by simpa using hev
        split_ifs with hgt
        · have : d.MaxFrames < n + 1 := by omega
          simp [this]
        · have hiff : 0 < d.hExitMain ↔ d.MaxFrames < n + 1 := by
            rw [hev2]
            omega
          simp [hiff]
      have h := ih d1 w1 (n + 1)
        (fun c2 hc2 => hmain1 ▸ hcalls c2 (List.mem_cons_of_mem _ hc2))
        (hmain1 ▸ hw1) hfirst1 (hmax1 ▸ hmax) (by rw [hnum1, hnum]; omega) hev1 d2 h2
      rw [h, hmax1, List.length_cons]
      congr 1
      rw [eq_iff_iff]
      omega

/-- With `MaxFrames = UINT_MAX` a run of successful main-mode display notifications never
sets the event. -/
theorem Display.ProcessAll_main_display_no_limit (X : Externals) (E : ErrorCodes)
    (calls : List DisplayCall) :
    ∀ (d : Display) (w : UncompressedOutputWriter),
      (∀ c ∈ calls, c.isMainDisplay E d.eMainOutputStorageMode = true) →
      d.writers = [(d.eMainOutputStorageMode, w)] → d.FirstFrame = 0 →
      d.MaxFrames = 2 ^ 32 - 1 →
      ∀ d2, d.ProcessAll X E calls = some d2 → d2.hExitMain = d.hExitMain := by
  induction calls with
  | nil =>
    intro d w _ _ _ _ d2 h2
    simp only [Display.ProcessAll, Option.some.injEq] at h2
    rw [h2]
  | cons c cs ih =>
    intro d w hcalls hw hfirst hmax d2 h2
    simp only [Display.ProcessAll] at h2
    cases hproc : d.Process X E c.pFrame c.pInfo c.err with
    | none => simp [hproc] at h2
    | some d1 =>
      simp only [hproc] at h2
      obtain ⟨frame, info, w1, -, -, hw1, hmain1, hfirst1, hmax1, -, hexit1, -⟩ :=
        Display.Process_main_display_some X E d d1 c w (hcalls c (List.mem_cons_self _ _)) hw
          hfirst hproc
      have h := ih d1 w1
        (fun c2 hc2 => hmain1 ▸ hcalls c2 (List.mem_cons_of_mem _ hc2))
        (hmain1 ▸ hw1) hfirst1 (hmax1.trans hmax) d2 h2
      rw [h, hexit1, if_neg]
      rw [hmax]
      omega

/-- The conversion of `sampleFrame` to 8 bits succeeds whatever the conversion buffer is:
the allocations of `sampleExternals` succeed and the routine is `NV12_To_I420`. -/
theorem ConvertFrameBuffer_sampleFrame (pOutput : Option AL_TBuffer) :
    ∃ r, ConvertFrameBuffer sampleExternals sampleFrame pOutput (convertBitDepthToEven 8)
      = Except.ok r := by
  cases pOutput with
  | none => exact ⟨_, rfl⟩
  | some out =>
    by_cases hdim : sampleFrame.tDim.iWidth ≠ out.tDim.iWidth
        ∨ sampleFrame.tDim.iHeight ≠ out.tDim.iHeight
    · refine ⟨(sampleConverted, NV12_To_I420), ?_⟩
      unfold ConvertFrameBuffer
      simp only [if_pos hdim]
      rfl
    · refine ⟨(out, NV12_To_I420), ?_⟩
      unfold ConvertFrameBuffer
      simp only [if_neg hdim]
      rfl

/-- A run stops at the first picture the writer cannot convert: on the display asked for
12 bits the successful main-mode notification of the 8-bit `sampleFrame` does not return,
so nothing is counted and the event is never set by the frame limit. -/
theorem Display_ProcessAll_writer_failure :
    deepDisplay.ProcessAll sampleExternals sampleErrorCodes [sampleCall, sampleCall] = none
      ∧ sampleCall.isMainDisplay sampleErrorCodes deepDisplay.eMainOutputStorageMode = true
      ∧ sampleWriter.ProcessOutput sampleExternals sampleFrame (sampleInfo 0) 12
        = Except.error ConvertError.assertFailed :=
  ⟨rfl, rfl, rfl⟩

/-- Counterexample to claim C10 as stated, at `MaxFrames = m = 4294967295` (`UINT_MAX`, the
default of the member, here from `--max-frames -1`): after `m + 1 = 4294967296`
successful main-mode display notifications from `NumFrames = 0` the run has returned and
the event is still not set. -/
theorem Display_ProcessAll_uint_max_never_signals :
    unlimitedDisplay.MaxFrames = 4294967295 ∧ unlimitedDisplay.NumFrames = 0
      ∧ (unlimitedDisplay.ProcessAll sampleExternals sampleErrorCodes
          (List.replicate (4294967295 + 1) sampleCall)).map (fun d => eventIsSet d.hExitMain)
        = some false := by
  have hcalls : ∀ c ∈ List.replicate (4294967295 + 1) sampleCall,
      c.isMainDisplay sampleErrorCodes unlimitedDisplay.eMainOutputStorageMode = true := by
    intro c hc
    rw [List.eq_of_mem_replicate hc]
    decide
  have hconv : ∀ pre c post, List.replicate (4294967295 + 1) sampleCall = pre ++ c :: post →
      ∀ frame info, c.picture = some (frame, info) →
      ∀ pOutput, ∃ r, ConvertFrameBuffer sampleExternals frame pOutput
        (convertBitDepthToEven (unlimitedDisplay.iBitDepthAfter (pre ++ [c]))) = Except.ok r := by
    intro pre c post hsplit frame info hpic pOutput
    have hc : c ∈ List.replicate (4294967295 + 1) sampleCall := by
      rw [hsplit]
      simp
    rw [List.eq_of_mem_replicate hc] at hpic
    have hframe : frame = sampleFrame := by
      have : (sampleFrame, sampleInfo 0) = (frame, info) := Option.some.inj hpic
      exact (congrArg Prod.fst this).symm
    rw [hframe, Display.iBitDepthAfter_of_resolved unlimitedDisplay _ (by decide) (by decide)]
    exact ConvertFrameBuffer_sampleFrame pOutput
  obtain ⟨d2, w2, hall, -⟩ :=
    Display.ProcessAll_main_display sampleExternals sampleErrorCodes
      (List.replicate (4294967295 + 1) sampleCall) unlimitedDisplay sampleWriter hcalls rfl rfl
      (by decide) hconv
  have hexit := Display.ProcessAll_main_display_no_limit sampleExternals sampleErrorCodes
    (List.replicate (4294967295 + 1) sampleCall) unlimitedDisplay sampleWriter hcalls rfl rfl rfl
    d2 hall
  refine ⟨by decide, by decide, ?_⟩
  rw [hall, Option.map_some', hexit]
  rfl

/-- Claim C10, amended to frame limits `m < UINT_MAX` and to pictures the writer can
convert: from `NumFrames = 0`, the event unset, `MaxFrames = m`, and with the main-mode
writer registered, after the first `k` of any sequence of successful main-mode display
notifications, each of a picture whose conversion at the output bit depth of that
notification succeeds, the callback has returned each time, the event is set exactly when
`k > m` (first at notification `m + 1`, at none of the first `m`), and all `k` pictures
were written and counted: `NumFrames` is `k` modulo `2 ^ 32`, the writer has one more CRC
line, write and certification CRC for each of the `k` pictures in order, as far as its
files are open, and the decoder got the pictures back. -/
theorem Display_ProcessAll_max_frames (X : Externals) (E : ErrorCodes) (d : Display)
    (w : UncompressedOutputWriter) (calls : List DisplayCall) (m k : Nat)
    (hm : m < 2 ^ 32 - 1) (hmax : d.MaxFrames = m) (hnum : d.NumFrames = 0)
    (hexit : d.hExitMain = 0) (hfirst : d.FirstFrame = 0)
    (hw : d.writers = [(d.eMainOutputStorageMode, w)])
    (hcalls : ∀ c ∈ calls, c.isMainDisplay E d.eMainOutputStorageMode = true)
    (hconv : ∀ pre c post, calls = pre ++ c :: post →
      ∀ frame info, c.picture = some (frame, info) →
      ∀ pOutput, ∃ r, ConvertFrameBuffer X frame pOutput
        (convertBitDepthToEven (d.iBitDepthAfter (pre ++ [c]))) = Except.ok r)
    (hk : k ≤ calls.length) :
    ∃ dk wk, d.ProcessAll X E (calls.take k) = some dk
      ∧ eventIsSet dk.hExitMain = decide (m < k)
      ∧ dk.NumFrames = k % 2 ^ 32
      ∧ dk.writers = [(d.eMainOutputStorageMode, wk)]
      ∧ wk.YuvFile.map List.length = w.YuvFile.map (fun l => l.length + k)
      ∧ wk.IpCrcFile
          = w.IpCrcFile.map (fun l =>
              l ++ ((calls.take k).filterMap DisplayCall.picture).map fun p => crcLine p.2.uCRC)
      ∧ wk.CertCrcFile.map List.length = w.CertCrcFile.map (fun l => l.length + k)
      ∧ dk.hDec.displayPictures
          = d.hDec.displayPictures
            ++ ((calls.take k).filterMap DisplayCall.picture).map Prod.fst := by
  have hsub : ∀ c ∈ calls.take k, c.isMainDisplay E d.eMainOutputStorageMode = true :=
    fun c hc => hcalls c (List.mem_of_mem_take hc)
  have hlen : (calls.take k).length = k := by
    rw [List.length_take]
    omega
  have hconvk : ∀ pre c post, calls.take k = pre ++ c :: post →
      ∀ frame info, c.picture = some (frame, info) →
      ∀ pOutput, ∃ r, ConvertFrameBuffer X frame pOutput
        (convertBitDepthToEven (d.iBitDepthAfter (pre ++ [c]))) = Except.ok r := by
    intro pre c post hsplit
    apply hconv pre c (post ++ calls.drop k)
    rw [← List.cons_append, ← List.append_assoc, ← hsplit, List.take_append_drop]
  obtain ⟨dk, wk, hall, hwk, hyk, hik, hck, -, hnumk, hpics⟩ :=
    Display.ProcessAll_main_display X E (calls.take k) d w hsub hw hfirst
      (by rw [hnum]; norm_num) hconvk
  have hev := Display.ProcessAll_main_display_event X E (calls.take k) d w 0 hsub hw hfirst
    (hmax ▸ hm) (by rw [hnum]; norm_num) (by rw [hexit, hmax]; simp [eventIsSet]) dk hall
  refine ⟨dk, wk, hall, ?_, ?_, hwk, ?_, hik, ?_, hpics⟩
  · rw [hev, hmax, hlen, Nat.zero_add]
  · rw [hnumk, hnum, hlen, Nat.zero_add]
  · rw [hyk, hlen]
  · rw [hck, hlen]

/-- Witness for C10 with `m = 2` and five frames: after the third displayed frame the
event is set, and the three pictures are in the YUV file. -/
theorem Display_ProcessAll_max_frames_witness :
    ∃ dk wk, sampleDisplay.ProcessAll sampleExternals sampleErrorCodes
          ((List.replicate 5 sampleCall).take 3) = some dk
      ∧ eventIsSet dk.hExitMain = true
      ∧ dk.NumFrames = 3
      ∧ dk.writers = [(0, wk)]
      ∧ wk.YuvFile.map List.length = some 3
      ∧ dk.hDec.displayPictures = [sampleFrame, sampleFrame, sampleFrame] := by
  obtain ⟨dk, wk, hall, hev, hnum, hwk, hy, -, -, hpics⟩ :=
    Display_ProcessAll_max_frames sampleExternals sampleErrorCodes sampleDisplay sampleWriter
      (List.replicate 5 sampleCall) 2 3 (by decide) (by decide) (by decide) (by decide)
      (by decide) (by decide) (by decide)
      (by
        intro pre c post hsplit frame info hpic pOutput
        have hc : c ∈ List.replicate 5 sampleCall := by
          rw [hsplit]
          simp
        rw [List.eq_of_mem_replicate hc] at hpic
        have hframe : frame = sampleFrame := by
          have : (sampleFrame, sampleInfo 0) = (frame, info) := Option.some.inj hpic
          exact (congrArg Prod.fst this).symm
        rw [hframe, Display.iBitDepthAfter_of_resolved sampleDisplay _ (by decide) (by decide)]
        exact ConvertFrameBuffer_sampleFrame pOutput)
      (by decide)
  exact ⟨dk, wk, hall, hev, hnum, hwk, hy, hpics⟩

/-! ## Theorems: output bit depth -/

/-- A callback delivery that returns leaves a bit depth other than 0 and -1 as it is. -/
theorem Display.Process_iBitDepth_of_resolved (X : Externals) (E : ErrorCodes) (d d2 : Display)
    (pFrame : Option AL_TBuffer) (pInfo : Option AL_TInfoDecode) (err : Int)
    (h0 : d.iBitDepth ≠ 0) (h1 : d.iBitDepth ≠ -1)
    (h : d.Process X E pFrame pInfo err = some d2) : d2.iBitDepth = d.iBitDepth := by
  by_cases herr : E.AL_IS_ERROR_CODE err = true
  · rw [Display.Process_of_error X E d _ _ err herr] at h
    cases h
    rfl
  · simp only [Bool.not_eq_true] at herr
    cases pFrame with
    | none =>
      cases pInfo with
      | none =>
        rw [Display.Process_of_eos] at h
        cases h
        rfl
      | some info => simp [Display.Process, herr, isEOS, isReleaseFrame] at h
    | some frame =>
      cases pInfo with
      | none =>
        rw [Display.Process_of_release X E d frame err herr] at h
        cases h
        simp
      | some info =>
        by_cases hdata : frame.bData = true
        · cases hpf : ((d.countConceal E err).resolveBitDepth info).ProcessFrame X frame info
              (d.resolveBitDepth info).iBitDepth with
          | error e =>
            rw [Display.Process_of_display_error X E d frame info err e herr hdata hpf] at h
            cases h
          | ok d1 =>
            rw [Display.Process_of_display X E d d1 frame info err herr hdata hpf] at h
            cases h
            have hd1 : d1.iBitDepth = d.iBitDepth := by
              rw [Display.ProcessFrame_ok X _ d1 frame info _ hpf]
              simp [Display.resolveBitDepth_iBitDepth, h0, h1]
            split_ifs <;> simp [hd1]
        · simp only [Bool.not_eq_true] at hdata
          simp [Display.Process, herr, isEOS, isReleaseFrame, hdata] at h

/-- A run of callback deliveries that returns leaves a bit depth other than 0 and -1 as it
is. -/
theorem Display.ProcessAll_iBitDepth_of_resolved (X : Externals) (E : ErrorCodes)
    (calls : List DisplayCall) :
    ∀ (d d2 : Display), d.iBitDepth ≠ 0 → d.iBitDepth ≠ -1 →
      d.ProcessAll X E calls = some d2 → d2.iBitDepth = d.iBitDepth := by
  induction calls with
  | nil =>
    intro d d2 _ _ h
    simp only [Display.ProcessAll, Option.some.injEq] at h
    rw [h]
  | cons c cs ih =>
    intro d d2 h0 h1 h
    simp only [Display.ProcessAll] at h
    cases hp : d.Process X E c.pFrame c.pInfo c.err with
    | none => simp [hp] at h
    | some d1 =>
      simp only [hp] at h
      have hb := Display.Process_iBitDepth_of_resolved X E d d1 _ _ _ h0 h1 hp
      rw [ih d1 d2 (hb ▸ h0) (hb ▸ h1) h, hb]

/-- The three outcomes of a display notification with the bit depth it is processed with:
the writer returns from `ProcessOutput` at that depth and its state is stored; the writer
does not return and neither does the callback; no writer is reached.  Whenever the
callback returns, the display holds the resolved depth. -/
theorem Display.Process_resolved (X : Externals) (E : ErrorCodes) (d : Display)
    (frame : AL_TBuffer) (info : AL_TInfoDecode) (err : Int) (bd : Int)
    (herr : E.AL_IS_ERROR_CODE err = false) (hdata : frame.bData = true)
    (hbd : (d.resolveBitDepth info).iBitDepth = bd) :
    (∀ w w2 : UncompressedOutputWriter,
        d.writers.lookup info.eFbStorageMode = some w → d.FirstFrame ≤ d.NumFrames →
        w.ProcessOutput X frame info bd = Except.ok w2 →
        ∃ d2, d.Process X E (some frame) (some info) err = some d2
          ∧ d2.iBitDepth = bd
          ∧ d2.writers
              = d.writers.map (fun kv =>
                  if kv.1 = info.eFbStorageMode then (kv.1, w2) else kv))
      ∧ (∀ (w : UncompressedOutputWriter) (e : ConvertError),
        d.writers.lookup info.eFbStorageMode = some w → d.FirstFrame ≤ d.NumFrames →
        w.ProcessOutput X frame info bd = Except.error e →
        d.Process X E (some frame) (some info) err = none)
      ∧ (d.writers.lookup info.eFbStorageMode = none ∨ d.NumFrames < d.FirstFrame →
        ∃ d2, d.Process X E (some frame) (some info) err = some d2
          ∧ d2.iBitDepth = bd
          ∧ d2.writers = d.writers) := by
  subst hbd
  refine ⟨?_, ?_, ?_⟩
  · intro w w2 hw hn hout
    refine ⟨_, Display.Process_of_writer_ok X E d frame info err w w2 herr hdata hw hn hout, ?_⟩
    split_ifs
    · exact ⟨by simpa using Display.resolveBitDepth_countConceal E d info err, by simp⟩
    · exact ⟨Display.resolveBitDepth_countConceal E d info err, rfl⟩
  · intro w e hw hn hout
    exact Display.Process_of_writer_error X E d frame info err w e herr hdata hw hn hout
  · intro hw
    refine ⟨_, Display.Process_of_no_writer X E d frame info err herr hdata hw, ?_⟩
    split_ifs
    · exact ⟨by simpa using Display.resolveBitDepth_countConceal E d info err, by simp⟩
    · exact ⟨Display.resolveBitDepth_countConceal E d info err, by simp⟩

/-- Claim C11: `SafeChannelMain` stores the configured value in the display.  A display
notification (picture with data, info, frame error not classified as an error) is
processed with the output bit depth resolved from the value of the display: 0 becomes the
maximum of the luma and chroma bit depths of its info, -1 becomes the maximum bit depth of
the decoder, any other value is kept.  That value is the one `ProcessOutput` of the writer
is called with: when the writer returns, its state after that call is stored and the
display holds the resolved value; when the writer throws or fails an assertion at that
depth, the callback does not return; when no writer is reached the display holds the
resolved value all the same.  From a display whose value is neither 0 nor -1, after any
run of callback deliveries the value is the same, and the next display notification is
processed with it, in the same three ways, whatever bit depths its info reports. -/
theorem Display_Process_resolves_bit_depth (X : Externals) (E : ErrorCodes) (d d0 d3 : Display)
    (frame frame2 : AL_TBuffer) (info info2 : AL_TInfoDecode) (err err2 : Int)
    (calls : List DisplayCall) (hDec : AL_HDecoder) (eMain : AL_EFbStorageMode)
    (bEnableYUVOutput bCertCRC bHdrFile : Bool) (sMainOut sCrc : String)
    (iBitDepth iMaxFrames : Int)
    (herr : E.AL_IS_ERROR_CODE err = false) (hdata : frame.bData = true)
    (h0 : d0.iBitDepth ≠ 0) (h1 : d0.iBitDepth ≠ -1)
    (hall : d0.ProcessAll X E calls = some d3)
    (herr2 : E.AL_IS_ERROR_CODE err2 = false) (hdata2 : frame2.bData = true) :
    (SafeChannelMain.display hDec eMain bEnableYUVOutput bCertCRC sMainOut sCrc iBitDepth
        iMaxFrames bHdrFile).iBitDepth = iBitDepth
      ∧ (∀ w w2 : UncompressedOutputWriter,
          d.writers.lookup info.eFbStorageMode = some w → d.FirstFrame ≤ d.NumFrames →
          w.ProcessOutput X frame info
              (if d.iBitDepth = 0 then ((max info.uBitDepthY info.uBitDepthC : Nat) : Int)
               else if d.iBitDepth = -1 then AL_Decoder_GetMaxBD d.hDec else d.iBitDepth)
            = Except.ok w2 →
          ∃ d2, d.Process X E (some frame) (some info) err = some d2
            ∧ d2.iBitDepth
                = (if d.iBitDepth = 0 then ((max info.uBitDepthY info.uBitDepthC : Nat) : Int)
                   else if d.iBitDepth = -1 then AL_Decoder_GetMaxBD d.hDec else d.iBitDepth)
            ∧ d2.writers
                = d.writers.map (fun kv =>
                    if kv.1 = info.eFbStorageMode then (kv.1, w2) else kv))
      ∧ (∀ (w : UncompressedOutputWriter) (e : ConvertError),
          d.writers.lookup info.eFbStorageMode = some w → d.FirstFrame ≤ d.NumFrames →
          w.ProcessOutput X frame info
              (if d.iBitDepth = 0 then ((max info.uBitDepthY info.uBitDepthC : Nat) : Int)
               else if d.iBitDepth = -1 then AL_Decoder_GetMaxBD d.hDec else d.iBitDepth)
            = Except.error e →
          d.Process X E (some frame) (some info) err = none)
      ∧ (d.writers.lookup info.eFbStorageMode = none ∨ d.NumFrames < d.FirstFrame →
          ∃ d2, d.Process X E (some frame) (some info) err = some d2
            ∧ d2.iBitDepth
                = (if d.iBitDepth = 0 then ((max info.uBitDepthY info.uBitDepthC : Nat) : Int)
                   else if d.iBitDepth = -1 then AL_Decoder_GetMaxBD d.hDec else d.iBitDepth)
            ∧ d2.writers = d.writers)
      ∧ d3.iBitDepth = d0.iBitDepth
      ∧ (∀ w w2 : UncompressedOutputWriter,
          d3.writers.lookup info2.eFbStorageMode = some w → d3.FirstFrame ≤ d3.NumFrames →
          w.ProcessOutput X frame2 info2 d0.iBitDepth = Except.ok w2 →
          ∃ d4, d3.Process X E (some frame2) (some info2) err2 = some d4
            ∧ d4.iBitDepth = d0.iBitDepth
            ∧ d4.writers
                = d3.writers.map (fun kv =>
                    if kv.1 = info2.eFbStorageMode then (kv.1, w2) else kv))
      ∧ (∀ (w : UncompressedOutputWriter) (e : ConvertError),
          d3.writers.lookup info2.eFbStorageMode = some w → d3.FirstFrame ≤ d3.NumFrames →
          w.ProcessOutput X frame2 info2 d0.iBitDepth = Except.error e →
          d3.Process X E (some frame2) (some info2) err2 = none)
      ∧ (d3.writers.lookup info2.eFbStorageMode = none ∨ d3.NumFrames < d3.FirstFrame →
          ∃ d4, d3.Process X E (some frame2) (some info2) err2 = some d4
            ∧ d4.iBitDepth = d0.iBitDepth
            ∧ d4.writers = d3.writers) := by
  have h3 := Display.ProcessAll_iBitDepth_of_resolved X E calls d0 d3 h0 h1 hall
  have hfirst := Display.Process_resolved X E d frame info err _ herr hdata
    (Display.resolveBitDepth_iBitDepth d info)
  have hnext := Display.Process_resolved X E d3 frame2 info2 err2 d0.iBitDepth herr2 hdata2 (by
    rw [Display.resolveBitDepth_iBitDepth, h3, if_neg h0, if_neg h1])
  exact ⟨rfl, hfirst.1, hfirst.2.1, hfirst.2.2, h3, hnext.1, hnext.2.1, hnext.2.2⟩

/-- Witness for C11: a display configured with 0 resolves to 10 on a picture with 10-bit
luma and writes it with two bytes a sample; the display configured with 8 keeps 8 through
two notifications and writes a picture reported as 10-bit with 8 bits; a display
configured with 12 hands 12 to the writer, which has no conversion of the 8-bit picture
to 12 bits, and the callback does not return. -/
theorem Display_Process_resolves_bit_depth_witness :
    (SafeChannelMain.display ⟨12, []⟩ 0 true false "dec.yuv" "" 0 5 false).iBitDepth = 0
      ∧ (∃ d2, autoDepthDisplay.Process sampleExternals sampleErrorCodes (some sampleFrame)
            (some sampleInfo10) 0 = some d2
        ∧ d2.iBitDepth = 10
        ∧ d2.writers
            = [(0, ⟨some [⟨AL_PLANE_Y, 768⟩], none, none, some sampleConverted10⟩)])
      ∧ sampleDisplayAfterTwo.iBitDepth = 8
      ∧ (∃ d4, sampleDisplayAfterTwo.Process sampleExternals sampleErrorCodes
            (some sampleFrame) (some sampleInfo10) 0 = some d4
        ∧ d4.iBitDepth = 8
        ∧ d4.writers
            = [(0, ⟨some [⟨AL_PLANE_Y, 384⟩, ⟨AL_PLANE_Y, 384⟩, ⟨AL_PLANE_Y, 384⟩], none, none,
                some sampleConverted⟩)])
      ∧ deepDisplay.Process sampleExternals sampleErrorCodes (some sampleFrame)
          (some (sampleInfo 0)) 0 = none := by
  have h := Display_Process_resolves_bit_depth sampleExternals sampleErrorCodes
    autoDepthDisplay sampleDisplay sampleDisplayAfterTwo sampleFrame sampleFrame sampleInfo10
    sampleInfo10 0 0 [sampleCall, sampleCall] ⟨12, []⟩ 0 true false false "dec.yuv" "" 0 5
    (by decide) (by decide) (by decide) (by decide) rfl (by decide) (by decide)
  have h12 := Display_Process_resolves_bit_depth sampleExternals sampleErrorCodes
    deepDisplay sampleDisplay sampleDisplayAfterTwo sampleFrame sampleFrame (sampleInfo 0)
    sampleInfo10 0 0 [sampleCall, sampleCall] ⟨12, []⟩ 0 true false false "dec.yuv" "" 0 5
    (by decide) (by decide) (by decide) (by decide) rfl (by decide) (by decide)
  refine ⟨h.1, ?_, h.2.2.2.2.1, ?_, ?_⟩
  · exact h.2.1 sampleWriter ⟨some [⟨AL_PLANE_Y, 768⟩], none, none, some sampleConverted10⟩
      rfl (by decide) rfl
  · exact h.2.2.2.2.2.1
      ⟨some [⟨AL_PLANE_Y, 384⟩, ⟨AL_PLANE_Y, 384⟩], none, none, some sampleConverted⟩
      ⟨some [⟨AL_PLANE_Y, 384⟩, ⟨AL_PLANE_Y, 384⟩, ⟨AL_PLANE_Y, 384⟩], none, none,
        some sampleConverted⟩
      rfl (by decide) rfl
  · exact h12.2.2.1 sampleWriter ConvertError.assertFailed rfl (by decide) rfl

/-! ## Theorems: reuse of the conversion buffer -/

/-- The buffer created by the allocation block has the dimensions of the source. -/
theorem ConvertFrameBuffer.allocate_tDim (X : Externals) (input res : AL_TBuffer) (iBdOut : Int)
    (h : ConvertFrameBuffer.allocate X input iBdOut = Except.ok res) :
    res.tDim = input.tDim := by
  unfold ConvertFrameBuffer.allocate at h
  simp only at h
  split_ifs at h
  all_goals first
    | (cases h; done)
    | (cases h; rfl)

/-- Claim C19: for a supported conversion, `ConvertFrameBuffer` keeps the existing
destination buffer, with no call to the buffer library, when its width and height both
equal the source's; when they do not it destroys that buffer and creates exactly one new
one, and when there is none it creates exactly one; the buffer it returns is then the
created one and is not the old one.  After every call that returns the destination has
the dimensions of the source. -/
theorem ConvertFrameBuffer_reuse (X : Externals) (input : AL_TBuffer)
    (pOutput : Option AL_TBuffer) (iBdOut : Int) (r : AL_TO_IP)
    (hconv : GetConversionFunction X.enc input.tFourCC iBdOut.toNat = some r)
    (hbd : 0 ≤ iBdOut) :
    (∀ out, pOutput = some out →
        input.tDim.iWidth = out.tDim.iWidth ∧ input.tDim.iHeight = out.tDim.iHeight →
        ConvertFrameBuffer X input pOutput iBdOut = Except.ok (out, r)
          ∧ ConvertFrameBuffer.bufferCalls input pOutput iBdOut = [])
      ∧ (∀ out, pOutput = some out →
        ¬ (input.tDim.iWidth = out.tDim.iWidth ∧ input.tDim.iHeight = out.tDim.iHeight) →
        ConvertFrameBuffer X input pOutput iBdOut
            = (ConvertFrameBuffer.allocate X input iBdOut).map (fun b => (b, r))
          ∧ ConvertFrameBuffer.bufferCalls input pOutput iBdOut
            = [BufferCall.AL_Buffer_Destroy out,
               BufferCall.AL_PixMapBuffer_Create input.tDim
                 ⟨input.tFourCC.eChromaMode, (iBdOut % 256).toNat, false⟩]
          ∧ ∀ res r2, ConvertFrameBuffer X input pOutput iBdOut = Except.ok (res, r2) →
              res ≠ out)
      ∧ (pOutput = none →
        ConvertFrameBuffer X input pOutput iBdOut
            = (ConvertFrameBuffer.allocate X input iBdOut).map (fun b => (b, r))
          ∧ ConvertFrameBuffer.bufferCalls input pOutput iBdOut
            = [BufferCall.AL_PixMapBuffer_Create input.tDim
                 ⟨input.tFourCC.eChromaMode, (iBdOut % 256).toNat, false⟩])
      ∧ (∀ res r2, ConvertFrameBuffer X input pOutput iBdOut = Except.ok (res, r2) →
        res.tDim = input.tDim) := by
  have hneg : ¬ iBdOut < 0 := by omega
  -- the three shapes of the call
  have hkeep : ∀ out, pOutput = some out →
      input.tDim.iWidth = out.tDim.iWidth ∧ input.tDim.iHeight = out.tDim.iHeight →
      ConvertFrameBuffer X input pOutput iBdOut = Except.ok (out, r) := by
    intro out hp hd
    have hc : ¬ (input.tDim.iWidth ≠ out.tDim.iWidth ∨ input.tDim.iHeight ≠ out.tDim.iHeight) := by
      simp [hd.1, hd.2]
    subst hp
    unfold ConvertFrameBuffer
    simp only [if_neg hc, hconv, hneg, if_false]
  have hnew : ∀ out, pOutput = some out →
      ¬ (input.tDim.iWidth = out.tDim.iWidth ∧ input.tDim.iHeight = out.tDim.iHeight) →
      ConvertFrameBuffer X input pOutput iBdOut
        = (ConvertFrameBuffer.allocate X input iBdOut).map (fun b => (b, r)) := by
    intro out hp hd
    have hc : input.tDim.iWidth ≠ out.tDim.iWidth ∨ input.tDim.iHeight ≠ out.tDim.iHeight := by
      by_contra hcon
      push_neg at hcon
      exact hd hcon
    subst hp
    unfold ConvertFrameBuffer
    simp only [if_pos hc]
    cases ConvertFrameBuffer.allocate X input iBdOut with
    | error e => rfl
    | ok b => simp only [hconv, hneg, if_false]; rfl
  have hnone : pOutput = none →
      ConvertFrameBuffer X input pOutput iBdOut
        = (ConvertFrameBuffer.allocate X input iBdOut).map (fun b => (b, r)) := by
    intro hp
    subst hp
    unfold ConvertFrameBuffer
    simp only
    cases ConvertFrameBuffer.allocate X input iBdOut with
    | error e => rfl
    | ok b => simp only [hconv, hneg, if_false]; rfl
  have hmap : ∀ res r2,
      (ConvertFrameBuffer.allocate X input iBdOut).map (fun b => (b, r)) = Except.ok (res, r2) →
      ConvertFrameBuffer.allocate X input iBdOut = Except.ok res := by
    intro res r2 h
    cases ha : ConvertFrameBuffer.allocate X input iBdOut with
    | error e => rw [ha] at h; cases h
    | ok b =>
      rw [ha] at h
      cases h
      rfl
  refine ⟨?_, ?_, ?_, ?_⟩
  · intro out hp hd
    refine ⟨hkeep out hp hd, ?_⟩
    have hc : ¬ (input.tDim.iWidth ≠ out.tDim.iWidth ∨ input.tDim.iHeight ≠ out.tDim.iHeight) := by
      simp [hd.1, hd.2]
    subst hp
    simp [ConvertFrameBuffer.bufferCalls, hc]
  · intro out hp hd
    have hc : input.tDim.iWidth ≠ out.tDim.iWidth ∨ input.tDim.iHeight ≠ out.tDim.iHeight := by
      by_contra hcon
      push_neg at hcon
      exact hd hcon
    refine ⟨hnew out hp hd, ?_, ?_⟩
    · subst hp
      simp [ConvertFrameBuffer.bufferCalls, hc, AL_GetChromaMode]
    · intro res r2 h hres
      rw [hnew out hp hd] at h
      have ht := ConvertFrameBuffer.allocate_tDim X input res iBdOut (hmap res r2 h)
      rw [hres] at ht
      exact hd ⟨by rw [ht], by rw [ht]⟩
  · intro hp
    refine ⟨hnone hp, ?_⟩
    subst hp
    simp [ConvertFrameBuffer.bufferCalls, AL_GetChromaMode]
  · intro res r2 h
    cases hp : pOutput with
    | none =>
      rw [hnone hp] at h
      exact ConvertFrameBuffer.allocate_tDim X input res iBdOut (hmap res r2 h)
    | some out =>
      by_cases hd : input.tDim.iWidth = out.tDim.iWidth ∧ input.tDim.iHeight = out.tDim.iHeight
      · rw [hkeep out hp hd] at h
        cases h
        cases hi : input.tDim
        cases ho : res.tDim
        rw [hi, ho] at hd
        simp only at hd
        rw [hd.1, hd.2]
      · rw [hnew out hp hd] at h
        exact ConvertFrameBuffer.allocate_tDim X input res iBdOut (hmap res r2 h)

/-- Witness for C19: the 16x16 picture converted into an existing 16x16 destination. -/
theorem ConvertFrameBuffer_reuse_witness :
    (∀ out, some sampleFrame = some out →
        sampleFrame.tDim.iWidth = out.tDim.iWidth
          ∧ sampleFrame.tDim.iHeight = out.tDim.iHeight →
        ConvertFrameBuffer sampleExternals sampleFrame (some sampleFrame) 8
            = Except.ok (out, NV12_To_I420)
          ∧ ConvertFrameBuffer.bufferCalls sampleFrame (some sampleFrame) 8 = [])
      ∧ (∀ out, some sampleFrame = some out →
        ¬ (sampleFrame.tDim.iWidth = out.tDim.iWidth
            ∧ sampleFrame.tDim.iHeight = out.tDim.iHeight) →
        ConvertFrameBuffer sampleExternals sampleFrame (some sampleFrame) 8
            = (ConvertFrameBuffer.allocate sampleExternals sampleFrame 8).map
                (fun b => (b, NV12_To_I420))
          ∧ ConvertFrameBuffer.bufferCalls sampleFrame (some sampleFrame) 8
            = [BufferCall.AL_Buffer_Destroy out,
               BufferCall.AL_PixMapBuffer_Create sampleFrame.tDim
                 ⟨sampleFrame.tFourCC.eChromaMode, ((8 : Int) % 256).toNat, false⟩]
          ∧ ∀ res r2, ConvertFrameBuffer sampleExternals sampleFrame (some sampleFrame) 8
                = Except.ok (res, r2) →
              res ≠ out)
      ∧ ((some sampleFrame : Option AL_TBuffer) = none →
        ConvertFrameBuffer sampleExternals sampleFrame (some sampleFrame) 8
            = (ConvertFrameBuffer.allocate sampleExternals sampleFrame 8).map
                (fun b => (b, NV12_To_I420))
          ∧ ConvertFrameBuffer.bufferCalls sampleFrame (some sampleFrame) 8
            = [BufferCall.AL_PixMapBuffer_Create sampleFrame.tDim
                 ⟨sampleFrame.tFourCC.eChromaMode, ((8 : Int) % 256).toNat, false⟩])
      ∧ (∀ res r2, ConvertFrameBuffer sampleExternals sampleFrame (some sampleFrame) 8
            = Except.ok (res, r2) →
        res.tDim = sampleFrame.tDim) :=
  ConvertFrameBuffer_reuse sampleExternals sampleFrame (some sampleFrame) 8 NV12_To_I420
    (by decide) (by decide)

/-! ## Theorems: the CRC line -/

/-- The loop of `sConfigureDecBufPool` in packed mode: the pool is untouched, the plane
descriptions are appended at running offsets and the offset advances by the total size. -/
theorem sConfigureDecBufPool.foldl_packed (X : DecExternals) (tPicFormat : AL_TPicFormat)
    (tDim : AL_TDimension) (iPitchY : Int) (planes : List AL_EPlaneId) :
    ∀ st : ConfigureState,
      planes.foldl (sConfigureDecBufPool.step X false tPicFormat tDim iPitchY
          (X.AL_GetDecFourCC tPicFormat)) st
        = { SrcBufPool := st.SrcBufPool
            vPlaneDesc := st.vPlaneDesc
              ++ specPackedPlanes X tPicFormat tDim iPitchY planes st.iOffset
            iOffset := st.iOffset
              + (planes.map (specPlaneSize X tPicFormat tDim iPitchY)).sum } := by
  induction planes with
  | nil =>
    intro st
    simp [specPackedPlanes]
  | cons plane rest ih =>
    intro st
    rw [List.foldl_cons, ih]
    simp only [sConfigureDecBufPool.step, specPackedPlanes, specPlaneSize, specPlanePitch,
      List.map_cons, List.sum_cons, List.append_assoc, List.singleton_append,
      Bool.false_eq_true, if_false]
    congr 1
    ring

/-- The loop of `sConfigureDecBufPool` in multi-chunk mode: one chunk is added per plane
and each iteration starts and ends with no pending plane and offset 0. -/
theorem sConfigureDecBufPool.foldl_multi (X : DecExternals) (tPicFormat : AL_TPicFormat)
    (tDim : AL_TDimension) (iPitchY : Int) (planes : List AL_EPlaneId) :
    ∀ pool : PixMapBufPool,
      planes.foldl (sConfigureDecBufPool.step X true tPicFormat tDim iPitchY
          (X.AL_GetDecFourCC tPicFormat)) { SrcBufPool := pool, vPlaneDesc := [], iOffset := 0 }
        = { SrcBufPool := ⟨pool.calls ++ specPlaneChunks X tPicFormat tDim iPitchY planes⟩
            vPlaneDesc := []
            iOffset := 0 } := by
  induction planes with
  | nil =>
    intro pool
    simp [specPlaneChunks]
  | cons plane rest ih =>
    intro pool
    rw [List.foldl_cons]
    have hstep : sConfigureDecBufPool.step X true tPicFormat tDim iPitchY
        (X.AL_GetDecFourCC tPicFormat) { SrcBufPool := pool, vPlaneDesc := [], iOffset := 0 }
        plane
        = { SrcBufPool := ⟨pool.calls ++ specPlaneChunks X tPicFormat tDim iPitchY [plane]⟩
            vPlaneDesc := []
            iOffset := 0 } := by
      simp [sConfigureDecBufPool.step, specPlaneChunks, specPlaneSize, specPlanePitch]
    rw [hstep, ih]
    simp [specPlaneChunks]

/-- The offsets of the packed layout are the running sums of the sizes of the planes
before each plane. -/
theorem specPackedPlanes_offsets (X : DecExternals) (tPicFormat : AL_TPicFormat)
    (tDim : AL_TDimension) (iPitchY : Int) (planes : List AL_EPlaneId) :
    ∀ offset : Int,
      (specPackedPlanes X tPicFormat tDim iPitchY planes offset).map (fun d => d.iOffset)
        = (List.range planes.length).map fun i =>
            offset + ((planes.take i).map (specPlaneSize X tPicFormat tDim iPitchY)).sum := by
  induction planes with
  | nil =>
    intro offset
    simp [specPackedPlanes]
  | cons plane rest ih =>
    intro offset
    rw [List.length_cons, List.range_succ_eq_map]
    simp only [specPackedPlanes, List.map_cons, List.map_map, ih, List.take_zero, List.map_nil,
      List.sum_nil, add_zero]
    congr 1
    apply List.map_congr_left
    intro i _
    simp only [Function.comp, List.take_succ_cons, List.map_cons, List.sum_cons]
    ring

/-- The packed layout keeps the plane identifiers and pitches, in order. -/
theorem specPackedPlanes_ids (X : DecExternals) (tPicFormat : AL_TPicFormat)
    (tDim : AL_TDimension) (iPitchY : Int) (planes : List AL_EPlaneId) :
    ∀ offset : Int,
      (specPackedPlanes X tPicFormat tDim iPitchY planes offset).map
          (fun d => (d.ePlaneId, d.iPitch))
        = planes.map fun plane =>
            (plane, specPlanePitch X (X.AL_GetDecFourCC tPicFormat) iPitchY plane) := by
  induction planes with
  | nil =>
    intro offset
    simp [specPackedPlanes]
  | cons plane rest ih =>
    intro offset
    simp [specPackedPlanes, ih]

/-- The history of the pool after `sConfigureDecBufPool` in packed mode. -/
theorem sConfigureDecBufPool_calls_packed (X : DecExternals) (SrcBufPool : PixMapBufPool)
    (tPicFormat : AL_TPicFormat) (tDim : AL_TDimension) (iPitchY : Int) :
    (sConfigureDecBufPool X false SrcBufPool tPicFormat tDim iPitchY).1.calls
      = SrcBufPool.calls
        ++ [PoolCall.SetFormat tDim (X.AL_GetDecFourCC tPicFormat),
            PoolCall.AddChunk
              (((X.AL_Plane_GetBufferPixelPlanes tPicFormat.eChromaOrder).map
                (specPlaneSize X tPicFormat tDim iPitchY)).sum)
              (specPackedPlanes X tPicFormat tDim iPitchY
                (X.AL_Plane_GetBufferPixelPlanes tPicFormat.eChromaOrder) 0)] := by
  simp [sConfigureDecBufPool, sConfigureDecBufPool.foldl_packed]

/-- The history of the pool after `sConfigureDecBufPool` in multi-chunk mode. -/
theorem sConfigureDecBufPool_calls_multi (X : DecExternals) (SrcBufPool : PixMapBufPool)
    (tPicFormat : AL_TPicFormat) (tDim : AL_TDimension) (iPitchY : Int) :
    (sConfigureDecBufPool X true SrcBufPool tPicFormat tDim iPitchY).1.calls
      = SrcBufPool.calls
        ++ PoolCall.SetFormat tDim (X.AL_GetDecFourCC tPicFormat)
          :: specPlaneChunks X tPicFormat tDim iPitchY
              (X.AL_Plane_GetBufferPixelPlanes tPicFormat.eChromaOrder) := by
  simp [sConfigureDecBufPool, sConfigureDecBufPool.foldl_multi]

/-- Claim C18: `sConfigureDecBufPool` sets the format and then, in packed mode, adds one
chunk whose size is the sum of the plane sizes and whose planes sit at the running sums
of the sizes of the planes before them; in multi-chunk mode it adds one chunk per plane,
of exactly the size of the plane, with the plane at offset 0.  Both modes describe the
same plane identifiers with the same pitches, in the same order, and the multi-chunk
sizes sum to the packed chunk size. -/
theorem sConfigureDecBufPool_same_planes (X : DecExternals) (SrcBufPool : PixMapBufPool)
    (tPicFormat : AL_TPicFormat) (tDim : AL_TDimension) (iPitchY : Int) :
    (sConfigureDecBufPool X false SrcBufPool tPicFormat tDim iPitchY).1.calls
        = SrcBufPool.calls
          ++ [PoolCall.SetFormat tDim (X.AL_GetDecFourCC tPicFormat),
              PoolCall.AddChunk
                (((X.AL_Plane_GetBufferPixelPlanes tPicFormat.eChromaOrder).map
                  (specPlaneSize X tPicFormat tDim iPitchY)).sum)
                (specPackedPlanes X tPicFormat tDim iPitchY
                  (X.AL_Plane_GetBufferPixelPlanes tPicFormat.eChromaOrder) 0)]
      ∧ (sConfigureDecBufPool X true SrcBufPool tPicFormat tDim iPitchY).1.calls
        = SrcBufPool.calls
          ++ PoolCall.SetFormat tDim (X.AL_GetDecFourCC tPicFormat)
            :: specPlaneChunks X tPicFormat tDim iPitchY
                (X.AL_Plane_GetBufferPixelPlanes tPicFormat.eChromaOrder)
      ∧ (specPackedPlanes X tPicFormat tDim iPitchY
            (X.AL_Plane_GetBufferPixelPlanes tPicFormat.eChromaOrder) 0).map
          (fun d => (d.ePlaneId, d.iPitch))
        = ((specPlaneChunks X tPicFormat tDim iPitchY
            (X.AL_Plane_GetBufferPixelPlanes tPicFormat.eChromaOrder)).flatMap
              PoolCall.chunkPlanes).map (fun d => (d.ePlaneId, d.iPitch))
      ∧ (specPackedPlanes X tPicFormat tDim iPitchY
            (X.AL_Plane_GetBufferPixelPlanes tPicFormat.eChromaOrder) 0).map
          (fun d => (d.ePlaneId, d.iPitch))
        = (X.AL_Plane_GetBufferPixelPlanes tPicFormat.eChromaOrder).map (fun plane =>
            (plane, specPlanePitch X (X.AL_GetDecFourCC tPicFormat) iPitchY plane))
      ∧ (specPackedPlanes X tPicFormat tDim iPitchY
            (X.AL_Plane_GetBufferPixelPlanes tPicFormat.eChromaOrder) 0).map
          (fun d => d.iOffset)
        = (List.range (X.AL_Plane_GetBufferPixelPlanes tPicFormat.eChromaOrder).length).map
            (fun i => (((X.AL_Plane_GetBufferPixelPlanes tPicFormat.eChromaOrder).take i).map
              (specPlaneSize X tPicFormat tDim iPitchY)).sum)
      ∧ ((specPlaneChunks X tPicFormat tDim iPitchY
            (X.AL_Plane_GetBufferPixelPlanes tPicFormat.eChromaOrder)).flatMap
              PoolCall.chunkPlanes).map (fun d => d.iOffset)
        = List.replicate (X.AL_Plane_GetBufferPixelPlanes tPicFormat.eChromaOrder).length 0
      ∧ ((specPlaneChunks X tPicFormat tDim iPitchY
            (X.AL_Plane_GetBufferPixelPlanes tPicFormat.eChromaOrder)).map
              PoolCall.chunkSize).sum
        = ((X.AL_Plane_GetBufferPixelPlanes tPicFormat.eChromaOrder).map
            (specPlaneSize X tPicFormat tDim iPitchY)).sum := by
  have hchunkPlanes : ∀ planes : List AL_EPlaneId,
      (specPlaneChunks X tPicFormat tDim iPitchY planes).flatMap PoolCall.chunkPlanes
        = planes.map fun plane =>
            ⟨plane, 0, specPlanePitch X (X.AL_GetDecFourCC tPicFormat) iPitchY plane⟩ := by
    intro planes
    induction planes with
    | nil => rfl
    | cons plane rest ih =>
      simp only [specPlaneChunks, List.map_cons, List.flatMap_cons, PoolCall.chunkPlanes,
        List.singleton_append] at ih ⊢
      exact congrArg _ ih
  have hchunkSize : ∀ planes : List AL_EPlaneId,
      (specPlaneChunks X tPicFormat tDim iPitchY planes).map PoolCall.chunkSize
        = planes.map (specPlaneSize X tPicFormat tDim iPitchY) := by
    intro planes
    simp [specPlaneChunks, PoolCall.chunkSize, Function.comp_def]
  refine ⟨?_, ?_, ?_, specPackedPlanes_ids X tPicFormat tDim iPitchY _ 0, ?_, ?_, ?_⟩
  · exact sConfigureDecBufPool_calls_packed X SrcBufPool tPicFormat tDim iPitchY
  · exact sConfigureDecBufPool_calls_multi X SrcBufPool tPicFormat tDim iPitchY
  · rw [specPackedPlanes_ids, hchunkPlanes]
    simp [Function.comp_def]
  · rw [specPackedPlanes_offsets]
    simp
  · rw [hchunkPlanes]
    simp [Function.comp_def]
  · rw [hchunkSize]

/-! ## Theorems: the resolution callback -/

/-- The seeding loop of `sResolutionFound`, when the pool has a buffer at each of its
`k` iterations: `k` calls of `GetBuffer` are made and the `k` buffers are handed to the
decoder in order. -/
theorem sResolutionFound.seed_eq (X : DecExternals) (bAddHDRMetaData : Bool) :
    ∀ (k : Nat) (buf : Nat → AL_TBuffer) (bufPool : PixMapBufPool) (hDec : AL_HDecoder),
      (∀ i, i < k →
        X.GetBuffer ⟨bufPool.calls ++ List.replicate i PoolCall.GetBuffer⟩ = some (buf i)) →
      sResolutionFound.seed X bAddHDRMetaData k bufPool hDec
        = some (⟨bufPool.calls ++ List.replicate k PoolCall.GetBuffer⟩,
            { hDec with
              displayPictures := hDec.displayPictures
                ++ (List.range k).map fun i =>
                    sResolutionFound.handed X bAddHDRMetaData (buf i) }) := by
  intro k
  induction k with
  | zero =>
    intro buf bufPool hDec _
    simp [sResolutionFound.seed]
  | succ k ih =>
    intro buf bufPool hDec hget
    have h0 : X.GetBuffer bufPool = some (buf 0) := by
      have h := hget 0 (Nat.succ_pos k)
      simpa using h
    have hrest : ∀ i, i < k →
        X.GetBuffer ⟨(⟨bufPool.calls ++ [PoolCall.GetBuffer]⟩ : PixMapBufPool).calls
          ++ List.replicate i PoolCall.GetBuffer⟩ = some (buf (i + 1)) := by
      intro i hi
      have h := hget (i + 1) (Nat.succ_lt_succ hi)
      simpa [List.replicate_succ] using h
    rw [sResolutionFound.seed, h0]
    simp only []
    rw [ih (fun i => buf (i + 1)) _ _ hrest]
    simp [AL_Decoder_PutDisplayPicture, sResolutionFound.handed, List.replicate_succ,
      List.range_succ_eq_map, Function.comp_def]

/-- A value below `2 ^ 31` is unchanged by the conversion to `int`. -/
theorem toInt32_of_lt (u : Nat) (hu : u < 2 ^ 31) : toInt32 u = (u : Int) := by
  unfold toInt32
  have h : u % 2 ^ 32 = u := Nat.mod_eq_of_lt (by omega)
  rw [h, if_pos hu]

/-- For a requested count `n` with `n + 1` in the range of `int`, `iNumBuf` is `n + 1`. -/
theorem sResolutionFound.iNumBuf_eq (n : Nat) (hn : n + 1 < 2 ^ 31) :
    sResolutionFound.iNumBuf (n : Int) = ((n + 1 : Nat) : Int) := by
  unfold sResolutionFound.iNumBuf uDefaultNumBuffersHeldByNextComponent
  have h1 : toUInt32 (n : Int) = n := by
    have h := toUInt32_of_lt (n : Int) (by omega) (by omega)
    exact_mod_cast h
  rw [h1, Nat.mod_eq_of_lt (by omega), toInt32_of_lt _ hn]

/-- Claim C12: with a live decoder handle and an initialised pool, and the size check of
the callback holding, `sResolutionFound` returns `AL_SUCCESS` and leaves the user
parameter as it was: the history of the pool gets no `SetFormat`, `AddChunk`, `Init` or
`GetBuffer` call, the decoder receives no buffer and `bPoolIsInit` stays true.  Hence a
second delivery of the same notification leaves the state of the first; and whatever the
size check says, a result that is returned is this one. -/
theorem sResolutionFound_idempotent (X : DecExternals) (g_MultiChunk : Bool)
    (BufferNumber BufferSizeLib : Int) (pSettings : AL_TStreamSettings) (p : ResChgParam)
    (hDec : AL_HDecoder) (hlive : p.hDec = some hDec) (hinit : p.bPoolIsInit = true)
    (hsize : BufferSizeLib ≤ sResolutionFound.frameSize X pSettings p) :
    sResolutionFound X g_MultiChunk BufferNumber BufferSizeLib pSettings p
        = some (AL_ERR.AL_SUCCESS, p)
      ∧ ((sResolutionFound X g_MultiChunk BufferNumber BufferSizeLib pSettings p).bind
          fun r => sResolutionFound X g_MultiChunk BufferNumber BufferSizeLib pSettings r.2)
        = sResolutionFound X g_MultiChunk BufferNumber BufferSizeLib pSettings p
      ∧ ∀ BufferSizeLib2 r,
          sResolutionFound X g_MultiChunk BufferNumber BufferSizeLib2 pSettings p = some r →
          r = (AL_ERR.AL_SUCCESS, p) := by
  have hone : ∀ B : Int, B ≤ sResolutionFound.frameSize X pSettings p →
      sResolutionFound X g_MultiChunk BufferNumber B pSettings p
        = some (AL_ERR.AL_SUCCESS, p) := by
    intro B hB
    unfold sResolutionFound.frameSize at hB
    obtain ⟨h, b, bufPool, pDecSettings, bAddHDRMetaData⟩ := p
    simp only at hlive hinit hB
    subst hlive hinit
    simp only [sResolutionFound, if_true]
    rw [if_neg (not_lt.mpr hB)]
  refine ⟨hone _ hsize, ?_, ?_⟩
  · rw [hone _ hsize]
    simp only [Option.some_bind]
    exact hone _ hsize
  · intro B r hr
    by_cases hB : B ≤ sResolutionFound.frameSize X pSettings p
    · rw [hone B hB] at hr
      exact (Option.some.inj hr).symm
    · exfalso
      unfold sResolutionFound.frameSize at hB
      simp only [sResolutionFound, hlive, hinit, if_true] at hr
      rw [if_pos (not_le.mp hB)] at hr
      cases hr

/-- Witness for C12: a second notification on the initialised sample pool. -/
theorem sResolutionFound_idempotent_witness :
    sResolutionFound sampleDecExternals false 2 6144 sampleStreamSettings
          (sampleResChgParam true)
        = some (AL_ERR.AL_SUCCESS, sampleResChgParam true)
      ∧ ((sResolutionFound sampleDecExternals false 2 6144 sampleStreamSettings
            (sampleResChgParam true)).bind
          fun r => sResolutionFound sampleDecExternals false 2 6144 sampleStreamSettings r.2)
        = sResolutionFound sampleDecExternals false 2 6144 sampleStreamSettings
            (sampleResChgParam true)
      ∧ ∀ BufferSizeLib2 r,
          sResolutionFound sampleDecExternals false 2 BufferSizeLib2 sampleStreamSettings
              (sampleResChgParam true) = some r →
          r = (AL_ERR.AL_SUCCESS, sampleResChgParam true) :=
  sResolutionFound_idempotent sampleDecExternals false 2 6144 sampleStreamSettings
    (sampleResChgParam true) ⟨8, []⟩ rfl rfl (by decide)

/-- Claim C13: on a pool that is not initialised, with a live decoder handle, a requested
count `n ≥ 0` with `n + 1` in the range of `int`, the size check of the callback holding,
`Init` succeeding and the pool giving a buffer at each request, `sResolutionFound`
returns `AL_SUCCESS` with `bPoolIsInit` true; the pool is configured, then initialised
with exactly `n + 1` buffers, then asked for exactly `n + 1` buffers, and these `n + 1`
buffers are handed to the decoder in order, each through `AddHDRMetaData` exactly when
`bAddHDRMetaData` is set. -/
theorem sResolutionFound_first_notification (X : DecExternals) (g_MultiChunk : Bool)
    (n : Nat) (BufferSizeLib : Int) (pSettings : AL_TStreamSettings) (p : ResChgParam)
    (hDec : AL_HDecoder) (buf : Nat → AL_TBuffer)
    (hlive : p.hDec = some hDec) (hinit : p.bPoolIsInit = false)
    (hn : n + 1 < 2 ^ 31)
    (hsize : BufferSizeLib ≤ (sResolutionFound.configured X g_MultiChunk pSettings p).2)
    (hInit : X.Init (sResolutionFound.configured X g_MultiChunk pSettings p).1
      ((n + 1 : Nat) : Int) = true)
    (hget : ∀ i, i < n + 1 →
      X.GetBuffer ⟨(sResolutionFound.configured X g_MultiChunk pSettings p).1.calls
        ++ PoolCall.Init ((n + 1 : Nat) : Int) :: List.replicate i PoolCall.GetBuffer⟩
        = some (buf i)) :
    sResolutionFound X g_MultiChunk (n : Int) BufferSizeLib pSettings p
        = some (AL_ERR.AL_SUCCESS,
            { p with
              bPoolIsInit := true
              bufPool := ⟨(sResolutionFound.configured X g_MultiChunk pSettings p).1.calls
                ++ PoolCall.Init ((n + 1 : Nat) : Int)
                  :: List.replicate (n + 1) PoolCall.GetBuffer⟩
              hDec := some
                { hDec with
                  displayPictures := hDec.displayPictures
                    ++ (List.range (n + 1)).map fun i =>
                        sResolutionFound.handed X p.bAddHDRMetaData (buf i) } })
      ∧ ((List.range (n + 1)).map fun i =>
            sResolutionFound.handed X p.bAddHDRMetaData (buf i)).length = n + 1
      ∧ (p.bAddHDRMetaData = false →
          ((List.range (n + 1)).map fun i =>
            sResolutionFound.handed X p.bAddHDRMetaData (buf i))
            = (List.range (n + 1)).map buf)
      ∧ (p.bAddHDRMetaData = true →
          ((List.range (n + 1)).map fun i =>
            sResolutionFound.handed X p.bAddHDRMetaData (buf i))
            = (List.range (n + 1)).map fun i => AddHDRMetaData X (buf i)) := by
  refine ⟨?_, by simp, ?_, ?_⟩
  · have hnum := sResolutionFound.iNumBuf_eq n hn
    unfold sResolutionFound.iNumBuf at hnum
    unfold sResolutionFound.configured at hsize hInit hget
    have hseed := sResolutionFound.seed_eq X p.bAddHDRMetaData (n + 1) buf
      ⟨(sResolutionFound.configured X g_MultiChunk pSettings p).1.calls
        ++ [PoolCall.Init ((n + 1 : Nat) : Int)]⟩ hDec
      (by
        intro i hi
        have h := hget i hi
        unfold sResolutionFound.configured
        simpa using h)
    unfold sResolutionFound.configured at hseed
    simp only [sResolutionFound, hlive, hinit, Bool.false_eq_true, if_false]
    rw [if_neg (not_lt.mpr hsize), hnum, hInit]
    simp only [Bool.true_eq_false, if_false, Int.toNat_ofNat]
    rw [hseed]
    simp [sResolutionFound.configured]
  · intro h
    simp [sResolutionFound.handed, h]
  · intro h
    simp [sResolutionFound.handed, h]

/-- Witness for C13: the first notification on the sample pool with two requested
buffers: three buffers are handed to the decoder, each with HDR metadata. -/
theorem sResolutionFound_first_notification_witness :
    sResolutionFound sampleDecExternals false 2 6144 sampleStreamSettings
        (sampleResChgParam false)
      = some (AL_ERR.AL_SUCCESS,
          { hDec := some ⟨8, [{ sampleFrame with bHDR := true },
              { sampleFrame with bHDR := true }, { sampleFrame with bHDR := true }]⟩
            bPoolIsInit := true
            bufPool := ⟨[PoolCall.SetFormat ⟨64, 64⟩ ⟨AL_CHROMA_4_2_0, 8, false⟩,
              PoolCall.AddChunk 6144
                [⟨AL_PLANE_Y, 0, 64⟩, ⟨AL_EPlaneId.other 3, 4096, 64⟩],
              PoolCall.Init 3, PoolCall.GetBuffer, PoolCall.GetBuffer, PoolCall.GetBuffer]⟩
            pDecSettings := ⟨0, false⟩
            bAddHDRMetaData := true }) :=
  (sResolutionFound_first_notification sampleDecExternals false 2 6144 sampleStreamSettings
    (sampleResChgParam false) ⟨8, []⟩ (fun _ => sampleFrame) rfl rfl (by decide)
    (by decide) rfl (fun _ _ => rfl)).1

/-- Claim C14: with a null decoder handle `sResolutionFound` returns `AL_ERROR` and
leaves the user parameter, so the pool and `bPoolIsInit`, as it was.  With a live handle
and a pool that is not initialised, when the size check holds and `Init` fails, it
returns `AL_ERR_NO_MEMORY`; `bPoolIsInit` stays false, the decoder is the one it was, so
it received no buffer, and the pool was configured and asked to initialise but never
asked for a buffer. -/
theorem sResolutionFound_failures (X : DecExternals) (g_MultiChunk : Bool)
    (BufferNumber BufferSizeLib : Int) (pSettings : AL_TStreamSettings) (p : ResChgParam) :
    (p.hDec = none →
        sResolutionFound X g_MultiChunk BufferNumber BufferSizeLib pSettings p
          = some (AL_ERR.AL_ERROR, p))
      ∧ (∀ hDec, p.hDec = some hDec → p.bPoolIsInit = false →
          BufferSizeLib ≤ (sResolutionFound.configured X g_MultiChunk pSettings p).2 →
          X.Init (sResolutionFound.configured X g_MultiChunk pSettings p).1
            (sResolutionFound.iNumBuf BufferNumber) = false →
          ∃ p2, sResolutionFound X g_MultiChunk BufferNumber BufferSizeLib pSettings p
              = some (AL_ERR.AL_ERR_NO_MEMORY, p2)
            ∧ p2.bPoolIsInit = false
            ∧ p2.hDec = some hDec
            ∧ p2.bufPool.calls
              = (sResolutionFound.configured X g_MultiChunk pSettings p).1.calls
                ++ [PoolCall.Init (sResolutionFound.iNumBuf BufferNumber)]
            ∧ PoolCall.GetBuffer ∉ p2.bufPool.calls.drop p.bufPool.calls.length) := by
  constructor
  · intro hnull
    simp [sResolutionFound, hnull]
  · intro hDec hlive hinit hsize hInit
    unfold sResolutionFound.configured at hsize hInit
    unfold sResolutionFound.iNumBuf at hInit
    refine ⟨{ p with
        bufPool := ⟨(sResolutionFound.configured X g_MultiChunk pSettings p).1.calls
          ++ [PoolCall.Init (sResolutionFound.iNumBuf BufferNumber)]⟩ }, ?_, hinit, hlive, rfl,
      ?_⟩
    · simp only [sResolutionFound, hlive, hinit, Bool.false_eq_true, if_false]
      rw [if_neg (not_lt.mpr hsize), hInit]
      simp [sResolutionFound.configured, sResolutionFound.iNumBuf]
    · have hconf : ∃ added : List PoolCall,
          (sResolutionFound.configured X g_MultiChunk pSettings p).1.calls
            = p.bufPool.calls ++ added ∧ PoolCall.GetBuffer ∉ added := by
        unfold sResolutionFound.configured
        cases g_MultiChunk
        · exact ⟨_, (sConfigureDecBufPool_calls_packed X p.bufPool _ _ _), by simp⟩
        · exact ⟨_, (sConfigureDecBufPool_calls_multi X p.bufPool _ _ _),
            by simp [specPlaneChunks]⟩
      obtain ⟨added, hadded, hno⟩ := hconf
      simp only [hadded, List.append_assoc, List.drop_left]
      simp [hno]

/-- Witness for C14: the null handle, and the sample pool refusing 17 buffers. -/
theorem sResolutionFound_failures_witness :
    sResolutionFound sampleDecExternals false 16 6144 sampleStreamSettings nullResChgParam
        = some (AL_ERR.AL_ERROR, nullResChgParam)
      ∧ ∃ p2, sResolutionFound sampleDecExternals false 16 6144 sampleStreamSettings
              (sampleResChgParam false)
          = some (AL_ERR.AL_ERR_NO_MEMORY, p2)
        ∧ p2.bPoolIsInit = false
        ∧ p2.hDec = some ⟨8, []⟩
        ∧ p2.bufPool.calls
          = (sResolutionFound.configured sampleDecExternals false sampleStreamSettings
              (sampleResChgParam false)).1.calls
            ++ [PoolCall.Init (sResolutionFound.iNumBuf 16)]
        ∧ PoolCall.GetBuffer
            ∉ p2.bufPool.calls.drop (sampleResChgParam false).bufPool.calls.length :=
  ⟨(sResolutionFound_failures sampleDecExternals false 16 6144 sampleStreamSettings
      nullResChgParam).1 rfl,
    (sResolutionFound_failures sampleDecExternals false 16 6144 sampleStreamSettings
      (sampleResChgParam false)).2 ⟨8, []⟩ rfl rfl (by decide) (by decide)⟩

/-! ## Theorems: the pre-allocation arguments -/

/-- The character of a decimal digit is read back as that digit, and is neither
whitespace nor a sign. -/
theorem decimalDigit_spec (d : Nat) (hd : d < 10) :
    digitValue (decimalDigit d) = some d ∧ isspace (decimalDigit d) = false
      ∧ decimalDigit d ≠ '-' ∧ decimalDigit d ≠ '+'
      ∧ (decimalDigit d = '0' ↔ d = 0) := by
  interval_cases d <;> decide

/-- Reading the digits of base 10 consumes a decimal numeral and accumulates its value. -/
theorem stringstream.digits_decimal (rest : List Char) :
    ∀ (ds : List Nat), (∀ d ∈ ds, d < 10) → ∀ value count : Nat,
      stringstream.digits 10 (ds.map decimalDigit ++ rest) value count
        = stringstream.digits 10 rest (ds.foldl (fun a d => a * 10 + d) value)
            (count + ds.length) := by
  intro ds
  induction ds with
  | nil =>
    intro _ value count
    simp
  | cons d ds ih =>
    intro hds value count
    have hd : d < 10 := hds d (List.mem_cons_self _ _)
    have hrest : ∀ e ∈ ds, e < 10 := fun e he => hds e (List.mem_cons_of_mem _ he)
    rw [List.map_cons, List.cons_append, stringstream.digits, (decimalDigit_spec d hd).1]
    simp only [hd, if_true]
    rw [ih hrest, List.foldl_cons, List.length_cons]
    congr 1
    omega

/-- Reading digits stops at once at the end of the string and at a character that is
not a digit. -/
theorem stringstream.digits_stop (base : Nat) (rest : List Char)
    (hend : ∀ c ∈ rest.head?, digitValue c = none) (value count : Nat) :
    stringstream.digits base rest value count = (value, count, rest) := by
  cases rest with
  | nil => rfl
  | cons c rest =>
    have h : digitValue c = none := hend c (by simp)
    rw [stringstream.digits, h]

/-- The value accumulated from the digits of a number, most significant first, is the
number. -/
theorem foldl_digits_reverse (n : Nat) :
    (Nat.digits 10 n).reverse.foldl (fun a d => a * 10 + d) 0 = n := by
  rw [List.foldl_reverse]
  conv_rhs => rw [← Nat.ofDigits_digits 10 n]
  rw [Nat.ofDigits_eq_foldr]
  congr 1
  funext d a
  simp [Nat.mul_comm, Nat.add_comm]

/-- The numeral of a positive number starts with a digit from 1 to 9. -/
theorem decimal_pos (n : Nat) (hn : 0 < n) :
    ∃ d ds, 0 < d ∧ d < 10 ∧ (∀ e ∈ ds, e < 10)
      ∧ (Nat.digits 10 n).reverse = d :: ds
      ∧ decimal n = decimalDigit d :: ds.map decimalDigit := by
  have hne : n ≠ 0 := Nat.pos_iff_ne_zero.1 hn
  have hnil : Nat.digits 10 n ≠ [] := Nat.digits_ne_nil_iff_ne_zero.2 hne
  have hlast := Nat.getLast_digit_ne_zero 10 hne
  have hall : ∀ e ∈ (Nat.digits 10 n).reverse, e < 10 := fun e he =>
    Nat.digits_lt_base (by norm_num) (List.mem_reverse.1 he)
  cases hrev : (Nat.digits 10 n).reverse with
  | nil => exact absurd (List.reverse_eq_nil_iff.1 hrev) hnil
  | cons d ds =>
    rw [hrev] at hall
    have hd0 : d ≠ 0 := by
      have h1 : (Nat.digits 10 n).getLast hnil = d := by
        have h2 : Nat.digits 10 n = (d :: ds).reverse := by
          rw [← hrev, List.reverse_reverse]
        simp [h2]
      rw [← h1]
      exact hlast
    refine ⟨d, ds, Nat.pos_of_ne_zero hd0, hall d (List.mem_cons_self _ _),
      fun e he => hall e (List.mem_cons_of_mem _ he), rfl, ?_⟩
    simp [decimal, hne, hrev]

/-- The base of a field that does not start with `0` is 10 and nothing is consumed. -/
theorem stringstream.base_of_ne_zero (c : Char) (rest : List Char) (hc : c ≠ '0') :
    stringstream.base (c :: rest) = (10, false, c :: rest) := by
  cases rest <;> simp [stringstream.base, hc]

/-- The sentry lets a good stream that starts with a character other than whitespace
through, unchanged. -/
theorem stringstream.sentry_cons (c : Char) (rest : List Char) (hc : isspace c = false) :
    stringstream.sentry ⟨c :: rest, false, false⟩ = (⟨c :: rest, false, false⟩, true) := by
  simp [stringstream.sentry, List.dropWhile, hc]

/-- On a good stream that starts with a character other than whitespace, `>>` into a
`char` reads that character. -/
theorem stringstream.extractChar_cons (c c0 : Char) (rest : List Char)
    (hc : isspace c = false) :
    stringstream.extractChar ⟨c :: rest, false, false⟩ c0 = (⟨rest, false, false⟩, c) := by
  simp [stringstream.extractChar, stringstream.sentry_cons c rest hc]

/-- On a good stream that starts with the decimal numeral of a positive `int`, followed
by the end of the string or by a character that is not a digit, `>>` into an `int` reads
the number and stops after the numeral; `eofbit` is set exactly at the end of the
string. -/
theorem stringstream.extractInt_decimal (n : Nat) (rest : List Char) (n0 : Int)
    (hn : 0 < n) (hmax : n < 2 ^ 31) (hend : ∀ c ∈ rest.head?, digitValue c = none) :
    stringstream.extractInt ⟨decimal n ++ rest, false, false⟩ n0
      = (⟨rest, false, rest.isEmpty⟩, (n : Int)) := by
  obtain ⟨d, ds, hd0, hd, hds, hrev, hdec⟩ := decimal_pos n hn
  obtain ⟨hval, hsp, hminus, hplus, hzero⟩ := decimalDigit_spec d hd
  have hz : decimalDigit d ≠ '0' := fun h => (Nat.ne_of_gt hd0) (hzero.1 h)
  have hfold : (d :: ds).foldl (fun a e => a * 10 + e) 0 = n := by
    rw [← hrev]
    exact foldl_digits_reverse n
  have hdigits : stringstream.digits 10 (decimalDigit d :: (ds.map decimalDigit ++ rest)) 0 0
      = (n, 0 + (d :: ds).length, rest) := by
    have h := stringstream.digits_decimal rest (d :: ds)
      (by
        intro e he
        rcases List.mem_cons.1 he with h | h
        · rw [h]; exact hd
        · exact hds e h) 0 0
    rw [List.map_cons, List.cons_append, hfold] at h
    rw [h, stringstream.digits_stop 10 rest hend]
  rw [hdec, List.cons_append, stringstream.extractInt, stringstream.sentry_cons _ _ hsp]
  simp only [stringstream.sign, hminus, hplus, if_false,
    stringstream.base_of_ne_zero _ _ hz, hdigits]
  have hlim : n ≤ 2147483647 := by omega
  simp [hlim]

/-- On a good stream that starts with the decimal numeral of an `int`, followed by the
end of the string or by a character that is neither a digit nor `x` nor `X`, `>>` into
an `int` reads the number and stops after the numeral. -/
theorem stringstream.extractInt_decimalInt (v : Int) (rest : List Char) (n0 : Int)
    (hmin : -2 ^ 31 ≤ v) (hmax : v < 2 ^ 31)
    (hend : ∀ c ∈ rest.head?, digitValue c = none ∧ c ≠ 'x' ∧ c ≠ 'X') :
    stringstream.extractInt ⟨decimalInt v ++ rest, false, false⟩ n0
      = (⟨rest, false, rest.isEmpty⟩, v) := by
  have hend1 : ∀ c ∈ rest.head?, digitValue c = none := fun c hc => (hend c hc).1
  rcases lt_trichotomy v 0 with hneg | hzero | hpos
  · obtain ⟨m, hm⟩ : ∃ m : Nat, v = -(m : Int) := ⟨(-v).toNat, by omega⟩
    subst hm
    have hm0 : 0 < m := by omega
    have hlim : m ≤ 2147483648 := by omega
    obtain ⟨d, ds, hd0, hd, hds, hrev, hdec⟩ := decimal_pos m hm0
    obtain ⟨hval, hsp, hminus, hplus, hzero⟩ := decimalDigit_spec d hd
    have hz : decimalDigit d ≠ '0' := fun h => (Nat.ne_of_gt hd0) (hzero.1 h)
    have hfold : (d :: ds).foldl (fun a e => a * 10 + e) 0 = m := by
      rw [← hrev]
      exact foldl_digits_reverse _
    have hdigits :
        stringstream.digits 10 (decimalDigit d :: (ds.map decimalDigit ++ rest)) 0 0
          = (m, 0 + (d :: ds).length, rest) := by
      have h := stringstream.digits_decimal rest (d :: ds)
        (by
          intro e he
          rcases List.mem_cons.1 he with h | h
          · rw [h]; exact hd
          · exact hds e h) 0 0
      rw [List.map_cons, List.cons_append, hfold] at h
      rw [h, stringstream.digits_stop 10 rest hend1]
    have hsm : isspace '-' = false := by decide
    have hdv : decimalInt (-(m : Int)) = '-' :: decimal m := by
      have h1 : (-(-(m : Int))).toNat = m := by omega
      simp only [decimalInt, hneg, if_true, h1]
    have hsign : stringstream.sign ('-' :: decimalDigit d :: (ds.map decimalDigit ++ rest))
        = (true, decimalDigit d :: (ds.map decimalDigit ++ rest)) := by
      simp [stringstream.sign]
    rw [hdv, hdec, List.cons_append, stringstream.extractInt, stringstream.sentry_cons _ _ hsm]
    simp only [List.cons_append, hsign, stringstream.base_of_ne_zero _ _ hz, hdigits]
    simp [hlim]
  · subst hzero
    have hs0 : isspace '0' = false := by decide
    have hdv : decimalInt 0 = ['0'] := by decide
    rw [hdv, List.singleton_append, stringstream.extractInt, stringstream.sentry_cons _ _ hs0]
    cases rest with
    | nil => simp [stringstream.sign, stringstream.base, stringstream.digits]
    | cons c rest =>
      obtain ⟨hc, hx, hX⟩ := hend c (by simp)
      simp [stringstream.sign, stringstream.base, stringstream.digits, hc, hx, hX]
  · have h := stringstream.extractInt_decimal v.toNat rest n0 (by omega) (by omega) hend1
    have hv : ((v.toNat : Nat) : Int) = v := by omega
    have hnot : ¬ v < 0 := by omega
    simp only [decimalInt, hnot, if_false]
    rw [h, hv]

/-- For a non-negative value `RoundUp` to 64 is the least multiple of 64 that is not
below the value. -/
theorem RoundUp_least (v : Int) (hv : 0 ≤ v) :
    64 ∣ RoundUp v 64 ∧ v ≤ RoundUp v 64 ∧ ∀ m : Int, 64 ∣ m → v ≤ m → RoundUp v 64 ≤ m := by
  have h : RoundUp v 64 = (v + 63) / 64 * 64 := by
    unfold RoundUp
    rw [Int.tdiv_eq_ediv (by omega) (by omega), show v + 64 - 1 = v + 63 by ring]
  rw [h]
  refine ⟨Dvd.intro_left _ rfl, by omega, ?_⟩
  rintro m ⟨k, rfl⟩ hm
  omega

/-- Rounding up to 64 gives a positive value exactly for a positive value. -/
theorem RoundUp_pos_iff (v : Int) : 0 < RoundUp v 64 ↔ 0 < v := by
  unfold RoundUp
  rcases le_or_lt 0 (v + 64 - 1) with h | h
  · rw [Int.tdiv_eq_ediv h (by omega)]
    omega
  · have h2 : (v + 64 - 1).tdiv 64 = -((-(v + 64 - 1)).tdiv 64) := by
      rw [Int.neg_tdiv, neg_neg]
    rw [h2, Int.tdiv_eq_ediv (by omega) (by omega)]
    omega

/-- The tokens of the sequence modes are five characters other than whitespace and the
null character, and `parsePreAllocArgs` maps each to its mode. -/
theorem modeToken_spec (mode : AL_ESequenceMode)
    (hmode : mode ≠ AL_ESequenceMode.AL_SM_MAX_ENUM) :
    ∃ c0 c1 c2 c3 c4, modeToken mode = [c0, c1, c2, c3, c4]
      ∧ isspace c0 = false ∧ isspace c1 = false ∧ isspace c2 = false
      ∧ isspace c3 = false ∧ isspace c4 = false
      ∧ parsePreAllocArgs.mode (cstring [c0, c1, c2, c3, c4]) = some mode := by
  cases mode
  · exact ⟨'u', 'n', 'k', 'w', 'n', by decide⟩
  · exact ⟨'p', 'r', 'o', 'g', 'r', by decide⟩
  · exact ⟨'i', 'n', 't', 'e', 'r', by decide⟩
  · exact absurd rfl hmode

/-- The tokens of the chroma modes are three characters other than whitespace and the
null character, and `parsePreAllocArgs` maps each to its mode. -/
theorem chromaToken_spec (chroma : AL_EChromaMode) :
    ∃ c0 c1 c2, chromaToken chroma = [c0, c1, c2]
      ∧ isspace c0 = false ∧ isspace c1 = false ∧ isspace c2 = false
      ∧ parsePreAllocArgs.chroma (cstring [c0, c1, c2]) = some chroma := by
  cases chroma
  · exact ⟨'4', '0', '0', by decide⟩
  · exact ⟨'4', '2', '0', by decide⟩
  · exact ⟨'4', '2', '2', by decide⟩
  · exact ⟨'4', '4', '4', by decide⟩

/-- On a good stream that starts with the expected separator, `getExpectedSeparator`
reads it and returns. -/
theorem getExpectedSeparator_cons (garbage sep : Char) (rest : List Char) (eof : Bool)
    (hsep : isspace sep = false) (heof : eof = false) :
    getExpectedSeparator garbage ⟨sep :: rest, false, eof⟩ sep
      = Except.ok ⟨rest, false, false⟩ := by
  subst heof
  simp [getExpectedSeparator, stringstream.extractChar_cons _ _ _ hsep]

/-- Claim C15: for positive `W`, `H`, `P`, `L`, a bit depth `B`, a sequence mode and a
chroma mode, all numbers within the range of `int` and `W + 63`, `H + 63` too, the string
`WxH:mode:chroma:B:P:L` with decimal numerals and the tokens `unkwn`, `progr`, `inter`
and `400`, `420`, `422`, `444` is accepted by `parsePreAllocArgs`, whatever the settings
held before: the width and height are the least multiples of 64 not below `W` and `H`,
the sequence mode and chroma are those of the tokens, and the bit depth, profile and
level are `B`, `P`, `L`. -/
theorem parsePreAllocArgs_well_formed (garbage : Nat → Char) (settings : AL_TStreamSettings)
    (W H : Nat) (mode : AL_ESequenceMode) (chroma : AL_EChromaMode) (B : Int) (P L : Nat)
    (hW : 0 < W) (hWmax : W + 63 < 2 ^ 31) (hH : 0 < H) (hHmax : H + 63 < 2 ^ 31)
    (hmode : mode ≠ AL_ESequenceMode.AL_SM_MAX_ENUM)
    (hBmin : -2 ^ 31 ≤ B) (hBmax : B < 2 ^ 31)
    (hP : 0 < P) (hPmax : P < 2 ^ 31) (hL : 0 < L) (hLmax : L < 2 ^ 31) :
    parsePreAllocArgs garbage settings (preallocString W H mode chroma B P L)
        = Except.ok
            { tDim := ⟨RoundUp W 64, RoundUp H 64⟩
              eChroma := some chroma
              iBitDepth := B
              iLevel := L
              iProfileIdc := P
              eSequenceMode := mode }
      ∧ (64 ∣ RoundUp W 64 ∧ (W : Int) ≤ RoundUp W 64
          ∧ ∀ m : Int, 64 ∣ m → (W : Int) ≤ m → RoundUp W 64 ≤ m)
      ∧ (64 ∣ RoundUp H 64 ∧ (H : Int) ≤ RoundUp H 64
          ∧ ∀ m : Int, 64 ∣ m → (H : Int) ≤ m → RoundUp H 64 ≤ m) := by
  refine ⟨?_, RoundUp_least W (by omega), RoundUp_least H (by omega)⟩
  obtain ⟨m0, m1, m2, m3, m4, hmt, hm0, hm1, hm2, hm3, hm4, hmv⟩ := modeToken_spec mode hmode
  obtain ⟨c0, c1, c2, hct, hc0, hc1, hc2, hcv⟩ := chromaToken_spec chroma
  have hx : isspace 'x' = false := by decide
  have hcolon : isspace ':' = false := by decide
  have hendx : ∀ (rest : List Char), ∀ c ∈ ('x' :: rest).head?, digitValue c = none := by
    intro rest c hc
    simp only [List.head?_cons, Option.mem_def, Option.some.injEq] at hc
    subst hc
    decide
  have hendc : ∀ (rest : List Char), ∀ c ∈ (':' :: rest).head?,
      digitValue c = none ∧ c ≠ 'x' ∧ c ≠ 'X' := by
    intro rest c hc
    simp only [List.head?_cons, Option.mem_def, Option.some.injEq] at hc
    subst hc
    decide
  have hendnil : ∀ c ∈ ([] : List Char).head?, digitValue c = none := by
    intro c hc
    simp at hc
  have hWpos : (0 : Int) < RoundUp W 64 := (RoundUp_pos_iff W).2 (by omega)
  have hHpos : (0 : Int) < RoundUp H 64 := (RoundUp_pos_iff H).2 (by omega)
  have hinv : invalidPreallocSettings
      { tDim := ⟨RoundUp W 64, RoundUp H 64⟩
        eChroma := some chroma
        iBitDepth := B
        iLevel := L
        iProfileIdc := P
        eSequenceMode := mode } = false := by
    have h1 : ¬ ((P : Int) ≤ 0) := by omega
    have h2 : ¬ ((L : Int) ≤ 0) := by omega
    have h3 : ¬ (RoundUp W 64 ≤ 0) := by omega
    have h4 : ¬ (RoundUp H 64 ≤ 0) := by omega
    simp [invalidPreallocSettings, h1, h2, h3, h4, hmode]
  unfold preallocString parsePreAllocArgs
  rw [hmt, hct]
  simp only [List.cons_append, List.nil_append, bind, Except.bind]
  rw [stringstream.extractInt_decimal W _ _ hW (by omega) (hendx _)]
  simp only [List.isEmpty_cons, getExpectedSeparator_cons _ _ _ _ hx rfl]
  rw [stringstream.extractInt_decimal H _ _ hH (by omega) (fun c hc => (hendc _ c hc).1)]
  simp only [List.isEmpty_cons, getExpectedSeparator_cons _ _ _ _ hcolon rfl,
    stringstream.extractChar_cons _ _ _ hm0, stringstream.extractChar_cons _ _ _ hm1,
    stringstream.extractChar_cons _ _ _ hm2, stringstream.extractChar_cons _ _ _ hm3,
    stringstream.extractChar_cons _ _ _ hm4, stringstream.extractChar_cons _ _ _ hc0,
    stringstream.extractChar_cons _ _ _ hc1, stringstream.extractChar_cons _ _ _ hc2]
  rw [stringstream.extractInt_decimalInt B _ _ hBmin hBmax (hendc _)]
  simp only [List.isEmpty_cons, getExpectedSeparator_cons _ _ _ _ hcolon rfl]
  rw [stringstream.extractInt_decimal P _ _ hP hPmax (fun c hc => (hendc _ c hc).1)]
  simp only [List.isEmpty_cons, getExpectedSeparator_cons _ _ _ _ hcolon rfl]
  have hlast := stringstream.extractInt_decimal L [] settings.iLevel hL hLmax hendnil
  rw [List.append_nil] at hlast
  rw [hlast]
  simp only [hcv, hmv, List.isEmpty_nil, Bool.not_true, Bool.or_self, Bool.false_eq_true,
    if_false, hinv]

/-- The function `parsePreAllocArgs` is its checks applied to its reads: skipping the
reads that follow a failed separator check changes nothing in the outcome. -/
theorem parsePreAllocArgs_eq_checks (garbage : Nat → Char) (settings : AL_TStreamSettings)
    (toParse : List Char) :
    parsePreAllocArgs garbage settings toParse
      = parsePreAllocArgs.checks (parsePreAllocArgs.reads garbage settings toParse) := by
  simp only [parsePreAllocArgs, parsePreAllocArgs.reads, getExpectedSeparator, bind,
    Except.bind]
  generalize stringstream.extractInt ⟨toParse, false, false⟩ settings.tDim.iWidth = a1
  generalize a1.1.extractChar (garbage 0) = a2
  by_cases h0 : a2.2 = 'x'
  swap
  · simp [parsePreAllocArgs.checks, h0]
  rw [if_neg (not_not.mpr h0)]
  simp only []
  generalize a2.1.extractInt settings.tDim.iHeight = a3
  generalize a3.1.extractChar (garbage 1) = a4
  by_cases h1 : a4.2 = ':'
  swap
  · simp [parsePreAllocArgs.checks, h1]
  rw [if_neg (not_not.mpr h1)]
  simp only []
  generalize a4.1.extractChar (Char.ofNat 0) = a5
  generalize a5.1.extractChar (Char.ofNat 0) = a6
  generalize a6.1.extractChar (Char.ofNat 0) = a7
  generalize a7.1.extractChar (Char.ofNat 0) = a8
  generalize a8.1.extractChar (Char.ofNat 0) = a9
  generalize a9.1.extractChar (garbage 2) = a10
  by_cases h2 : a10.2 = ':'
  swap
  · simp [parsePreAllocArgs.checks, h2]
  rw [if_neg (not_not.mpr h2)]
  simp only []
  generalize a10.1.extractChar (Char.ofNat 0) = a11
  generalize a11.1.extractChar (Char.ofNat 0) = a12
  generalize a12.1.extractChar (Char.ofNat 0) = a13
  generalize a13.1.extractChar (garbage 3) = a14
  by_cases h3 : a14.2 = ':'
  swap
  · simp [parsePreAllocArgs.checks, h3]
  rw [if_neg (not_not.mpr h3)]
  simp only []
  generalize a14.1.extractInt settings.iBitDepth = a15
  generalize a15.1.extractChar (garbage 4) = a16
  by_cases h4 : a16.2 = ':'
  swap
  · simp [parsePreAllocArgs.checks, h4]
  rw [if_neg (not_not.mpr h4)]
  simp only []
  generalize a16.1.extractInt settings.iProfileIdc = a17
  generalize a17.1.extractChar (garbage 5) = a18
  by_cases h5 : a18.2 = ':'
  swap
  · simp [parsePreAllocArgs.checks, h5]
  rw [if_neg (not_not.mpr h5)]
  simp only []
  generalize a18.1.extractInt settings.iLevel = a19
  simp only [parsePreAllocArgs.checks, parsePreAllocArgs.stored, h0, h1, h2, h3, h4, h5,
    and_self, if_true]

/-- Witness for C15: the string `1920x1080:progr:420:8:1:40` gives 1920 x 1088,
progressive, 4:2:0, 8 bits, profile 1, level 40. -/
theorem parsePreAllocArgs_well_formed_witness :
    parsePreAllocArgs (fun _ => 'x') samplePreallocSettings "1920x1080:progr:420:8:1:40".toList
      = Except.ok
          { tDim := ⟨1920, 1088⟩
            eChroma := some AL_CHROMA_4_2_0
            iBitDepth := 8
            iLevel := 40
            iProfileIdc := 1
            eSequenceMode := AL_ESequenceMode.AL_SM_PROGRESSIVE } := by
  have h := (parsePreAllocArgs_well_formed (fun _ => 'x') samplePreallocSettings 1920 1080
    AL_ESequenceMode.AL_SM_PROGRESSIVE AL_CHROMA_4_2_0 8 1 40 (by decide) (by decide)
    (by decide) (by decide) (by decide) (by decide) (by decide) (by decide) (by decide)
    (by decide) (by decide)).1
  have hs : preallocString 1920 1080 AL_ESequenceMode.AL_SM_PROGRESSIVE AL_CHROMA_4_2_0 8 1 40
      = "1920x1080:progr:420:8:1:40".toList := by
    simp [preallocString, decimal, decimalInt, modeToken, chromaToken, decimalDigit]
  rw [hs] at h
  exact h

/-- Claim C16: at each separator of the prealloc string, the `x` after the width and the
`:` after the height, the mode, the chroma, the bit depth and the profile, when the
value `sep` holds after the read is not the expected character, `parsePreAllocArgs`
throws the separator error; so settings are returned only when every separator is the
expected one.  On a good stream whose next character is not whitespace, the value of
`sep` is that character. -/
theorem parsePreAllocArgs_wrong_separator (garbage : Nat → Char)
    (settings : AL_TStreamSettings) (toParse : List Char) :
    ((parsePreAllocArgs.reads garbage settings toParse).sepWidth ≠ 'x'
        ∨ (parsePreAllocArgs.reads garbage settings toParse).sepHeight ≠ ':'
        ∨ (parsePreAllocArgs.reads garbage settings toParse).sepMode ≠ ':'
        ∨ (parsePreAllocArgs.reads garbage settings toParse).sepChroma ≠ ':'
        ∨ (parsePreAllocArgs.reads garbage settings toParse).sepBitDepth ≠ ':'
        ∨ (parsePreAllocArgs.reads garbage settings toParse).sepProfile ≠ ':' →
        parsePreAllocArgs garbage settings toParse
          = Except.error PreallocError.wrongSeparator)
      ∧ (∀ res, parsePreAllocArgs garbage settings toParse = Except.ok res →
        (parsePreAllocArgs.reads garbage settings toParse).sepWidth = 'x'
          ∧ (parsePreAllocArgs.reads garbage settings toParse).sepHeight = ':'
          ∧ (parsePreAllocArgs.reads garbage settings toParse).sepMode = ':'
          ∧ (parsePreAllocArgs.reads garbage settings toParse).sepChroma = ':'
          ∧ (parsePreAllocArgs.reads garbage settings toParse).sepBitDepth = ':'
          ∧ (parsePreAllocArgs.reads garbage settings toParse).sepProfile = ':')
      ∧ (∀ (c0 c expectedSep : Char) (rest : List Char), isspace c = false →
        (stringstream.extractChar ⟨c :: rest, false, false⟩ c0).2 = c
          ∧ (c ≠ expectedSep →
            getExpectedSeparator c0 ⟨c :: rest, false, false⟩ expectedSep
              = Except.error PreallocError.wrongSeparator)) := by
  rw [parsePreAllocArgs_eq_checks]
  generalize parsePreAllocArgs.reads garbage settings toParse = r
  refine ⟨?_, ?_, ?_⟩
  · intro h
    rw [parsePreAllocArgs.checks, if_neg]
    intro hall
    obtain ⟨h0, h1, h2, h3, h4, h5⟩ := hall
    rcases h with h | h | h | h | h | h
    · exact h h0
    · exact h h1
    · exact h h2
    · exact h h3
    · exact h h4
    · exact h h5
  · intro res hres
    rw [parsePreAllocArgs.checks] at hres
    by_contra hall
    rw [if_neg hall] at hres
    cases hres
  · intro c0 c expectedSep rest hc
    refine ⟨by rw [stringstream.extractChar_cons _ _ _ hc], ?_⟩
    intro hne
    simp [getExpectedSeparator, stringstream.extractChar_cons _ _ _ hc, hne]

/-- Witness for C16: a `;` after the height. -/
theorem parsePreAllocArgs_wrong_separator_witness :
    parsePreAllocArgs (fun _ => 'x') samplePreallocSettings "1920x1080;progr:420:8:1:40".toList
      = Except.error PreallocError.wrongSeparator :=
  (parsePreAllocArgs_wrong_separator (fun _ => 'x') samplePreallocSettings
    "1920x1080;progr:420:8:1:40".toList).1 (Or.inr (Or.inl (by decide)))

/-- Claim C17: `parsePreAllocArgs` throws when the text of `chroma` is not one of `400`,
`420`, `422`, `444`, when the text of `vm` is not one of `unkwn`, `progr`, `inter`, and
when the width, the height, the profile or the level read is not positive; rounding up
to 64 leaves a non-positive value non-positive.  Hence every settings value it returns
passes `invalidPreallocSettings`. -/
theorem parsePreAllocArgs_invalid (garbage : Nat → Char) (settings : AL_TStreamSettings)
    (toParse : List Char) :
    (cstring (parsePreAllocArgs.reads garbage settings toParse).chroma
          ∉ ["400".toList, "420".toList, "422".toList, "444".toList] →
        parsePreAllocArgs garbage settings toParse
            = Except.error PreallocError.wrongSeparator
          ∨ parsePreAllocArgs garbage settings toParse
            = Except.error PreallocError.wrongChromaFormat)
      ∧ (cstring (parsePreAllocArgs.reads garbage settings toParse).vm
          ∉ ["unkwn".toList, "progr".toList, "inter".toList] →
        parsePreAllocArgs garbage settings toParse
            = Except.error PreallocError.wrongSeparator
          ∨ parsePreAllocArgs garbage settings toParse
            = Except.error PreallocError.wrongChromaFormat
          ∨ parsePreAllocArgs garbage settings toParse
            = Except.error PreallocError.wrongVideoFormat)
      ∧ ((parsePreAllocArgs.reads garbage settings toParse).iWidth ≤ 0
          ∨ (parsePreAllocArgs.reads garbage settings toParse).iHeight ≤ 0
          ∨ (parsePreAllocArgs.reads garbage settings toParse).iProfileIdc ≤ 0
          ∨ (parsePreAllocArgs.reads garbage settings toParse).iLevel ≤ 0 →
        ∃ e, parsePreAllocArgs garbage settings toParse = Except.error e)
      ∧ (∀ v : Int, v ≤ 0 → RoundUp v 64 ≤ 0)
      ∧ (∀ res, parsePreAllocArgs garbage settings toParse = Except.ok res →
        invalidPreallocSettings res = false) := by
  have hround : ∀ v : Int, v ≤ 0 → RoundUp v 64 ≤ 0 := by
    intro v hv
    by_contra h
    exact absurd ((RoundUp_pos_iff v).1 (not_le.1 h)) (not_lt.2 hv)
  rw [parsePreAllocArgs_eq_checks]
  generalize parsePreAllocArgs.reads garbage settings toParse = r
  by_cases hsep : r.sepWidth = 'x' ∧ r.sepHeight = ':' ∧ r.sepMode = ':' ∧ r.sepChroma = ':'
      ∧ r.sepBitDepth = ':' ∧ r.sepProfile = ':'
  swap
  · have hchecks : parsePreAllocArgs.checks r = Except.error PreallocError.wrongSeparator := by
      rw [parsePreAllocArgs.checks, if_neg hsep]
    rw [hchecks]
    refine ⟨fun _ => Or.inl rfl, fun _ => Or.inl rfl, fun _ => ⟨_, rfl⟩, hround, ?_⟩
    intro res hres
    cases hres
  rw [parsePreAllocArgs.checks, if_pos hsep]
  refine ⟨?_, ?_, ?_, hround, ?_⟩
  · intro hc
    have hnone : parsePreAllocArgs.chroma (cstring r.chroma) = none := by
      simp only [List.mem_cons, List.mem_singleton, List.not_mem_nil, or_false, not_or] at hc
      simp only [parsePreAllocArgs.chroma, hc.1, hc.2.1, hc.2.2.1, hc.2.2.2, if_false]
    right
    rw [hnone]
  · intro hm
    have hnone : parsePreAllocArgs.mode (cstring r.vm) = none := by
      simp only [List.mem_cons, List.mem_singleton, List.not_mem_nil, or_false, not_or] at hm
      simp only [parsePreAllocArgs.mode, hm.1, hm.2.1, hm.2.2, if_false]
    right
    rw [hnone]
    cases parsePreAllocArgs.chroma (cstring r.chroma) with
    | none => exact Or.inl rfl
    | some eChroma => exact Or.inr rfl
  · intro hpos
    cases parsePreAllocArgs.chroma (cstring r.chroma) with
    | none => exact ⟨_, rfl⟩
    | some eChroma =>
      cases parsePreAllocArgs.mode (cstring r.vm) with
      | none => exact ⟨_, rfl⟩
      | some eSequenceMode =>
        have hinv : invalidPreallocSettings (parsePreAllocArgs.stored r eChroma eSequenceMode)
            = true := by
          simp only [invalidPreallocSettings, parsePreAllocArgs.stored, Bool.or_eq_true,
            decide_eq_true_eq]
          rcases hpos with h | h | h | h
          · exact Or.inl (Or.inl (Or.inl (Or.inr (hround _ h))))
          · exact Or.inl (Or.inl (Or.inr (hround _ h)))
          · exact Or.inl (Or.inl (Or.inl (Or.inl (Or.inl h))))
          · exact Or.inl (Or.inl (Or.inl (Or.inl (Or.inr h))))
        simp only [hinv, if_true]
        by_cases hfmt : (r.ss.failbit || !r.ss.eofbit) = true
        · rw [if_pos hfmt]
          exact ⟨_, rfl⟩
        · rw [if_neg hfmt]
          exact ⟨_, rfl⟩
  · intro res hres
    cases hc : parsePreAllocArgs.chroma (cstring r.chroma) with
    | none =>
      rw [hc] at hres
      cases hres
    | some eChroma =>
      cases hm : parsePreAllocArgs.mode (cstring r.vm) with
      | none =>
        rw [hc, hm] at hres
        cases hres
      | some eSequenceMode =>
        rw [hc, hm] at hres
        simp only at hres
        by_cases hfmt : (r.ss.failbit || !r.ss.eofbit) = true
        · rw [if_pos hfmt] at hres
          cases hres
        · rw [if_neg hfmt] at hres
          by_cases hinv : invalidPreallocSettings
              (parsePreAllocArgs.stored r eChroma eSequenceMode) = true
          · rw [if_pos hinv] at hres
            cases hres
          · rw [if_neg hinv] at hres
            cases hres
            simpa using hinv

/-- Witness for C17: the chroma token `421`, the mode token `prog:`, and a level 0. -/
theorem parsePreAllocArgs_invalid_witness :
    (parsePreAllocArgs (fun _ => 'x') samplePreallocSettings
          "1920x1080:progr:421:8:1:40".toList
        = Except.error PreallocError.wrongSeparator
      ∨ parsePreAllocArgs (fun _ => 'x') samplePreallocSettings
          "1920x1080:progr:421:8:1:40".toList
        = Except.error PreallocError.wrongChromaFormat)
      ∧ ∃ e, parsePreAllocArgs (fun _ => 'x') samplePreallocSettings
          "1920x1080:progr:420:8:1:0".toList = Except.error e :=
  ⟨(parsePreAllocArgs_invalid (fun _ => 'x') samplePreallocSettings
      "1920x1080:progr:421:8:1:40".toList).1 (by decide),
    (parsePreAllocArgs_invalid (fun _ => 'x') samplePreallocSettings
      "1920x1080:progr:420:8:1:0".toList).2.2.1 (Or.inr (Or.inr (Or.inr (by decide))))⟩

/-! ## Theorems: even output bit depth -/

/-- The 12-bit table has no entry for a key whose input depth is not 12. -/
theorem Get12BitsConversionFunction_of_ne (enc : AL_EChromaMode → Nat)
    (hinj : Function.Injective enc) (hlt : ∀ c, enc c < 256)
    (c : AL_EChromaMode) (iBdIn iBdOut : Nat) (hIn : iBdIn < 256) (hOut : iBdOut < 65536)
    (h12 : iBdIn ≠ 12) :
    Get12BitsConversionFunction enc (GetConvFormat (enc c) iBdIn iBdOut) = none := by
  have key : ∀ (c2 : AL_EChromaMode) (o2 : Nat), o2 ≤ 12 →
      ¬ GetConvFormat (enc c) iBdIn iBdOut = GetConvFormat (enc c2) 12 o2 := by
    intro c2 o2 h2 h
    exact h12 ((GetConvFormat_eq_iff enc hinj hlt c c2 iBdIn iBdOut 12 o2 hIn hOut
      (by omega) (by omega)).1 h).2.1
  simp only [Get12BitsConversionFunction, key _ 8 (by omega), key _ 10 (by omega),
    key _ 12 (by omega), if_false]

/-- Claim C27: a tiled source goes to `GetTileConversionFunction` with the key of its
chroma mode, its input depth and the output depth, whatever the input depth; an untiled
source goes to `Get8BitsConversionFunction` for the input depth 8, to
`Get10BitsConversionFunction` for 10 and to `Get12BitsConversionFunction` for every
other input depth.  For a byte-sized input depth and an output depth below `2 ^ 16` the
key is `chroma + 256 * input depth + 65536 * output depth`, and an untiled source whose
input depth is none of 8, 10, 12 finds no entry in the 12-bit table. -/
theorem GetConversionFunction_table_selection (enc : AL_EChromaMode → Nat)
    (c : AL_EChromaMode) (iBdIn iBdOut : Nat) :
    GetConversionFunction enc ⟨c, iBdIn, true⟩ iBdOut
        = GetTileConversionFunction enc (GetConvFormat (enc c) iBdIn iBdOut)
      ∧ GetConversionFunction enc ⟨c, 8, false⟩ iBdOut
        = Get8BitsConversionFunction enc (GetConvFormat (enc c) 8 iBdOut)
      ∧ GetConversionFunction enc ⟨c, 10, false⟩ iBdOut
        = Get10BitsConversionFunction enc (GetConvFormat (enc c) 10 iBdOut)
      ∧ (iBdIn ≠ 8 → iBdIn ≠ 10 →
        GetConversionFunction enc ⟨c, iBdIn, false⟩ iBdOut
          = Get12BitsConversionFunction enc (GetConvFormat (enc c) iBdIn iBdOut))
      ∧ (enc c < 256 → iBdIn < 256 → iBdOut < 65536 →
        GetConvFormat (enc c) iBdIn iBdOut = enc c + 256 * iBdIn + 65536 * iBdOut)
      ∧ (Function.Injective enc → (∀ c2, enc c2 < 256) → iBdIn < 256 → iBdOut < 65536 →
        iBdIn ≠ 8 → iBdIn ≠ 10 → iBdIn ≠ 12 →
        GetConversionFunction enc ⟨c, iBdIn, false⟩ iBdOut = none) := by
  have h12 : iBdIn ≠ 8 → iBdIn ≠ 10 →
      GetConversionFunction enc ⟨c, iBdIn, false⟩ iBdOut
        = Get12BitsConversionFunction enc (GetConvFormat (enc c) iBdIn iBdOut) := by
    intro h8 h10
    simp [GetConversionFunction, AL_GetChromaMode, AL_GetBitDepth, AL_IsTiled, h8, h10]
  refine ⟨?_, ?_, ?_, h12, ?_, ?_⟩
  · simp [GetConversionFunction, AL_GetChromaMode, AL_GetBitDepth, AL_IsTiled]
  · simp [GetConversionFunction, AL_GetChromaMode, AL_GetBitDepth, AL_IsTiled]
  · simp [GetConversionFunction, AL_GetChromaMode, AL_GetBitDepth, AL_IsTiled]
  · intro hc hi ho
    exact GetConvFormat_eq_sum _ _ _ hc hi ho
  · intro hinj hlt hi ho h8 h10 h12b
    rw [h12 h8 h10]
    exact Get12BitsConversionFunction_of_ne enc hinj hlt c iBdIn iBdOut hi ho h12b

/-- Witness for C27: an untiled 4:2:0 source of input depth 9 is looked up in the 12-bit
table, with the key `1 + 256 * 9 + 65536 * 8`, and finds nothing there. -/
theorem GetConversionFunction_table_selection_witness :
    GetConversionFunction chromaCode ⟨AL_CHROMA_4_2_0, 9, false⟩ 8
        = Get12BitsConversionFunction chromaCode (GetConvFormat (chromaCode AL_CHROMA_4_2_0) 9 8)
      ∧ GetConvFormat (chromaCode AL_CHROMA_4_2_0) 9 8
        = chromaCode AL_CHROMA_4_2_0 + 256 * 9 + 65536 * 8
      ∧ GetConversionFunction chromaCode ⟨AL_CHROMA_4_2_0, 9, false⟩ 8 = none :=
  ⟨(GetConversionFunction_table_selection chromaCode AL_CHROMA_4_2_0 9 8).2.2.2.1
      (by decide) (by decide),
    (GetConversionFunction_table_selection chromaCode AL_CHROMA_4_2_0 9 8).2.2.2.2.1
      (by decide) (by decide) (by decide),
    (GetConversionFunction_table_selection chromaCode AL_CHROMA_4_2_0 9 8).2.2.2.2.2
      (by intro a b h; cases a <;> cases b <;> simp_all [chromaCode])
      (by intro c; cases c <;> simp [chromaCode])
      (by decide) (by decide) (by decide) (by decide) (by decide)⟩

/-! ## Theorems: the size `sConfigureDecBufPool` returns -/

/-- The value `sConfigureDecBufPool` returns: in packed mode the sum of the allocation
sizes of the planes, in multi-chunk mode 0, the value `iOffset` is reset to after each
chunk. -/
theorem sConfigureDecBufPool_returned_size (X : DecExternals) (SrcBufPool : PixMapBufPool)
    (tPicFormat : AL_TPicFormat) (tDim : AL_TDimension) (iPitchY : Int) :
    (sConfigureDecBufPool X false SrcBufPool tPicFormat tDim iPitchY).2
        = ((X.AL_Plane_GetBufferPixelPlanes tPicFormat.eChromaOrder).map
            (specPlaneSize X tPicFormat tDim iPitchY)).sum
      ∧ (sConfigureDecBufPool X true SrcBufPool tPicFormat tDim iPitchY).2 = 0 := by
  constructor
  · simp [sConfigureDecBufPool, sConfigureDecBufPool.foldl_packed]
  · simp [sConfigureDecBufPool, sConfigureDecBufPool.foldl_multi]

/-- Evaluation for claim C29 on a 64x64 semi-planar 4:2:0 picture whose planes take 4096
and 2048 bytes: in packed mode `sConfigureDecBufPool` returns 6144, the sum of the plane
sizes, and `sResolutionFound` passes its check against a required size of 6144; in
multi-chunk mode `sConfigureDecBufPool` returns 0 and the same check fails. -/
theorem sConfigureDecBufPool_multi_chunk_returns_zero :
    ((sampleDecExternals.AL_Plane_GetBufferPixelPlanes 1).map
        (specPlaneSize sampleDecExternals ⟨AL_CHROMA_4_2_0, 8, 0, 1, false, false⟩
          ⟨64, 64⟩ 64)).sum = 6144
      ∧ (sConfigureDecBufPool sampleDecExternals false ⟨[]⟩
          ⟨AL_CHROMA_4_2_0, 8, 0, 1, false, false⟩ ⟨64, 64⟩ 64).2 = 6144
      ∧ (sConfigureDecBufPool sampleDecExternals true ⟨[]⟩
          ⟨AL_CHROMA_4_2_0, 8, 0, 1, false, false⟩ ⟨64, 64⟩ 64).2 = 0
      ∧ (sResolutionFound sampleDecExternals false 2 6144 sampleStreamSettings
          (sampleResChgParam false)).isSome = true
      ∧ sResolutionFound sampleDecExternals true 2 6144 sampleStreamSettings
          (sampleResChgParam false) = none := by
  refine ⟨?_, ?_, ?_, ?_, ?_⟩
  · decide
  · rfl
  · rfl
  · rfl
  · rfl

/-! ## Theorems: copy of the HDR SEIs -/

/-- Storing twice at one address keeps the second value. -/
theorem HDRMemory.store_store {MDCV CLL ATC ST2094_10 ST2094_40 : Type}
    (mem : HDRMemory MDCV CLL ATC ST2094_10 ST2094_40) (p : Nat)
    (v v2 : AL_THDRSEIs MDCV CLL ATC ST2094_10 ST2094_40) :
    (mem.store p v).store p v2 = mem.store p v2 := by
  funext q
  simp only [HDRMemory.store]
  split_ifs <;> rfl

/-- Storing at an address the value it holds changes nothing. -/
theorem HDRMemory.store_self {MDCV CLL ATC ST2094_10 ST2094_40 : Type}
    (mem : HDRMemory MDCV CLL ATC ST2094_10 ST2094_40) (p : Nat) :
    mem.store p (mem p) = mem := by
  funext q
  simp only [HDRMemory.store]
  split_ifs with h
  · rw [h]
  · rfl

/-- The five groups of statements of `AL_HDRSEIs_Copy`, each as one store. -/
theorem AL_HDRSEIs_Copy.groups {MDCV CLL ATC ST2094_10 ST2094_40 : Type}
    (mem : HDRMemory MDCV CLL ATC ST2094_10 ST2094_40) (pSrc pDst : Nat)
    (src dst : AL_THDRSEIs MDCV CLL ATC ST2094_10 ST2094_40)
    (hsrc : (mem.store pDst dst) pSrc = src) :
    AL_HDRSEIs_Copy.MDCV (mem.store pDst dst) pSrc pDst
        = mem.store pDst { dst with
            bHasMDCV := src.bHasMDCV
            tMDCV := if src.bHasMDCV then src.tMDCV else dst.tMDCV }
      ∧ AL_HDRSEIs_Copy.CLL (mem.store pDst dst) pSrc pDst
        = mem.store pDst { dst with
            bHasCLL := src.bHasCLL
            tCLL := if src.bHasCLL then src.tCLL else dst.tCLL }
      ∧ AL_HDRSEIs_Copy.ATC (mem.store pDst dst) pSrc pDst
        = mem.store pDst { dst with
            bHasATC := src.bHasATC
            tATC := if src.bHasATC then src.tATC else dst.tATC }
      ∧ AL_HDRSEIs_Copy.ST2094_10 (mem.store pDst dst) pSrc pDst
        = mem.store pDst { dst with
            bHasST2094_10 := src.bHasST2094_10
            tST2094_10 := if src.bHasST2094_10 then src.tST2094_10 else dst.tST2094_10 }
      ∧ AL_HDRSEIs_Copy.ST2094_40 (mem.store pDst dst) pSrc pDst
        = mem.store pDst { dst with
            bHasST2094_40 := src.bHasST2094_40
            tST2094_40 := if src.bHasST2094_40 then src.tST2094_40 else dst.tST2094_40 } := by
  have hd : (mem.store pDst dst) pDst = dst := by simp [HDRMemory.store]
  by_cases hs : pSrc = pDst
  · subst hs
    rw [hd] at hsrc
    subst hsrc
    refine ⟨?_, ?_, ?_, ?_, ?_⟩ <;>
    · simp only [AL_HDRSEIs_Copy.MDCV, AL_HDRSEIs_Copy.CLL, AL_HDRSEIs_Copy.ATC,
        AL_HDRSEIs_Copy.ST2094_10, AL_HDRSEIs_Copy.ST2094_40, hd, HDRMemory.store_store,
        HDRMemory.store, if_true]
      split_ifs <;> simp_all
  · have hsv : ∀ v, (mem.store pDst v) pSrc = src := by
      intro v
      simpa [HDRMemory.store, hs] using hsrc
    refine ⟨?_, ?_, ?_, ?_, ?_⟩ <;>
    · simp only [AL_HDRSEIs_Copy.MDCV, AL_HDRSEIs_Copy.CLL, AL_HDRSEIs_Copy.ATC,
        AL_HDRSEIs_Copy.ST2094_10, AL_HDRSEIs_Copy.ST2094_40, hd, hsv,
        HDRMemory.store_store, hs, if_false]
      split_ifs <;> simp_all [HDRMemory.store]

/-- Copying an object onto itself gives the object. -/
theorem specHDRSEIsCopy_self {MDCV CLL ATC ST2094_10 ST2094_40 : Type}
    (v : AL_THDRSEIs MDCV CLL ATC ST2094_10 ST2094_40) : specHDRSEIsCopy v v = v := by
  cases v
  simp [specHDRSEIsCopy]

/-- Copying the same source a second time changes nothing. -/
theorem specHDRSEIsCopy_idem {MDCV CLL ATC ST2094_10 ST2094_40 : Type}
    (src dst : AL_THDRSEIs MDCV CLL ATC ST2094_10 ST2094_40) :
    specHDRSEIsCopy src (specHDRSEIsCopy src dst) = specHDRSEIsCopy src dst := by
  cases src
  cases dst
  simp only [specHDRSEIsCopy]
  congr 1 <;> split_ifs <;> rfl

/-- After `AL_HDRSEIs_Copy` the destination object is `specHDRSEIsCopy` of the two
objects before the call and every other object is as before. -/
theorem AL_HDRSEIs_Copy_eq {MDCV CLL ATC ST2094_10 ST2094_40 : Type}
    (mem : HDRMemory MDCV CLL ATC ST2094_10 ST2094_40) (pSrc pDst : Nat) :
    AL_HDRSEIs_Copy mem pSrc pDst
      = mem.store pDst (specHDRSEIsCopy (mem pSrc) (mem pDst)) := by
  have hsrc : ∀ v, (mem.store pDst v) pSrc = if pSrc = pDst then v else mem pSrc := by
    intro v
    simp [HDRMemory.store]
  unfold AL_HDRSEIs_Copy
  simp only []
  conv_lhs => rw [← HDRMemory.store_self mem pDst]
  by_cases hs : pSrc = pDst
  · subst hs
    simp only [if_true] at hsrc
    rw [(AL_HDRSEIs_Copy.groups mem pSrc pSrc _ _ (hsrc _)).1]
    rw [(AL_HDRSEIs_Copy.groups mem pSrc pSrc _ _ (hsrc _)).2.1]
    rw [(AL_HDRSEIs_Copy.groups mem pSrc pSrc _ _ (hsrc _)).2.2.1]
    rw [(AL_HDRSEIs_Copy.groups mem pSrc pSrc _ _ (hsrc _)).2.2.2.1]
    rw [(AL_HDRSEIs_Copy.groups mem pSrc pSrc _ _ (hsrc _)).2.2.2.2]
    rw [specHDRSEIsCopy_self]
    cases mem pSrc
    simp
  · simp only [hs, if_false] at hsrc
    rw [(AL_HDRSEIs_Copy.groups mem pSrc pDst _ _ (hsrc _)).1]
    rw [(AL_HDRSEIs_Copy.groups mem pSrc pDst _ _ (hsrc _)).2.1]
    rw [(AL_HDRSEIs_Copy.groups mem pSrc pDst _ _ (hsrc _)).2.2.1]
    rw [(AL_HDRSEIs_Copy.groups mem pSrc pDst _ _ (hsrc _)).2.2.2.1]
    rw [(AL_HDRSEIs_Copy.groups mem pSrc pDst _ _ (hsrc _)).2.2.2.2]
    rfl

/-- After `AL_HDRSEIs_Reset` on a pointer that is not null the object has its five flags
false and its payloads as before; every other object is as before. -/
theorem AL_HDRSEIs_Reset_eq {MDCV CLL ATC ST2094_10 ST2094_40 : Type}
    (mem : HDRMemory MDCV CLL ATC ST2094_10 ST2094_40) (p : Nat) :
    AL_HDRSEIs_Reset mem (some p)
      = mem.store p { mem p with
          bHasMDCV := false, bHasCLL := false, bHasATC := false,
          bHasST2094_10 := false, bHasST2094_40 := false } := by
  funext q
  simp only [AL_HDRSEIs_Reset, HDRMemory.store]
  split_ifs <;> simp

/-- Claim C30: `AL_HDRSEIs_Copy(src, dst)` leaves the object `src` points to as it was,
also when the two pointers name one object, and changes no object but the one `dst`
points to.  Afterwards each of the five flags of the destination equals the flag of the
source, and each payload of the destination is the payload of the source when the flag
of the source is set and its own previous value when the flag is clear.  Copying a second
time changes nothing, and copying from a source that `AL_HDRSEIs_Reset` has just cleared
gives a destination whose five flags are false; `AL_HDRSEIs_Reset` on a null pointer
changes nothing. -/
theorem AL_HDRSEIs_Copy_flags_and_payloads {MDCV CLL ATC ST2094_10 ST2094_40 : Type}
    (mem : HDRMemory MDCV CLL ATC ST2094_10 ST2094_40) (pSrc pDst : Nat) :
    AL_HDRSEIs_Copy mem pSrc pDst pSrc = mem pSrc
      ∧ (∀ q, q ≠ pDst → AL_HDRSEIs_Copy mem pSrc pDst q = mem q)
      ∧ ((AL_HDRSEIs_Copy mem pSrc pDst pDst).bHasMDCV = (mem pSrc).bHasMDCV
        ∧ (AL_HDRSEIs_Copy mem pSrc pDst pDst).bHasCLL = (mem pSrc).bHasCLL
        ∧ (AL_HDRSEIs_Copy mem pSrc pDst pDst).bHasATC = (mem pSrc).bHasATC
        ∧ (AL_HDRSEIs_Copy mem pSrc pDst pDst).bHasST2094_10 = (mem pSrc).bHasST2094_10
        ∧ (AL_HDRSEIs_Copy mem pSrc pDst pDst).bHasST2094_40 = (mem pSrc).bHasST2094_40)
      ∧ ((AL_HDRSEIs_Copy mem pSrc pDst pDst).tMDCV
            = (if (mem pSrc).bHasMDCV then (mem pSrc).tMDCV else (mem pDst).tMDCV)
        ∧ (AL_HDRSEIs_Copy mem pSrc pDst pDst).tCLL
            = (if (mem pSrc).bHasCLL then (mem pSrc).tCLL else (mem pDst).tCLL)
        ∧ (AL_HDRSEIs_Copy mem pSrc pDst pDst).tATC
            = (if (mem pSrc).bHasATC then (mem pSrc).tATC else (mem pDst).tATC)
        ∧ (AL_HDRSEIs_Copy mem pSrc pDst pDst).tST2094_10
            = (if (mem pSrc).bHasST2094_10 then (mem pSrc).tST2094_10
                else (mem pDst).tST2094_10)
        ∧ (AL_HDRSEIs_Copy mem pSrc pDst pDst).tST2094_40
            = (if (mem pSrc).bHasST2094_40 then (mem pSrc).tST2094_40
                else (mem pDst).tST2094_40))
      ∧ AL_HDRSEIs_Copy (AL_HDRSEIs_Copy mem pSrc pDst) pSrc pDst
          = AL_HDRSEIs_Copy mem pSrc pDst
      ∧ ((AL_HDRSEIs_Copy (AL_HDRSEIs_Reset mem (some pSrc)) pSrc pDst pDst).bHasMDCV = false
        ∧ (AL_HDRSEIs_Copy (AL_HDRSEIs_Reset mem (some pSrc)) pSrc pDst pDst).bHasCLL = false
        ∧ (AL_HDRSEIs_Copy (AL_HDRSEIs_Reset mem (some pSrc)) pSrc pDst pDst).bHasATC = false
        ∧ (AL_HDRSEIs_Copy (AL_HDRSEIs_Reset mem (some pSrc)) pSrc pDst pDst).bHasST2094_10
            = false
        ∧ (AL_HDRSEIs_Copy (AL_HDRSEIs_Reset mem (some pSrc)) pSrc pDst pDst).bHasST2094_40
            = false)
      ∧ AL_HDRSEIs_Reset mem none = mem := by
  have hdst : ∀ m : HDRMemory MDCV CLL ATC ST2094_10 ST2094_40,
      AL_HDRSEIs_Copy m pSrc pDst pDst = specHDRSEIsCopy (m pSrc) (m pDst) := by
    intro m
    rw [AL_HDRSEIs_Copy_eq]
    simp [HDRMemory.store]
  have hsrc : AL_HDRSEIs_Copy mem pSrc pDst pSrc = mem pSrc := by
    rw [AL_HDRSEIs_Copy_eq]
    by_cases hs : pSrc = pDst
    · subst hs
      simp [HDRMemory.store, specHDRSEIsCopy_self]
    · simp [HDRMemory.store, hs]
  refine ⟨hsrc, ?_, ?_, ?_, ?_, ?_, rfl⟩
  · intro q hq
    rw [AL_HDRSEIs_Copy_eq]
    simp [HDRMemory.store, hq]
  · rw [hdst]
    exact ⟨rfl, rfl, rfl, rfl, rfl⟩
  · rw [hdst]
    exact ⟨rfl, rfl, rfl, rfl, rfl⟩
  · rw [AL_HDRSEIs_Copy_eq (AL_HDRSEIs_Copy mem pSrc pDst), hsrc, hdst,
      AL_HDRSEIs_Copy_eq, HDRMemory.store_store, specHDRSEIsCopy_idem]
  · rw [hdst, AL_HDRSEIs_Reset_eq]
    simp [HDRMemory.store, specHDRSEIsCopy]

/-- Witness for C30 on the sample memory, copying the object at address 0 to address 1:
the object at address 2 is untouched, the MDCV payload is copied and the CLL payload,
whose flag is clear in the source, is kept. -/
theorem AL_HDRSEIs_Copy_flags_and_payloads_witness :
    AL_HDRSEIs_Copy sampleHDRMemory 0 1 2 = sampleHDRMemory 2
      ∧ (AL_HDRSEIs_Copy sampleHDRMemory 0 1 1).bHasCLL = false
      ∧ (AL_HDRSEIs_Copy sampleHDRMemory 0 1 1).tMDCV = 1
      ∧ (AL_HDRSEIs_Copy sampleHDRMemory 0 1 1).tCLL = 7 :=
  ⟨(AL_HDRSEIs_Copy_flags_and_payloads sampleHDRMemory 0 1).2.1 2 (by decide),
    (AL_HDRSEIs_Copy_flags_and_payloads sampleHDRMemory 0 1).2.2.1.2.1,
    (AL_HDRSEIs_Copy_flags_and_payloads sampleHDRMemory 0 1).2.2.2.1.1,
    (AL_HDRSEIs_Copy_flags_and_payloads sampleHDRMemory 0 1).2.2.2.1.2.1⟩

/-! ## Theorems: write size against allocated size -/

/-- When the horizontal subsampling factor divides the width, the write size and the
allocated size of the specification are equal. -/
theorem specWriteSize_eq_of_dvd (bd w h sx sy : Int) (hsx : 0 < sx) (hdvd : sx ∣ w) :
    specWriteSize bd w h sx sy = specAllocatedSize bd w h sx sy := by
  obtain ⟨k, rfl⟩ := hdvd
  have h1 : ceilDiv (sx * k) sx = k := by
    rw [ceilDiv_eq_ediv _ _ hsx]
    have : sx * k + sx - 1 = sx - 1 + sx * k := by ring
    rw [this, Int.add_mul_ediv_left _ _ (ne_of_gt hsx), Int.ediv_eq_zero_of_lt (by omega)
      (by omega)]
    ring
  have h2 : ceilDiv (specBytesPerSample bd * (sx * k)) sx = specBytesPerSample bd * k := by
    rw [ceilDiv_eq_ediv _ _ hsx]
    have : specBytesPerSample bd * (sx * k) + sx - 1
        = sx - 1 + sx * (specBytesPerSample bd * k) := by ring
    rw [this, Int.add_mul_ediv_left _ _ (ne_of_gt hsx), Int.ediv_eq_zero_of_lt (by omega)
      (by omega)]
    ring
  simp only [specWriteSize, specAllocatedSize, specLumaSize, specChromaSize, specChromaPitch,
    specLumaPitch, specChromaHeight, h1, h2]
  ring

/-- Evaluation for claim C28 on a 3x2 picture in 4:2:0 written at 10 bits, two bytes a
sample: `ConvertFrameBuffer` allocates 18 bytes for the destination buffer, the chroma
pitch being `ceil(6 / 2) = 3` bytes, and `ProcessFrame` writes 20 bytes from its Y plane
address, counting `ceil(3 / 2) = 2` chroma samples of two bytes a row.  The two sizes
are those of the formulas of the specification. -/
theorem ProcessFrame_write_exceeds_allocation :
    ConvertFrameBuffer.allocate sampleExternals oddFrame 10 = Except.ok oddConverted
      ∧ oddConverted.uSize = 18
      ∧ sampleWriter.ProcessFrame sampleExternals oddFrame (sampleInfo 0) 10
        = Except.ok
            { YuvFile := some [⟨AL_PLANE_Y, 20⟩]
              IpCrcFile := none
              CertCrcFile := none
              YuvBuffer := some oddConverted }
      ∧ specAllocatedSize 10 3 2 2 2 = 18
      ∧ specWriteSize 10 3 2 2 2 = 20 := by
  refine ⟨rfl, rfl, rfl, ?_, ?_⟩
  · simp only [specAllocatedSize, specLumaSize, specChromaSize, specChromaPitch, specLumaPitch,
      specChromaHeight, specBytesPerSample, ceilDiv_eq_ediv _ _ (show (0 : Int) < 8 by decide),
      ceilDiv_eq_ediv _ _ (show (0 : Int) < 2 by decide)]
    decide
  · simp only [specWriteSize, specBytesPerSample,
      ceilDiv_eq_ediv _ _ (show (0 : Int) < 8 by decide),
      ceilDiv_eq_ediv _ _ (show (0 : Int) < 2 by decide)]
    decide

/-! ## Theorems: the input feeder -/

/-- The passes of the feeder loop whose reads are not empty and whose pushes are
accepted: each pushes its read and the loop goes on. -/
theorem AsyncFileInput.run_accepted (reads : List (Nat × Nat)) (hreads : ∀ r ∈ reads, r.2 ≠ 0)
    (rest : List FeederPass) :
    ∀ calls : List DecoderCall,
      AsyncFileInput.run (reads.map FeederPass.accepted ++ rest) calls
        = AsyncFileInput.run rest (calls ++ reads.map DecoderCall.push) := by
  induction reads with
  | nil =>
    intro calls
    simp
  | cons r reads ih =>
    intro calls
    have hr : r.2 ≠ 0 := hreads r (List.mem_cons_self _ _)
    have hrest : ∀ x ∈ reads, x.2 ≠ 0 := fun x hx => hreads x (List.mem_cons_of_mem _ hx)
    rw [List.map_cons, List.cons_append, AsyncFileInput.run]
    simp only [FeederPass.accepted, Bool.false_eq_true, if_false, hr, Bool.true_eq_false]
    rw [ih hrest]
    simp [DecoderCall.push]

/-- Claim C22: with the exit flag clear, a buffer obtained in every pass and every push
accepted, `AsyncFileInput::run` on reads that are not empty followed by an empty read
pushes exactly these reads, in order, each with its buffer and its size, then flushes the
decoder and returns: the flush is the last call and the only flush, whatever the
surroundings would answer afterwards.  While no read is empty it keeps pushing and does
not flush.  When a push is rejected after accepted ones it throws
`Failed to push buffer`, the rejected push being its last call, and does not flush. -/
theorem AsyncFileInput_run_pushes_then_flushes (reads : List (Nat × Nat))
    (hreads : ∀ r ∈ reads, r.2 ≠ 0) (rest : List FeederPass) (calls : List DecoderCall)
    (pBuf uSize : Nat) (bRet : Bool) (huSize : uSize ≠ 0) :
    AsyncFileInput.run
          (reads.map FeederPass.accepted ++ ⟨false, some pBuf, 0, bRet⟩ :: rest) calls
        = (some (Except.ok ()),
            calls ++ reads.map DecoderCall.push ++ [DecoderCall.AL_Decoder_Flush])
      ∧ (reads.map DecoderCall.push ++ [DecoderCall.AL_Decoder_Flush]).count
          DecoderCall.AL_Decoder_Flush = 1
      ∧ AsyncFileInput.run (reads.map FeederPass.accepted) calls
        = (none, calls ++ reads.map DecoderCall.push)
      ∧ AsyncFileInput.run
          (reads.map FeederPass.accepted ++ ⟨false, some pBuf, uSize, false⟩ :: rest) calls
        = (some (Except.error (Exception.runtime_error "Failed to push buffer")),
            calls ++ reads.map DecoderCall.push
              ++ [DecoderCall.AL_Decoder_PushBuffer pBuf uSize])
      ∧ DecoderCall.AL_Decoder_Flush
          ∉ reads.map DecoderCall.push ++ [DecoderCall.AL_Decoder_PushBuffer pBuf uSize] := by
  have hnoflush : DecoderCall.AL_Decoder_Flush ∉ reads.map DecoderCall.push := by
    intro h
    obtain ⟨r, _, hr⟩ := List.mem_map.1 h
    cases hr
  refine ⟨?_, ?_, ?_, ?_, ?_⟩
  · rw [AsyncFileInput.run_accepted reads hreads, AsyncFileInput.run]
    simp
  · rw [List.count_append, List.count_eq_zero_of_not_mem hnoflush]
    simp
  · have h := AsyncFileInput.run_accepted reads hreads [] calls
    rw [List.append_nil] at h
    rw [h, AsyncFileInput.run]
  · rw [AsyncFileInput.run_accepted reads hreads, AsyncFileInput.run]
    simp [huSize]
  · intro h
    rcases List.mem_append.1 h with h | h
    · exact hnoflush h
    · simp at h

/-- Witness for C22: two reads of 100 and 50 bytes, then an empty read. -/
theorem AsyncFileInput_run_pushes_then_flushes_witness :
    AsyncFileInput.run
        [⟨false, some 0, 100, true⟩, ⟨false, some 1, 50, true⟩, ⟨false, some 2, 0, true⟩,
          ⟨false, some 3, 70, true⟩] []
      = (some (Except.ok ()),
          [DecoderCall.AL_Decoder_PushBuffer 0 100, DecoderCall.AL_Decoder_PushBuffer 1 50,
            DecoderCall.AL_Decoder_Flush]) :=
  (AsyncFileInput_run_pushes_then_flushes [(0, 100), (1, 50)] (by decide)
    [⟨false, some 3, 70, true⟩] [] 2 1 true (by decide)).1

/-! ## Theorems: the channels of the command line -/

/-- The loop of `GetChannelsArgv` over arguments none of which is `--next-chan`: they
are appended to channel 0 in order. -/
theorem GetChannelsArgv.loop_plain (argv0 : String) (tail : List String)
    (tailResult : List String → Option (Except Exception (Int × List (List String))))
    (htail : ∀ channel,
      GetChannelsArgv.loop argv0 tail 0 [channel] = tailResult channel) :
    ∀ (args : List String), "--next-chan" ∉ args → ∀ channel : List String,
      GetChannelsArgv.loop argv0 (args ++ tail) 0 [channel] = tailResult (channel ++ args) := by
  intro args
  induction args with
  | nil =>
    intro _ channel
    simpa using htail channel
  | cons arg args ih =>
    intro hno channel
    have harg : arg ≠ "--next-chan" := fun h => hno (h ▸ List.mem_cons_self _ _)
    have hrest : "--next-chan" ∉ args := fun h => hno (List.mem_cons_of_mem _ h)
    rw [List.cons_append, GetChannelsArgv.loop]
    simp only [harg, if_false, GetChannelsArgv.push_back]
    have h := ih hrest (channel ++ [arg])
    simpa using h

/-- Claim C25: on the one-element channel array, `GetChannelsArgv` throws
`Too many channels` for every argument list that contains `--next-chan`, and never
writes outside the array; for every argument list without it, it returns 0 and channel 0
holds all the arguments, unchanged and in order.  Hence `SafeMain` never takes its
multi-channel branch. -/
theorem GetChannelsArgv_single_channel (X : SafeMainCalls) (argv : List String) :
    ("--next-chan" ∈ argv →
        GetChannelsArgv (List.replicate MAX_CHANNELS.toNat []) argv
          = some (Except.error (Exception.runtime_error "Too many channels")))
      ∧ ("--next-chan" ∉ argv →
        GetChannelsArgv (List.replicate MAX_CHANNELS.toNat []) argv
          = some (Except.ok (0, [argv])))
      ∧ GetChannelsArgv (List.replicate MAX_CHANNELS.toNat []) argv ≠ none
      ∧ (∃ outcome branch, SafeMain X argv = some (outcome, branch)
          ∧ branch ≠ SafeMainBranch.multiChannel) := by
  have hinit : List.replicate MAX_CHANNELS.toNat ([] : List String) = [[]] := rfl
  have hyes : "--next-chan" ∈ argv →
      GetChannelsArgv (List.replicate MAX_CHANNELS.toNat []) argv
        = some (Except.error (Exception.runtime_error "Too many channels")) := by
    intro hmem
    obtain ⟨pre, post, hsplit, hpre⟩ : ∃ pre post, argv = pre ++ "--next-chan" :: post
        ∧ "--next-chan" ∉ pre := by
      induction argv with
      | nil => simp at hmem
      | cons a l ih =>
        by_cases ha : a = "--next-chan"
        · exact ⟨[], l, by simp [ha], by simp⟩
        · have hl : "--next-chan" ∈ l := by
            rcases List.mem_cons.1 hmem with h | h
            · exact absurd h.symm ha
            · exact h
          obtain ⟨pre, post, hsplit, hpre⟩ := ih hl
          refine ⟨a :: pre, post, by simp [hsplit], ?_⟩
          intro h
          rcases List.mem_cons.1 h with h | h
          · exact ha h.symm
          · exact hpre h
    rw [hinit, GetChannelsArgv, hsplit]
    rw [GetChannelsArgv.loop_plain _ ("--next-chan" :: post)
      (fun _ => some (Except.error (Exception.runtime_error "Too many channels")))
      (by
        intro channel
        simp [GetChannelsArgv.loop, MAX_CHANNELS]) pre hpre []]
  have hno : "--next-chan" ∉ argv →
      GetChannelsArgv (List.replicate MAX_CHANNELS.toNat []) argv
        = some (Except.ok (0, [argv])) := by
    intro hmem
    have h := GetChannelsArgv.loop_plain (argv.headD "") []
      (fun channel => some (Except.ok (0, [channel])))
      (by
        intro channel
        simp [GetChannelsArgv.loop]) argv hmem []
    rw [List.append_nil, List.nil_append] at h
    rw [hinit, GetChannelsArgv, h]
  have hsome : GetChannelsArgv (List.replicate MAX_CHANNELS.toNat []) argv ≠ none := by
    by_cases hmem : "--next-chan" ∈ argv
    · rw [hyes hmem]
      simp
    · rw [hno hmem]
      simp
  refine ⟨hyes, hno, hsome, ?_⟩
  by_cases hmem : "--next-chan" ∈ argv
  · refine ⟨Except.error (Exception.runtime_error "Too many channels"),
      SafeMainBranch.notReached, ?_, by decide⟩
    simp only [SafeMain, hyes hmem]
  · simp only [SafeMain, hno hmem]
    cases hparse : X.ParseCommandLine argv with
    | error e =>
      refine ⟨Except.error e, SafeMainBranch.notReached, ?_, by decide⟩
      simp [hparse, Except.map]
    | ok help =>
      cases help with
      | true =>
        refine ⟨Except.ok (), SafeMainBranch.notReached, ?_, by decide⟩
        simp [hparse, Except.map]
      | false =>
        by_cases hdev : X.CreateIpDevice = false
        · refine ⟨Except.error (Exception.runtime_error "Can't create IpDevice"),
            SafeMainBranch.notReached, ?_, by decide⟩
          simp [hparse, Except.map, hdev]
        · cases hchan : X.ChannelMain with
          | none =>
            refine ⟨Except.ok (), SafeMainBranch.monoChannel, ?_, by decide⟩
            simp [hparse, Except.map, hdev, hchan]
          | some e =>
            refine ⟨Except.error e, SafeMainBranch.monoChannel, ?_, by decide⟩
            simp [hparse, Except.map, hdev, hchan]

/-- Witness for C25: a command line with `--next-chan` and one without. -/
theorem GetChannelsArgv_single_channel_witness :
    GetChannelsArgv (List.replicate MAX_CHANNELS.toNat [])
          ["ctrlsw_decoder", "-in", "a.bin", "--next-chan", "-in", "b.bin"]
        = some (Except.error (Exception.runtime_error "Too many channels"))
      ∧ GetChannelsArgv (List.replicate MAX_CHANNELS.toNat [])
          ["ctrlsw_decoder", "-in", "a.bin"]
        = some (Except.ok (0, [["ctrlsw_decoder", "-in", "a.bin"]])) :=
  ⟨(GetChannelsArgv_single_channel (sampleSafeMainCalls none)
      ["ctrlsw_decoder", "-in", "a.bin", "--next-chan", "-in", "b.bin"]).1 (by decide),
    (GetChannelsArgv_single_channel (sampleSafeMainCalls none)
      ["ctrlsw_decoder", "-in", "a.bin"]).2.1 (by decide)⟩

/-! ## Theorems: exit code and timeout -/

/-- A `codec_error` thrown by `SafeChannelMain` carries a code that is not 0, when 0 is
not classified as an error code. -/
theorem SafeChannelMain_codec_error_code (E : ErrorCodes) (C : ToStringCodes) (R : ChannelRun)
    (hzero : E.AL_IS_ERROR_CODE 0 = false) (what : String) (Code : Int)
    (h : SafeChannelMain E C R = some (Except.error (Exception.codec_error what Code))) :
    Code ≠ 0 := by
  intro hc
  subst hc
  have hinj : ∀ (w : String) (c : Int),
      (some (Except.error (codec_error C c)) : Option (Except Exception LogInfoCall))
        = some (Except.error (Exception.codec_error w 0)) → c = 0 := by
    intro w c hwc
    simp only [codec_error, Option.some.injEq, Except.error.injEq,
      Exception.codec_error.injEq] at hwc
    exact hwc.2
  unfold SafeChannelMain at h
  by_cases h1 : R.bufPoolInit = false
  · rw [if_pos h1] at h
    cases h
  rw [if_neg h1] at h
  by_cases h2 : E.AL_IS_ERROR_CODE R.AL_Decoder_Create = true
  · rw [if_pos h2] at h
    rw [hinj _ _ h, hzero] at h2
    cases h2
  rw [if_neg h2] at h
  by_cases h3 : R.hDec = false
  · rw [if_pos h3] at h
    cases h
  rw [if_neg h3] at h
  by_cases h4 : invalidPreallocSettings R.tStream = false
      ∧ R.AL_Decoder_PreallocateBuffers = false ∧ R.lastErrorAfterPreallocate ≠ 0
  · rw [if_pos h4] at h
    exact h4.2.2 (hinj _ _ h)
  rw [if_neg h4] at h
  simp only [] at h
  by_cases h5 : E.AL_IS_ERROR_CODE R.AL_Decoder_GetLastError = true
  · rw [if_pos h5] at h
    rw [hinj _ _ h, hzero] at h5
    cases h5
  rw [if_neg h5] at h
  by_cases h6 : R.decodedFrames = 0
  · rw [if_pos h6] at h
    cases h
  · rw [if_neg h6] at h
    cases h

/-- Claim C23: `main` returns 0 when `SafeMain` completes, the code carried by the
`codec_error` when `SafeMain` throws one, `codec_error(e)` carrying `Code = e` and the
message `ToString(e)`, and 1 when it throws another `runtime_error`.  The returned value
is 0 exactly when `SafeMain` completes, provided a thrown `codec_error` does not carry
the code 0; the `codec_error`s `SafeChannelMain` throws do not, when 0 is not classified
as an error code. -/
theorem main_exit_code (C : ToStringCodes) (eErrCode : Int) (what : String)
    (outcome : Except Exception Unit)
    (hcode : ∀ w c, outcome = Except.error (Exception.codec_error w c) → c ≠ 0) :
    (main.handlers (Except.ok ())).1 = 0
      ∧ (main.handlers (Except.error (codec_error C eErrCode))).1 = eErrCode
      ∧ (codec_error C eErrCode).Code = some eErrCode
      ∧ (codec_error C eErrCode).what = ToString C eErrCode
      ∧ (main.handlers (Except.error (Exception.runtime_error what))).1 = 1
      ∧ ((main.handlers outcome).1 = 0 ↔ outcome = Except.ok ())
      ∧ (∀ (X : SafeMainCalls) (argv : List String) (branch : SafeMainBranch),
          SafeMain X argv = some (outcome, branch) →
          main X argv = some (main.handlers outcome).1)
      ∧ (∀ (E : ErrorCodes) (R : ChannelRun) (w : String) (c : Int),
          E.AL_IS_ERROR_CODE 0 = false →
          SafeChannelMain E C R = some (Except.error (Exception.codec_error w c)) →
          (main.handlers (Except.error (Exception.codec_error w c))).1 ≠ 0) := by
  refine ⟨rfl, rfl, rfl, rfl, rfl, ?_, ?_, ?_⟩
  · constructor
    · intro h
      match outcome, hcode, h with
      | Except.ok (), _, _ => rfl
      | Except.error (Exception.codec_error w c), hcode, h =>
        exact absurd h (hcode w c rfl)
      | Except.error (Exception.runtime_error w), _, h =>
        simp [main.handlers] at h
    · intro h
      rw [h]
      rfl
  · intro X argv branch h
    simp [main, h]
  · intro E R w c hzero h
    exact SafeChannelMain_codec_error_code E C R hzero w c h

/-- Witness for C23: a channel that ends with the `codec_error` of code 135 makes `main`
return 135. -/
theorem main_exit_code_witness :
    (main.handlers (Except.error (codec_error sampleToStringCodes 135))).1 = 135
      ∧ ((main.handlers (Except.error (codec_error sampleToStringCodes 135))).1 = 0
          ↔ (Except.error (codec_error sampleToStringCodes 135) : Except Exception Unit)
            = Except.ok ())
      ∧ main (sampleSafeMainCalls (some (codec_error sampleToStringCodes 135)))
          ["ctrlsw_decoder", "-in", "a.bin"] = some 135 :=
  ⟨(main_exit_code sampleToStringCodes 135 "" (Except.error (codec_error sampleToStringCodes 135))
      (by
        intro w c h
        cases h
        decide)).2.1,
    (main_exit_code sampleToStringCodes 135 "" (Except.error (codec_error sampleToStringCodes 135))
      (by
        intro w c h
        cases h
        decide)).2.2.2.2.2.1,
    (main_exit_code sampleToStringCodes 135 "" (Except.error (codec_error sampleToStringCodes 135))
      (by
        intro w c h
        cases h
        decide)).2.2.2.2.2.2.1 (sampleSafeMainCalls (some (codec_error sampleToStringCodes 135)))
      ["ctrlsw_decoder", "-in", "a.bin"] SafeMainBranch.monoChannel rfl⟩

/-- The loop over `iLoop` leaves `timeoutOccured` set exactly when one of its waits
returned false. -/
theorem SafeChannelMain.waitLoop_eq_true_iff (R : ChannelRun) :
    SafeChannelMain.waitLoop R = true
      ↔ ∃ i, i < R.iLoop.toNat
          ∧ R.Rtos_WaitEvent i (SafeChannelMain.timeout R) = false := by
  have key : ∀ (l : List Nat) (acc : Bool),
      l.foldl
          (fun timeoutOccured iLoop =>
            if R.Rtos_WaitEvent iLoop (SafeChannelMain.timeout R) = false then true
            else timeoutOccured) acc
          = true
        ↔ acc = true ∨ ∃ i ∈ l, R.Rtos_WaitEvent i (SafeChannelMain.timeout R) = false := by
    intro l
    induction l with
    | nil =>
      intro acc
      simp
    | cons i l ih =>
      intro acc
      rw [List.foldl_cons, ih]
      simp only [List.mem_cons, exists_eq_or_imp]
      by_cases hw : R.Rtos_WaitEvent i (SafeChannelMain.timeout R) = false
      · simp [hw]
      · simp [hw]
  unfold SafeChannelMain.waitLoop
  rw [key]
  simp [List.mem_range]

/-- Counterexample to claim C24 as stated: the wait times out and the last error of the
engine, 0, is not an error code, but no frame was decoded: `SafeChannelMain` throws
`No frame decoded` and `ShowStatistics` is not called. -/
theorem SafeChannelMain_timeout_no_frame_raises :
    SafeChannelMain.waitLoop (sampleTimeoutRun 0) = true
      ∧ sampleErrorCodes.AL_IS_ERROR_CODE (sampleTimeoutRun 0).AL_Decoder_GetLastError = false
      ∧ SafeChannelMain sampleErrorCodes sampleToStringCodes (sampleTimeoutRun 0)
        = some (Except.error (Exception.runtime_error "No frame decoded")) := by
  refine ⟨rfl, rfl, rfl⟩

/-- Claim C24, amended: in a run of `SafeChannelMain` that reaches the wait for
completion and in which one wait times out, `timeoutOccured` is set.  The last error of
the engine is then still checked: an error code is thrown as a `codec_error`.  When it is
not an error code and at least one frame was decoded, `SafeChannelMain` returns after calling
`ShowStatistics` with `timeoutOccured = true`, whose line starts with `TIMEOUT = `
instead of `Decoded time = `; when no frame was decoded it throws `No frame decoded`. -/
theorem SafeChannelMain_timeout (E : ErrorCodes) (C : ToStringCodes) (R : ChannelRun)
    (i : Nat) (hpool : R.bufPoolInit = true)
    (hcreate : E.AL_IS_ERROR_CODE R.AL_Decoder_Create = false) (hdec : R.hDec = true)
    (hprealloc : invalidPreallocSettings R.tStream = true
      ∨ R.AL_Decoder_PreallocateBuffers = true ∨ R.lastErrorAfterPreallocate = 0)
    (hi : i < R.iLoop.toNat)
    (htimeout : R.Rtos_WaitEvent i (SafeChannelMain.timeout R) = false) :
    SafeChannelMain.waitLoop R = true
      ∧ (E.AL_IS_ERROR_CODE R.AL_Decoder_GetLastError = true →
        SafeChannelMain E C R
          = some (Except.error (codec_error C R.AL_Decoder_GetLastError)))
      ∧ (E.AL_IS_ERROR_CODE R.AL_Decoder_GetLastError = false → R.decodedFrames ≠ 0 →
        SafeChannelMain E C R
            = some (Except.ok
                (ShowStatistics (R.uEnd - R.uBegin) R.iNumFrameConceal R.decodedFrames true))
          ∧ (ShowStatistics (R.uEnd - R.uBegin) R.iNumFrameConceal R.decodedFrames true).msg
            = "TIMEOUT = "
              ++ "%.4f s;  Decoding FrameRate ~ %.4f Fps; Frame(s) conceal = %d\n"
          ∧ (ShowStatistics (R.uEnd - R.uBegin) R.iNumFrameConceal R.decodedFrames false).msg
            = "Decoded time = "
              ++ "%.4f s;  Decoding FrameRate ~ %.4f Fps; Frame(s) conceal = %d\n")
      ∧ (E.AL_IS_ERROR_CODE R.AL_Decoder_GetLastError = false → R.decodedFrames = 0 →
        SafeChannelMain E C R
          = some (Except.error (Exception.runtime_error "No frame decoded"))) := by
  have hloop : SafeChannelMain.waitLoop R = true :=
    (SafeChannelMain.waitLoop_eq_true_iff R).2 ⟨i, hi, htimeout⟩
  have hpre : ¬ (invalidPreallocSettings R.tStream = false
      ∧ R.AL_Decoder_PreallocateBuffers = false ∧ R.lastErrorAfterPreallocate ≠ 0) := by
    rintro ⟨h1, h2, h3⟩
    rcases hprealloc with h | h | h
    · rw [h1] at h
      cases h
    · rw [h2] at h
      cases h
    · exact h3 h
  have hstart : ∀ tail : Option (Except Exception LogInfoCall),
      (if R.bufPoolInit = false then
          some (Except.error (Exception.runtime_error "Can't create BufPool"))
        else if E.AL_IS_ERROR_CODE R.AL_Decoder_Create then
          some (Except.error (codec_error C R.AL_Decoder_Create))
        else if R.hDec = false then none
        else if invalidPreallocSettings R.tStream = false
            ∧ R.AL_Decoder_PreallocateBuffers = false ∧ R.lastErrorAfterPreallocate ≠ 0 then
          some (Except.error (codec_error C R.lastErrorAfterPreallocate))
        else tail) = tail := by
    intro tail
    simp [hpool, hcreate, hdec, hpre]
  refine ⟨hloop, ?_, ?_, ?_⟩
  · intro herr
    unfold SafeChannelMain
    rw [hstart]
    simp [herr]
  · intro herr hframes
    refine ⟨?_, rfl, rfl⟩
    unfold SafeChannelMain
    rw [hstart]
    simp [herr, hframes, hloop]
  · intro herr hframes
    unfold SafeChannelMain
    rw [hstart]
    simp [herr, hframes]

/-- Witness for C24, amended: the sample run with a timeout, no engine error and 25
frames decoded returns with the `TIMEOUT = ` statistics. -/
theorem SafeChannelMain_timeout_witness :
    SafeChannelMain sampleErrorCodes sampleToStringCodes (sampleTimeoutRun 25)
      = some (Except.ok
          { msg := "TIMEOUT = %.4f s;  Decoding FrameRate ~ %.4f Fps; Frame(s) conceal = %d\n"
            durationMs := 5000
            decodedFrameNumber := 25
            iNumFrameConceal := 0 }) :=
  ((SafeChannelMain_timeout sampleErrorCodes sampleToStringCodes (sampleTimeoutRun 25) 0
    rfl rfl rfl (Or.inl rfl) (by decide) rfl).2.2.1 rfl (by decide)).1

/-! ## Theorems: the hexadecimal dump -/

/-- The digit characters are read back as their digit and are neither a space nor a
line break. -/
theorem hexDigitLower_spec (d : Nat) (hd : d < 16) :
    digitValue (hexDigitLower d) = some d
      ∧ hexDigitLower d ∈ "0123456789abcdef".toList := by
  interval_cases d <;> decide

/-- The text of a byte is its two hexadecimal digits, the high one first. -/
theorem hexByte_eq (byte : Nat) (hbyte : byte < 256) :
    hexByte byte = [hexDigitLower (byte / 16), hexDigitLower (byte % 16)] := by
  have hz : hexDigitLower 0 = '0' := by decide
  unfold hexByte hexLower padLeft
  by_cases h0 : byte = 0
  · subst h0
    simp [hz]
  · by_cases h16 : byte < 16
    · rw [if_neg h0, Nat.digits_of_lt 16 byte h0 h16]
      have hq : byte / 16 = 0 := Nat.div_eq_of_lt h16
      have hr : byte % 16 = byte := Nat.mod_eq_of_lt h16
      simp [hz, hq, hr]
    · have hq0 : byte / 16 ≠ 0 := by omega
      have hq : byte / 16 < 16 := by omega
      rw [if_neg h0, Nat.digits_def' (by norm_num) (by omega),
        Nat.digits_of_lt 16 (byte / 16) hq0 hq]
      simp

/-- The loop of `printHexdump` on the bytes still to print sends the text
`specHexdumpFrom`. -/
theorem printHexdump.loop_eq (data : List Nat) :
    ∀ (left done : List Nat) (out : List Char), data = done ++ left →
      printHexdump.loop data (data.length : Int) left.length done.length out
        = some (out ++ specHexdumpFrom left done.length) := by
  intro left
  induction left with
  | nil =>
    intro done out _
    simp [printHexdump.loop, specHexdumpFrom]
  | cons byte left ih =>
    intro done out hdata
    have hidx : ((data.length : Int) - ((left.length + 1 : Nat) : Int)).toNat = done.length := by
      rw [hdata]
      simp only [List.length_append, List.length_cons]
      omega
    have hget : data[done.length]? = some byte := by
      rw [hdata, List.getElem?_append_right (le_refl _)]
      simp
    have hnext : data = (done ++ [byte]) ++ left := by
      rw [hdata]
      simp
    have hlen : (done ++ [byte]).length = done.length + 1 := by simp
    rw [List.length_cons, printHexdump.loop, hidx, hget]
    simp only []
    cases left with
    | nil =>
      have h := ih (done ++ [byte]) (out ++ hexByte byte) hnext
      rw [hlen] at h
      simp only [List.length_nil, gt_iff_lt, lt_self_iff_false, if_false]
      rw [List.length_nil] at h
      rw [h]
      simp [specHexdumpFrom]
    | cons next rest =>
      have hpos : (next :: rest).length > 0 := by simp
      simp only [hpos, if_true]
      by_cases hcol : (done.length + 1) % 8 = 0
      · have h := ih (done ++ [byte]) (out ++ hexByte byte ++ [Char.ofNat 10]) hnext
        rw [hlen] at h
        rw [if_pos hcol, h]
        simp [specHexdumpFrom, hcol]
      · have h := ih (done ++ [byte]) (out ++ hexByte byte ++ [' ']) hnext
        rw [hlen] at h
        rw [if_neg hcol, h]
        simp [specHexdumpFrom, hcol]

/-- Joining one piece with a separator gives the piece. -/
theorem intercalate_singleton_eq (sep piece : List Char) : sep.intercalate [piece] = piece := by
  simp [List.intercalate]

/-- Joining at least two pieces with a separator: the first piece, the separator, and the
other pieces joined. -/
theorem intercalate_cons_cons_eq (sep first second : List Char) (rest : List (List Char)) :
    sep.intercalate (first :: second :: rest)
      = first ++ sep ++ sep.intercalate (second :: rest) := by
  simp [List.intercalate]

/-- Within a row the loop separates the bytes by one space. -/
theorem specHexdumpFrom_row :
    ∀ (row : List Nat) (column : Nat), row ≠ [] → column % 8 + row.length ≤ 8 →
      specHexdumpFrom row column = [' '].intercalate (row.map hexByte) := by
  intro row
  induction row with
  | nil =>
    intro column h _
    exact absurd rfl h
  | cons byte row ih =>
    intro column _ hlen
    cases row with
    | nil => simp [specHexdumpFrom, intercalate_singleton_eq]
    | cons next rest =>
      simp only [List.length_cons] at hlen
      have hcol : (column + 1) % 8 ≠ 0 := by omega
      have h := ih (column + 1) (by simp) (by simp only [List.length_cons]; omega)
      rw [specHexdumpFrom, if_neg hcol, h]
      simp only [List.map_cons, intercalate_cons_cons_eq, List.append_assoc]

/-- A row of eight bytes that is not the last one is followed by a line break. -/
theorem specHexdumpFrom_full_row (rest : List Nat) (hrest : rest ≠ []) :
    ∀ (row : List Nat) (column : Nat), row ≠ [] → column % 8 + row.length = 8 →
      specHexdumpFrom (row ++ rest) column
        = [' '].intercalate (row.map hexByte) ++ [Char.ofNat 10]
          ++ specHexdumpFrom rest (column + row.length) := by
  intro row
  induction row with
  | nil =>
    intro column h _
    exact absurd rfl h
  | cons byte row ih =>
    intro column _ hlen
    cases row with
    | nil =>
      simp only [List.length_cons, List.length_nil] at hlen
      have hcol : (column + 1) % 8 = 0 := by omega
      obtain ⟨next, rest2, rfl⟩ := List.exists_cons_of_ne_nil hrest
      simp [specHexdumpFrom, hcol, intercalate_singleton_eq]
    | cons next row2 =>
      simp only [List.length_cons] at hlen
      have hcol : (column + 1) % 8 ≠ 0 := by omega
      have h := ih (column + 1) (by simp) (by simp only [List.length_cons]; omega)
      rw [List.cons_append, List.cons_append, specHexdumpFrom, if_neg hcol,
        ← List.cons_append, h]
      have hadd : column + 1 + (next :: row2).length = column + (byte :: next :: row2).length := by
        simp only [List.length_cons]
        omega
      rw [hadd]
      simp only [List.map_cons, intercalate_cons_cons_eq, List.append_assoc]

/-- The rows of a dump of at most 8 bytes: the single row of all the bytes. -/
theorem specHexdumpRows_short (data : List Nat) (h0 : data ≠ []) (h8 : data.length ≤ 8) :
    specHexdumpRows data = [data] := by
  have hpos : 0 < data.length := List.length_pos.2 h0
  have hn : (data.length + 7) / 8 = 1 := by omega
  simp [specHexdumpRows, hn, List.range_succ, List.take_of_length_le h8]

/-- The rows of a dump of more than 8 bytes: the first 8 bytes, then the rows of the
other bytes. -/
theorem specHexdumpRows_long (data : List Nat) (h8 : 8 < data.length) :
    specHexdumpRows data = data.take 8 :: specHexdumpRows (data.drop 8) := by
  have hn : (data.length + 7) / 8 = ((data.drop 8).length + 7) / 8 + 1 := by
    rw [List.length_drop]
    omega
  unfold specHexdumpRows
  rw [hn, List.range_succ_eq_map, List.map_cons, List.map_map]
  simp only [Nat.mul_zero, List.drop_zero, List.cons.injEq, true_and]
  apply List.map_congr_left
  intro j _
  simp only [Function.comp, List.drop_drop]
  congr 2
  omega

/-- The text the loop sends, started at a multiple of 8 bytes printed, is the dump of the
specification. -/
theorem specHexdumpFrom_eq_specHexdump :
    ∀ (n : Nat) (data : List Nat), data.length = n → ∀ column : Nat, column % 8 = 0 →
      specHexdumpFrom data column = specHexdump data := by
  intro n
  induction n using Nat.strong_induction_on with
  | _ n ih =>
    intro data hlen column hcol
    by_cases h0 : data = []
    · subst h0
      simp [specHexdumpFrom, specHexdump, specHexdumpRows, List.intercalate]
    · by_cases h8 : data.length ≤ 8
      · rw [specHexdumpFrom_row data column h0 (by omega), specHexdump,
          specHexdumpRows_short data h0 h8]
        simp [intercalate_singleton_eq]
      · have hlong : 8 < data.length := by omega
        have hsplit : data = data.take 8 ++ data.drop 8 := (List.take_append_drop 8 data).symm
        have htake : (data.take 8).length = 8 := by
          rw [List.length_take]
          omega
        have hdrop : data.drop 8 ≠ [] := by
          intro h
          have := congrArg List.length h
          rw [List.length_drop] at this
          simp at this
          omega
        have hrec := ih (data.drop 8).length (by rw [List.length_drop]; omega) (data.drop 8) rfl
          (column + 8) (by omega)
        have hfull := specHexdumpFrom_full_row (data.drop 8) hdrop (data.take 8) column
          (by intro h; rw [h] at htake; simp at htake) (by omega)
        rw [← hsplit, htake, hrec] at hfull
        obtain ⟨row, rows, hrows⟩ : ∃ row rows, specHexdumpRows (data.drop 8) = row :: rows := by
          by_cases h8b : (data.drop 8).length ≤ 8
          · exact ⟨_, _, specHexdumpRows_short _ hdrop h8b⟩
          · exact ⟨_, _, specHexdumpRows_long _ (by omega)⟩
        rw [hfull]
        simp only [specHexdump, specHexdumpRows_long data hlong, hrows, List.map_cons,
          intercalate_cons_cons_eq, List.append_assoc]

/-- The text the loop sends for at least one byte is not empty and ends with a
hexadecimal digit. -/
theorem specHexdumpFrom_getLast :
    ∀ (data : List Nat) (column : Nat), data ≠ [] → (∀ byte ∈ data, byte < 256) →
      ∃ c, (specHexdumpFrom data column).getLast? = some c
        ∧ c ∈ "0123456789abcdef".toList := by
  intro data
  induction data with
  | nil =>
    intro column h _
    exact absurd rfl h
  | cons byte data ih =>
    intro column _ hbytes
    have hbyte : byte < 256 := hbytes byte (List.mem_cons_self _ _)
    cases data with
    | nil =>
      refine ⟨hexDigitLower (byte % 16), ?_, (hexDigitLower_spec _ (by omega)).2⟩
      simp [specHexdumpFrom, hexByte_eq byte hbyte]
    | cons next rest =>
      obtain ⟨c, hc, hmem⟩ := ih (column + 1) (by simp)
        (fun b hb => hbytes b (List.mem_cons_of_mem _ hb))
      refine ⟨c, ?_, hmem⟩
      have hne : specHexdumpFrom (next :: rest) (column + 1) ≠ [] := by
        intro h
        rw [h] at hc
        simp at hc
      rw [specHexdumpFrom, List.getLast?_append_of_ne_nil _ hne, hc]

/-- Reading back the text the loop sends gives the bytes. -/
theorem readHexdump_specHexdumpFrom :
    ∀ (data : List Nat) (column : Nat), (∀ byte ∈ data, byte < 256) →
      readHexdump (specHexdumpFrom data column) = data := by
  have hsp : digitValue ' ' = none := by decide
  have hnl : digitValue (Char.ofNat 10) = none := by decide
  intro data
  induction data with
  | nil =>
    intro column _
    simp [specHexdumpFrom, readHexdump, readHexdump.pairs]
  | cons byte data ih =>
    intro column hbytes
    have hbyte : byte < 256 := hbytes byte (List.mem_cons_self _ _)
    have hhigh := (hexDigitLower_spec (byte / 16) (by omega)).1
    have hlow := (hexDigitLower_spec (byte % 16) (by omega)).1
    have hval : 16 * (byte / 16) + byte % 16 = byte := Nat.div_add_mod byte 16
    cases data with
    | nil =>
      simp [specHexdumpFrom, readHexdump, readHexdump.pairs, hexByte_eq byte hbyte,
        List.filterMap_cons, hhigh, hlow, hval]
    | cons next rest =>
      have h := ih (column + 1) (fun b hb => hbytes b (List.mem_cons_of_mem _ hb))
      unfold readHexdump at h ⊢
      rw [specHexdumpFrom, hexByte_eq byte hbyte]
      by_cases hcol : (column + 1) % 8 = 0
      · simp only [hcol, if_true, List.cons_append, List.nil_append, List.filterMap_cons,
          hhigh, hlow, hnl, readHexdump.pairs, h, hval]
      · simp only [hcol, if_false, List.cons_append, List.nil_append, List.filterMap_cons,
          hhigh, hlow, hsp, readHexdump.pairs, h, hval]

/-- The rows of the specification, joined, are the bytes. -/
theorem specHexdumpRows_flatten :
    ∀ (n : Nat) (data : List Nat), data.length = n → (specHexdumpRows data).flatten = data := by
  intro n
  induction n using Nat.strong_induction_on with
  | _ n ih =>
    intro data hlen
    by_cases h0 : data = []
    · subst h0
      simp [specHexdumpRows]
    · by_cases h8 : data.length ≤ 8
      · rw [specHexdumpRows_short data h0 h8]
        simp
      · rw [specHexdumpRows_long data (by omega), List.flatten_cons,
          ih (data.drop 8).length (by rw [List.length_drop]; omega) (data.drop 8) rfl,
          List.take_append_drop]

/-- Row `j` of the specification holds the bytes from `8 * j` on, at most 8 of them: it is
not empty, and it has 8 bytes when it is not the last row. -/
theorem specHexdumpRows_getElem (data : List Nat) (j : Nat) (row : List Nat)
    (hrow : (specHexdumpRows data)[j]? = some row) :
    row = (data.drop (8 * j)).take 8 ∧ 0 < row.length ∧ row.length ≤ 8
      ∧ (j + 1 < (specHexdumpRows data).length → row.length = 8) := by
  have hlen : (specHexdumpRows data).length = (data.length + 7) / 8 := by
    simp [specHexdumpRows]
  have hj : j < (data.length + 7) / 8 := by
    rw [← hlen]
    exact (List.getElem?_eq_some_iff.1 hrow).1
  have heq : row = (data.drop (8 * j)).take 8 := by
    have h := hrow
    simp only [specHexdumpRows, List.getElem?_map, List.getElem?_range hj, Option.map_some',
      Option.some.injEq] at h
    exact h.symm
  subst heq
  rw [hlen, List.length_take, List.length_drop]
  refine ⟨rfl, ?_, ?_, ?_⟩
  · exact Nat.lt_min.2 ⟨by omega, by omega⟩
  · exact Nat.min_le_left _ _
  · intro hnext
    exact Nat.min_eq_left (by omega)

/-- Claim C26: for a payload of `n` bytes `printHexdump` sends the dump of the
specification: every byte in order as exactly two hexadecimal digits, one space between
the bytes of a row, one line break between rows.  The rows are `ceil(n / 8)` in number,
together they are the payload, each has from 1 to 8 bytes and each but the last has 8.
The text does not end with a separator, nothing is sent for a size that is not positive,
and reading the digits of the dump back, two to a byte, gives the payload. -/
theorem printHexdump_rows (data : List Nat) (hbytes : ∀ byte ∈ data, byte < 256) :
    printHexdump data (data.length : Int) = some (specHexdump data)
      ∧ (∀ size : Int, size ≤ 0 → printHexdump data size = some [])
      ∧ (((specHexdumpRows data).length : Nat) : Int) = ceilDiv (data.length : Int) 8
      ∧ (specHexdumpRows data).flatten = data
      ∧ (∀ (j : Nat) (row : List Nat), (specHexdumpRows data)[j]? = some row →
          0 < row.length ∧ row.length ≤ 8
            ∧ (j + 1 < (specHexdumpRows data).length → row.length = 8))
      ∧ (∀ byte ∈ data,
          hexByte byte = [hexDigitLower (byte / 16), hexDigitLower (byte % 16)]
            ∧ hexDigitLower (byte / 16) ∈ "0123456789abcdef".toList
            ∧ hexDigitLower (byte % 16) ∈ "0123456789abcdef".toList)
      ∧ (data ≠ [] → ∃ c, (specHexdump data).getLast? = some c
          ∧ c ∈ "0123456789abcdef".toList)
      ∧ readHexdump (specHexdump data) = data := by
  have hspec : specHexdumpFrom data 0 = specHexdump data :=
    specHexdumpFrom_eq_specHexdump data.length data rfl 0 rfl
  refine ⟨?_, ?_, ?_, specHexdumpRows_flatten data.length data rfl, ?_, ?_, ?_, ?_⟩
  · have h := printHexdump.loop_eq data data [] [] (by simp)
    rw [List.length_nil, List.nil_append, hspec] at h
    unfold printHexdump
    rw [Int.toNat_ofNat, h]
  · intro size hsize
    have h0 : size.toNat = 0 := Int.toNat_eq_zero.2 hsize
    unfold printHexdump
    rw [h0, printHexdump.loop]
  · rw [ceilDiv_eq_ediv _ _ (by norm_num)]
    simp only [specHexdumpRows, List.length_map, List.length_range]
    omega
  · intro j row hrow
    exact (specHexdumpRows_getElem data j row hrow).2
  · intro byte hbyte
    have hlt := hbytes byte hbyte
    exact ⟨hexByte_eq byte hlt, (hexDigitLower_spec _ (by omega)).2,
      (hexDigitLower_spec _ (by omega)).2⟩
  · intro hne
    rw [← hspec]
    exact specHexdumpFrom_getLast data 0 hne hbytes
  · rw [← hspec]
    exact readHexdump_specHexdumpFrom data 0 hbytes

/-- Witness for C26: a payload of 10 bytes is dumped in two rows, of 8 and 2 bytes. -/
theorem printHexdump_rows_witness :
    printHexdump [0, 1, 255, 16, 9, 10, 11, 12, 13, 200] 10
        = some "00 01 ff 10 09 0a 0b 0c\n0d c8".toList
      ∧ specHexdumpRows [0, 1, 255, 16, 9, 10, 11, 12, 13, 200]
        = [[0, 1, 255, 16, 9, 10, 11, 12], [13, 200]]
      ∧ readHexdump "00 01 ff 10 09 0a 0b 0c\n0d c8".toList
        = [0, 1, 255, 16, 9, 10, 11, 12, 13, 200] := by
  have h := printHexdump_rows [0, 1, 255, 16, 9, 10, 11, 12, 13, 200] (by decide)
  have hrows : specHexdumpRows [0, 1, 255, 16, 9, 10, 11, 12, 13, 200]
      = [[0, 1, 255, 16, 9, 10, 11, 12], [13, 200]] := by decide
  have htext : specHexdump [0, 1, 255, 16, 9, 10, 11, 12, 13, 200]
      = "00 01 ff 10 09 0a 0b 0c\n0d c8".toList := by
    simp only [specHexdump, hrows, List.map_cons, List.map_nil,
      hexByte_eq 0 (by decide), hexByte_eq 1 (by decide), hexByte_eq 255 (by decide),
      hexByte_eq 16 (by decide), hexByte_eq 9 (by decide), hexByte_eq 10 (by decide),
      hexByte_eq 11 (by decide), hexByte_eq 12 (by decide), hexByte_eq 13 (by decide),
      hexByte_eq 200 (by decide)]
    decide
  refine ⟨?_, hrows, ?_⟩
  · rw [← htext]
    exact h.1
  · rw [← htext]
    exact h.2.2.2.2.2.2.2

end VcuDecoder
